import Mathlib

/-!
# Calendon runtime core: tick generation, command-line dispatch, start-up,
the loop and shutdown; 2D transforms, the texture atlas and image flipping

A shallow embedding of `src/calendon/time.c`, `src/calendon/main.c`,
`src/calendon/main-config.c`, `src/calendon/command-line-option.c`, the
file test of `src/calendon/path.c`, the transforms of `src/calendon/math2.c`,
and `src/knell/atlas.c` and `Image_Flip` of `src/knell/image.c`.

* `uint64_t` values are natural numbers; arithmetic that can wrap is reduced
  modulo `2 ^ 64`.
* File-scope statics (`s_lastTick`, the configuration blocks) are passed in
  and returned explicitly.
* `CN_FATAL_ERROR` / `CN_ASSERT` abort the process; a function that can abort
  returns `Except String`, the error carrying the diagnostic's format string.
  A crash, such as a call through a NULL pointer, is an error as well, the
  string describing the crash.
-/

namespace Calendon

/-! ## Time (`time.c`) -/

/-- The number of values of a `uint64_t`. -/
def UINT64_SIZE : Nat := 2 ^ 64

/-- `CnTime`: a struct with the single `uint64_t` field `native`, counted in
nanoseconds (`cnTime_MakeNow` stores `cnTime_NowNs()`). -/
structure CnTime where
  native : Nat
deriving DecidableEq, Repr

/-- `cnTime_MsToNs`: `ms * 1000 * 1000` in `uint64_t` arithmetic. -/
def cnTime_MsToNs (ms : Nat) : Nat := (ms * 1000 * 1000) % UINT64_SIZE

/-- `cnTime_NsToMs`: `ns / (1000 * 1000)`. -/
def cnTime_NsToMs (ns : Nat) : Nat := ns / (1000 * 1000)

/-- `cnUInt64_MonotonicSubtract`: `0` when `left < right`, else `left - right`. -/
def cnUInt64_MonotonicSubtract (left right : Nat) : Nat :=
  if left < right then 0 else left - right

/-- `cnTime_MakeMilli`. -/
def cnTime_MakeMilli (millis : Nat) : CnTime := ⟨cnTime_MsToNs millis⟩

/-- `cnTime_Milli`. -/
def cnTime_Milli (t : CnTime) : Nat := cnTime_NsToMs t.native

/-- `cnTime_MonotonicSubtract` as defined in `time.c`. -/
def cnTime_MonotonicSubtract (left right : CnTime) : CnTime :=
  ⟨cnUInt64_MonotonicSubtract left.native right.native⟩

/-- Modelled from the spec: `cnTime_SubtractMonotonic` is declared in `time.h`
and called by `cnMain_GenerateTick`, but no definition under that name is in
the sources; `time.c` defines the operation as `cnTime_MonotonicSubtract`.
The spec (4.4, step 2) describes it as `current - lastTick`, clamped to zero
if it would underflow, which is that function. -/
def cnTime_SubtractMonotonic (left right : CnTime) : CnTime :=
  cnTime_MonotonicSubtract left right

/-- `cnTime_LessThan`: `left.native < right.native`. -/
def cnTime_LessThan (left right : CnTime) : Bool := decide (left.native < right.native)

/-- `cnTime_Max`: `cnTime_LessThan(left, right) ? right : left`. -/
def cnTime_Max (left right : CnTime) : CnTime :=
  if cnTime_LessThan left right then right else left

/-! ## Tick generation (`main.c`) -/

/-- What one call of `cnMain_GenerateTick` leaves behind: the returned flag,
the content of `*outDt`, and the static `s_lastTick`. -/
structure TickResult where
  ret : Bool
  outDt : CnTime
  lastTick : CnTime
deriving DecidableEq, Repr

/-- `cnMain_GenerateTick`.  `s_lastTick` is the static before the call, `now`
the value `cnTime_MakeNow()` returns during the call, and `outDt` the content
of `*outDt` before the call (it is written only when a tick is generated). -/
def cnMain_GenerateTick (s_lastTick now outDt : CnTime) : TickResult :=
  let current := cnTime_Max s_lastTick now
  let minTickSize := cnTime_MakeMilli 8
  let dt := cnTime_SubtractMonotonic current s_lastTick
  if cnTime_LessThan dt minTickSize then
    { ret := false, outDt := outDt, lastTick := s_lastTick }
  else
    let maxTickSize := cnTime_MakeMilli 5000
    if cnTime_LessThan maxTickSize dt then
      { ret := false, outDt := outDt, lastTick := current }
    else
      { ret := true, outDt := dt, lastTick := current }

/-- Successive calls of `cnMain_GenerateTick`, one per clock reading in
`readings`, each starting from the `s_lastTick` and `*outDt` the previous call
left; the results are listed in call order. -/
def generateTicks (s_lastTick outDt : CnTime) : List CnTime → List TickResult
  | [] => []
  | now :: rest =>
    let r := cnMain_GenerateTick s_lastTick now outDt
    r :: generateTicks r.lastTick r.outDt rest

/-! ## Command-line grammar

The parse cursor (`command-line-parse.c`) and the declarations of
`CnCommandLineOption`, `CnSystem` and `CnPlugin` are not among the sources;
the structures below collect the fields the sources read and write. -/

/-- Modelled from the spec: the parse cursor, "the argument vector, its
length, and a current index" (the file defining `CnCommandLineParse` is
missing).  `index` counts the tokens consumed so far, the executable name
included, so it is also the position of the next unconsumed token.  The C
`int`s `argc` and `index` are never negative and are natural numbers here. -/
structure CnCommandLineParse where
  argc : Nat
  argv : List String
  index : Nat
deriving DecidableEq, Repr

/-- Modelled from the spec: `cnCommandLineParse_Make` (definition missing).
The cursor starts after the executable name, `argv[0]`. -/
def cnCommandLineParse_Make (argc : Nat) (argv : List String) : CnCommandLineParse :=
  { argc := argc, argv := argv, index := 1 }

/-- Modelled from the spec: `cnCommandLineParse_ShouldContinue` (definition
missing), "the cursor has unconsumed tokens". -/
def cnCommandLineParse_ShouldContinue (parse : CnCommandLineParse) : Bool :=
  decide (parse.index < parse.argc)

/-- Modelled from the spec: `cnCommandLineParse_HasLookAhead` (definition
missing): at least `amount` unconsumed tokens remain. -/
def cnCommandLineParse_HasLookAhead (parse : CnCommandLineParse) (amount : Nat) : Bool :=
  decide (parse.index + amount ≤ parse.argc)

/-- Modelled from the spec: `cnCommandLineParse_LookAheadIndex` (definition
missing): the position of the `amount`-th unconsumed token.  `main.c` reports
`LookAheadIndex(parse, 1)` as the index of the token it could not parse. -/
def cnCommandLineParse_LookAheadIndex (parse : CnCommandLineParse) (amount : Nat) : Nat :=
  parse.index + amount - 1

/-- Modelled from the spec: `cnCommandLineParse_LookAhead` (definition
missing): "look-ahead reads at index+N without mutating state".  The sources
call `LookAhead(parse, 1)` the next argument to parse and read the argument of
a flag with `LookAhead(parse, 2)`, so the `amount`-th unconsumed token is
meant.  `none` is a read outside the vector. -/
def cnCommandLineParse_LookAhead (parse : CnCommandLineParse) (amount : Nat) : Option String :=
  parse.argv[cnCommandLineParse_LookAheadIndex parse amount]?

/-- Modelled from the spec: `cnCommandLineParse_Advance` (definition missing):
"advance is the only mutator and must move forward by exactly the amount
reported by a successful handler". -/
def cnCommandLineParse_Advance (parse : CnCommandLineParse) (argsParsed : Int) :
    CnCommandLineParse :=
  { parse with index := parse.index + argsParsed.toNat }

/-- `CnCommandLineOption`, as initialised in `main-config.c`: help text, short
flag, long flag, handler.  A `char*` that may be NULL is an `Option String`.
The handler reads the cursor and its subsystem's configuration block `C`,
and returns an `int32_t` together with the block as it leaves it. -/
structure CnCommandLineOption (C : Type) where
  help : Option String
  shortOption : Option String
  longOption : Option String
  parser : CnCommandLineParse → C → Int × C

/-- `strcmp(nextArg, flag) == 0`: the two strings are equal character for
character.  A `nextArg` read outside the vector equals no flag. -/
def strcmpEq (nextArg : Option String) (flag : String) : Bool :=
  nextArg == some flag

/-- `cnCommandLineOption_Matches` (`command-line-option.c`).  `option` and
`parse->argv` are never NULL here; the `CN_ASSERT` on
`cnCommandLineParse_ShouldContinue` aborts when no token is left. -/
def cnCommandLineOption_Matches {C : Type} (option : CnCommandLineOption C)
    (parse : CnCommandLineParse) : Except String Bool :=
  if !cnCommandLineParse_ShouldContinue parse then
    .error "No more options to match."
  else
    let nextArg := cnCommandLineParse_LookAhead parse 1
    .ok ((match option.shortOption with
          | some s => strcmpEq nextArg s
          | none => false)
        || (match option.longOption with
          | some l => strcmpEq nextArg l
          | none => false))

/-- `CnPlugin`: four function pointers and the shared-library handle, in the
order `cnMain_Plugin` initialises them.  A pointer is `none` when NULL and
otherwise names its target. -/
structure CnPlugin where
  init : Option Nat
  shutdown : Option Nat
  tick : Option Nat
  draw : Option Nat
  sharedLibrary : Option Nat
deriving DecidableEq, Repr

/-- `CnSystem`, with the fields `cnMain_System` initialises.  `options` is the
list `system->options()` returns, `config` the address `system->config()`
returns, `setDefaultConfig` a possibly-NULL function on the block at that
address, `plugin` the value `system->plugin()` returns. -/
structure CnSystem (C : Type) where
  name : Option String
  options : List (CnCommandLineOption C)
  config : Nat
  setDefaultConfig : Option (C → C)
  plugin : CnPlugin

/-- One invocation of an option handler: the subsystem's position in the
registry, the option's position in that subsystem's list, the address of the
configuration block passed, the cursor index at the call, and the value the
handler returned. -/
structure HandlerCall where
  system : Nat
  option : Nat
  config : Nat
  index : Nat
  ret : Int
deriving DecidableEq, Repr

/-- The memory the dispatcher works on: the configuration blocks by address,
and the handler invocations so far, oldest first. -/
structure ParseState (C : Type) where
  configs : Nat → C
  calls : List HandlerCall

/-- The call `option->parser(commandLineParse, system->config())`: the handler
runs on the block at the system's configuration address; the block it leaves
is stored back and the invocation recorded. -/
def callParser {C : Type} (commandLineParse : CnCommandLineParse) (systemIndex : Nat)
    (system : CnSystem C) (parserIndex : Nat) (option : CnCommandLineOption C)
    (st : ParseState C) : Int × ParseState C :=
  let r := option.parser commandLineParse (st.configs system.config)
  (r.1,
    { configs := Function.update st.configs system.config r.2,
      calls := st.calls ++
        [{ system := systemIndex, option := parserIndex, config := system.config,
           index := commandLineParse.index, ret := r.1 }] })

/-- The `for` loop of `cnMain_RunSystemParsers` from option `parserIndex` on:
the first matching option's handler is called with the system's
configuration block and its value returned; with no match, `0`. -/
def cnMain_RunSystemParsers_from {C : Type} (commandLineParse : CnCommandLineParse)
    (systemIndex : Nat) (system : CnSystem C) :
    Nat → List (CnCommandLineOption C) → ParseState C → Except String (Int × ParseState C)
  | _, [], st => .ok (0, st)
  | parserIndex, option :: rest, st =>
    match cnCommandLineOption_Matches option commandLineParse with
    | .error e => .error e
    | .ok true => .ok (callParser commandLineParse systemIndex system parserIndex option st)
    | .ok false =>
      cnMain_RunSystemParsers_from commandLineParse systemIndex system (parserIndex + 1) rest st

/-- `cnMain_RunSystemParsers` for the subsystem at `systemIndex` of the
registry. -/
def cnMain_RunSystemParsers {C : Type} (commandLineParse : CnCommandLineParse)
    (systemIndex : Nat) (system : CnSystem C) (st : ParseState C) :
    Except String (Int × ParseState C) :=
  cnMain_RunSystemParsers_from commandLineParse systemIndex system 0 system.options st

/-- The inner `while` of `cnMain_ParseCommandLine`, entered with
`argsParsed == 0` at subsystem `systemIndex`: subsystems are asked in
registration order until one returns a non-zero value. -/
def cnMain_ParseCommandLine_scan {C : Type} (commandLineParse : CnCommandLineParse) :
    Nat → List (CnSystem C) → ParseState C → Except String (Int × ParseState C)
  | _, [], st => .ok (0, st)
  | systemIndex, system :: rest, st =>
    match cnMain_RunSystemParsers commandLineParse systemIndex system st with
    | .error e => .error e
    | .ok (argsParsed, st1) =>
      if argsParsed ≠ 0 then .ok (argsParsed, st1)
      else cnMain_ParseCommandLine_scan commandLineParse (systemIndex + 1) rest st1

/-- What `cnMain_ParseCommandLine` leaves behind when it returns: the returned
flag, the cursor, the configuration blocks, the handler invocations, and the
token and index printed by "Unable to parse argument" (if printed). -/
structure ParseResult (C : Type) where
  ret : Bool
  parse : CnCommandLineParse
  configs : Nat → C
  calls : List HandlerCall
  unparsed : Option (Option String × Nat)

/-- The state in which `cnMain_ParseCommandLine` returns true: the outer
`while` has ended. -/
def parseDone {C : Type} (commandLineParse : CnCommandLineParse) (st : ParseState C) :
    ParseResult C :=
  { ret := true, parse := commandLineParse, configs := st.configs, calls := st.calls,
    unparsed := none }

/-- The state in which `cnMain_ParseCommandLine` returns false: the token
`LookAhead(parse, 1)` and the index `LookAheadIndex(parse, 1)` are printed,
the cursor is not advanced.  The usage text `cnMain_PrintUsage` prints next is
not recorded. -/
def parseFailed {C : Type} (commandLineParse : CnCommandLineParse) (st : ParseState C) :
    ParseResult C :=
  { ret := false, parse := commandLineParse, configs := st.configs, calls := st.calls,
    unparsed := some (cnCommandLineParse_LookAhead commandLineParse 1,
                      cnCommandLineParse_LookAheadIndex commandLineParse 1) }

/-- The outer `while` of `cnMain_ParseCommandLine`.  The first argument
bounds the number of iterations; `none` means the bound was reached with
tokens left. -/
def cnMain_ParseCommandLine_loop {C : Type} (s_coreSystems : List (CnSystem C)) :
    Nat → CnCommandLineParse → ParseState C → Option (Except String (ParseResult C))
  | 0, commandLineParse, st =>
    if cnCommandLineParse_ShouldContinue commandLineParse then none
    else some (.ok (parseDone commandLineParse st))
  | fuel + 1, commandLineParse, st =>
    if cnCommandLineParse_ShouldContinue commandLineParse then
      match cnMain_ParseCommandLine_scan commandLineParse 0 s_coreSystems st with
      | .error e => some (.error e)
      | .ok (argsParsed, st1) =>
        if argsParsed ≤ 0 then some (.ok (parseFailed commandLineParse st1))
        else
          cnMain_ParseCommandLine_loop s_coreSystems fuel
            (cnCommandLineParse_Advance commandLineParse argsParsed) st1
    else some (.ok (parseDone commandLineParse st))

/-- Modelled from the spec: the macro `CN_ASSERT_PTR` is not defined in the
sources (their `cn.h` has `CN_ASSERT_NOT_NULL`, which aborts with
"<value> is null.").  The spec makes a descriptor without a default-config
function "a fatal configuration error, not merely logged", so a NULL pointer
aborts. -/
def CN_ASSERT_PTR {α : Type} (value : String) (ptr : Option α) : Except String α :=
  match ptr with
  | none => .error (value ++ " is null.")
  | some target => .ok target

/-- The first `for` loop of `cnMain_ParseCommandLine`: in registration order,
the default-config function of every subsystem is applied to the block at its
configuration address; a NULL one is logged and then fails `CN_ASSERT_PTR`. -/
def cnMain_ParseCommandLine_defaults {C : Type} :
    List (CnSystem C) → (Nat → C) → Except String (Nat → C)
  | [], configs => .ok configs
  | system :: rest, configs =>
    match CN_ASSERT_PTR "s_coreSystems[i].setDefaultConfig" system.setDefaultConfig with
    | .error e => .error e
    | .ok setDefaultConfig =>
      cnMain_ParseCommandLine_defaults rest
        (Function.update configs system.config (setDefaultConfig (configs system.config)))

/-- `cnMain_ParseCommandLine` over the registry `s_coreSystems` and the
configuration memory `configs`.  Each iteration of the outer loop consumes at
least one token, so `argc` iterations are enough. -/
def cnMain_ParseCommandLine {C : Type} (s_coreSystems : List (CnSystem C)) (configs : Nat → C)
    (argc : Nat) (argv : List String) : Option (Except String (ParseResult C)) :=
  if argc < 1 then
    some (.error "Argument count must at least include the executable.")
  else
    match cnMain_ParseCommandLine_defaults s_coreSystems configs with
    | .error e => some (.error e)
    | .ok configs1 =>
      cnMain_ParseCommandLine_loop s_coreSystems argc
        (cnCommandLineParse_Make argc argv) { configs := configs1, calls := [] }

/-! ## Vocabulary of the claims about the dispatcher -/

/-- The token is equal to the option's non-null short flag or to its non-null
long flag. -/
def flagEquals {C : Type} (option : CnCommandLineOption C) (token : String) : Bool :=
  decide (option.shortOption = some token ∨ option.longOption = some token)

/-- The first option, in list order, with a flag equal to the token, and its
position (positions are counted from `parserIndex`). -/
def firstOption {C : Type} (token : String) :
    Nat → List (CnCommandLineOption C) → Option (Nat × CnCommandLineOption C)
  | _, [] => none
  | parserIndex, option :: rest =>
    if flagEquals option token then some (parserIndex, option)
    else firstOption token (parserIndex + 1) rest

/-- The first subsystem, in registration order, that has an option with a
flag equal to the token, with its position (counted from `systemIndex`) and
its first such option. -/
def firstSystem {C : Type} (token : String) :
    Nat → List (CnSystem C) → Option (Nat × CnSystem C × Nat × CnCommandLineOption C)
  | _, [] => none
  | systemIndex, system :: rest =>
    match firstOption token 0 system.options with
    | some (parserIndex, option) => some (systemIndex, system, parserIndex, option)
    | none => firstSystem token (systemIndex + 1) rest

/-- The tokens from position `i` up to position `j` split, left to right,
into groups; each group starts with a token that equals a flag of some
registered option whose handler, run on the cursor at that token and on its
subsystem's configuration block, returns the group's positive length.
`configs` is the configuration memory before, `configs1` after. -/
inductive FlagGroups {C : Type} (systems : List (CnSystem C)) (argc : Nat)
    (argv : List String) : Nat → (Nat → C) → Nat → (Nat → C) → Prop
  | done (i : Nat) (configs : Nat → C) : FlagGroups systems argc argv i configs i configs
  | group {i j : Nat} {configs configs1 : Nat → C} (token : String)
      (system : CnSystem C) (option : CnCommandLineOption C)
      (hi : i < argc) (htoken : argv[i]? = some token)
      (hsystem : system ∈ systems) (hoption : option ∈ system.options)
      (hflag : flagEquals option token = true)
      (hret : 0 < (option.parser ⟨argc, argv, i⟩ (configs system.config)).1)
      (hrest : FlagGroups systems argc argv
        (i + (option.parser ⟨argc, argv, i⟩ (configs system.config)).1.toNat)
        (Function.update configs system.config
          (option.parser ⟨argc, argv, i⟩ (configs system.config)).2)
        j configs1) :
      FlagGroups systems argc argv i configs j configs1

/-- As `FlagGroups`, with the option of each group being the first one, in
registration order and then option-list order, with a flag equal to the
group's first token. -/
inductive ResolvedGroups {C : Type} (systems : List (CnSystem C)) (argc : Nat)
    (argv : List String) : Nat → (Nat → C) → Nat → (Nat → C) → Prop
  | done (i : Nat) (configs : Nat → C) : ResolvedGroups systems argc argv i configs i configs
  | group {i j : Nat} {configs configs1 : Nat → C} (token : String)
      (systemIndex : Nat) (system : CnSystem C)
      (parserIndex : Nat) (option : CnCommandLineOption C)
      (hi : i < argc) (htoken : argv[i]? = some token)
      (hfirst : firstSystem token 0 systems = some (systemIndex, system, parserIndex, option))
      (hret : 0 < (option.parser ⟨argc, argv, i⟩ (configs system.config)).1)
      (hrest : ResolvedGroups systems argc argv
        (i + (option.parser ⟨argc, argv, i⟩ (configs system.config)).1.toNat)
        (Function.update configs system.config
          (option.parser ⟨argc, argv, i⟩ (configs system.config)).2)
        j configs1) :
      ResolvedGroups systems argc argv i configs j configs1

/-- The first token, after the executable name, that matches no option of any
registered subsystem sits at index `k`. -/
def FirstUnmatchedAt {C : Type} (systems : List (CnSystem C)) (argv : List String)
    (k : Nat) : Prop :=
  1 ≤ k ∧ (∃ token, argv[k]? = some token ∧ firstSystem token 0 systems = none) ∧
  ∀ i, 1 ≤ i → i < k → ∃ token, argv[i]? = some token ∧ firstSystem token 0 systems ≠ none

/-- The part of a `ParseResult` that can be compared by computation. -/
structure ParseSummary where
  ret : Bool
  index : Nat
  calls : List HandlerCall
  unparsed : Option (Option String × Nat)
deriving DecidableEq, Repr

/-- The summary of what `cnMain_ParseCommandLine` produced: `none` if the
iteration bound was hit, `some none` if it aborted. -/
def parseSummary {C : Type} :
    Option (Except String (ParseResult C)) → Option (Option ParseSummary)
  | none => none
  | some (.error _) => some none
  | some (.ok r) =>
    some (some { ret := r.ret, index := r.parse.index, calls := r.calls, unparsed := r.unparsed })

/-- The tokens the recorded handler invocations reported as consumed: the sum
of their positive return values. -/
def consumedBy (calls : List HandlerCall) : Nat :=
  (calls.map fun call => call.ret.toNat).sum

/-! ## Registries used as examples -/

/-- An option with short flag `flag`, no long flag, and a handler that returns
`ret` and leaves the configuration block alone. -/
def constOption (flag : String) (ret : Int) : CnCommandLineOption Nat :=
  { help := none, shortOption := some flag, longOption := none,
    parser := fun _ c => (ret, c) }

/-- A subsystem with the given options, its configuration block at address
`config`, and a default-config function that zeroes the block. -/
def exampleSystem (config : Nat) (options : List (CnCommandLineOption Nat)) : CnSystem Nat :=
  { name := none, options := options, config := config,
    setDefaultConfig := some fun _ => 0,
    plugin := { init := none, shutdown := none, tick := none, draw := none,
                sharedLibrary := none } }

/-- An option `-t,--tick-limit` in the manner of `cnMain_OptionTickLimit`: it
needs a following argument (else the parse-error value -1), stores the
argument's length in the block and reports 2 tokens. -/
def argOption : CnCommandLineOption Nat :=
  { help := none, shortOption := some "-t", longOption := some "--tick-limit",
    parser := fun parse c =>
      if cnCommandLineParse_HasLookAhead parse 2 then
        (2, ((cnCommandLineParse_LookAhead parse 2).getD "").length)
      else (-1, c) }

/-- Two subsystems declare `-x`; the handler of the first fails with the
parse-error value, the handler of the second reports one token. -/
def failingFirstRegistry : List (CnSystem Nat) :=
  [exampleSystem 0 [constOption "-x" (-1)], exampleSystem 1 [constOption "-x" 1]]

/-- Two subsystems declare `-x`; the handler of the first returns 0, the
handler of the second reports one token. -/
def zeroFirstRegistry : List (CnSystem Nat) :=
  [exampleSystem 0 [constOption "-x" 0], exampleSystem 1 [constOption "-x" 1]]

/-- Two subsystems declare `-x`; both handlers succeed, reporting one and two
tokens. -/
def sharedFlagRegistry : List (CnSystem Nat) :=
  [exampleSystem 0 [constOption "-x" 1], exampleSystem 1 [constOption "-x" 2]]

/-- A subsystem with `-t,--tick-limit ARG` registered before one with `-x`. -/
def tickLimitRegistry : List (CnSystem Nat) :=
  [exampleSystem 0 [argOption], exampleSystem 1 [constOption "-x" 1]]

/-! ## The C library: `strtoll`, `errno` -/

/-- The value `errno` has after a range error (`ERANGE` of `<errno.h>`). -/
def ERANGE : Int := 34

/-- `LLONG_MAX` for a 64-bit `long long`. -/
def LLONG_MAX : Int := 2 ^ 63 - 1

/-- `LLONG_MIN` for a 64-bit `long long`. -/
def LLONG_MIN : Int := -(2 ^ 63)

/-- `isspace` in the C locale. -/
def isspace (c : Char) : Bool :=
  c == ' ' || c == '\t' || c == '\n' || c == '\x0b' || c == '\x0c' || c == '\r'

/-- The value of a decimal digit character. -/
def digitValue (c : Char) : Nat := c.toNat - '0'.toNat

/-- The number a run of decimal digits denotes. -/
def decimalValue (digits : List Char) : Nat :=
  digits.foldl (fun acc c => acc * 10 + digitValue c) 0

/-- What `strtoll(nptr, &endptr, 10)` leaves behind: the returned value, the
string `endptr` points at, and `errno`. -/
structure StrtollResult where
  value : Int
  endptr : List Char
  errno : Int
deriving DecidableEq, Repr

/-- The C library's `strtoll(nptr, &endptr, 10)` in the C locale (ISO C
7.22.1.4): leading white space is skipped, an optional sign is read, then the
longest run of decimal digits.  Without a digit no conversion is performed:
the value is 0 and `endptr` is `nptr`.  A value outside the range of
`long long` is clamped and `errno` set to `ERANGE`; otherwise `errno` keeps
the value it had. -/
def strtoll (nptr : List Char) (errno : Int) : StrtollResult :=
  let afterSpace := nptr.dropWhile isspace
  let negative := afterSpace.head? == some '-'
  let unsigned :=
    if afterSpace.head? == some '-' || afterSpace.head? == some '+' then afterSpace.tail
    else afterSpace
  let digits := unsigned.takeWhile Char.isDigit
  if digits = [] then { value := 0, endptr := nptr, errno := errno }
  else if negative then
    if (2 : Int) ^ 63 < decimalValue digits then
      { value := LLONG_MIN, endptr := unsigned.dropWhile Char.isDigit, errno := ERANGE }
    else
      { value := -(decimalValue digits : Int), endptr := unsigned.dropWhile Char.isDigit,
        errno := errno }
  else
    if LLONG_MAX < decimalValue digits then
      { value := LLONG_MAX, endptr := unsigned.dropWhile Char.isDigit, errno := ERANGE }
    else
      { value := (decimalValue digits : Int), endptr := unsigned.dropWhile Char.isDigit,
        errno := errno }

/-! ## The main configuration (`main-config.c`, `path.c`) -/

/-- What the option handlers of `main-config.c` take from outside the program:
constants and functions whose definitions are not among the sources, the file
system, and the value of `errno` when a handler is entered. -/
structure Env where
  /-- The constant `CN_MAX_TERMINATED_PATH`. -/
  CN_MAX_TERMINATED_PATH : Nat
  /-- The function `cnString_TerminatedFitsIn(str, bytes)`. -/
  cnString_TerminatedFitsIn : String → Nat → Bool
  /-- The function `cnString_FitsWithNull(str, bytes)`. -/
  cnString_FitsWithNull : String → Nat → Bool
  /-- The call `stat(path, &info)`: `none` when it fails, else whether
  `S_ISDIR(info.st_mode)` holds. -/
  stat : String → Option Bool
  /-- The directory `cnEnv_CurrentWorkingDirectory` reports. -/
  cwd : String
  /-- The value of `errno` when an option handler is entered. -/
  errno : Int

/-- Modelled from the spec: the constant `CnOptionParseError`, the "negative
error sentinel" a handler returns; its declaration is not among the sources
and -1 stands for it. -/
def CnOptionParseError : Int := -1

/-- `cnPath_IsFile` (`path.c`, the branch compiled outside Windows): false for
a NULL path and when `stat` fails, else whether the entry is not a
directory. -/
def cnPath_IsFile (env : Env) (path : Option String) : Bool :=
  match path with
  | none => false
  | some p =>
    match env.stat p with
    | none => false
    | some isDir => !isDir

/-- `cnPathBuffer_Set` (`path.c`) on the buffer's content `str`: the new
content and the returned flag. -/
def cnPathBuffer_Set (env : Env) (str : String) (initialPath : String) : String × Bool :=
  if env.cnString_FitsWithNull initialPath env.CN_MAX_TERMINATED_PATH then (initialPath, true)
  else (str, false)

/-- `CnMainConfig`, with the fields `main-config.c` and `main.c` use: the
payload, the content of the path buffer `gameLibPath`, and the tick limit
(only values from 0 to `LLONG_MAX` are ever stored). -/
structure CnMainConfig where
  payload : CnPlugin
  gameLibPath : String
  tickLimit : Nat
deriving DecidableEq, Repr

/-- `cnMain_Config`: the address of the static `s_config`. -/
def cnMain_Config : Nat := 0

/-- `cnMain_SetDefaultConfig`: `memset(c, 0, sizeof(CnMainConfig))`. -/
def cnMain_SetDefaultConfig (_config : CnMainConfig) : CnMainConfig :=
  { payload := { init := none, shutdown := none, tick := none, draw := none,
                 sharedLibrary := none },
    gameLibPath := "", tickLimit := 0 }

/-- What an option handler of `main-config.c` leaves behind: the returned
value, the configuration block, the lines it printed with `cnPrint`, and the
positions of the argument vector it read through
`cnCommandLineParse_LookAhead`. -/
structure OptionResult where
  ret : Int
  config : CnMainConfig
  printed : List String
  reads : List Nat
deriving DecidableEq, Repr

/-- `cnMain_OptionPayload` (`main-config.c`).  A look-ahead that falls outside
the vector reads as the empty string; this cannot happen when `argc` is the
length of `argv`. -/
def cnMain_OptionPayload (env : Env) (parse : CnCommandLineParse) (config : CnMainConfig) :
    OptionResult :=
  if !cnCommandLineParse_HasLookAhead parse 2 then
    { ret := CnOptionParseError, config := config,
      printed := ["Payload must be provided a shared library (or DLL) to load\n"],
      reads := [] }
  else
    let gamePath := (cnCommandLineParse_LookAhead parse 2).getD ""
    let reads := [cnCommandLineParse_LookAheadIndex parse 2]
    if env.cnString_TerminatedFitsIn gamePath env.CN_MAX_TERMINATED_PATH then
      if !cnPath_IsFile env (some gamePath) then
        { ret := CnOptionParseError, config := config,
          printed := ["Current working directory is: " ++ env.cwd ++ "\n",
                      "Game library " ++ gamePath ++ " does not exist.\n"],
          reads := reads }
      else
        let gameLibPath := (cnPathBuffer_Set env config.gameLibPath gamePath).1
        { ret := 2, config := { config with gameLibPath := gameLibPath },
          printed := ["Game library: '" ++ gameLibPath ++ "'\n"],
          reads := reads }
    else
      { ret := CnOptionParseError, config := config,
        printed := ["Length of name of game library is too long."],
        reads := reads }

/-- `cnMain_OptionTickLimit` (`main-config.c`).  `errno` is not cleared before
`strtoll` is called, so the test `errno == ERANGE` sees the value `errno` had
on entry unless `strtoll` itself reports a range error. -/
def cnMain_OptionTickLimit (env : Env) (parse : CnCommandLineParse) (config : CnMainConfig) :
    OptionResult :=
  if !cnCommandLineParse_HasLookAhead parse 2 then
    { ret := CnOptionParseError, config := config,
      printed := ["Must provide the number of ticks for which to run the program.\n"],
      reads := [] }
  else
    let tickString := (cnCommandLineParse_LookAhead parse 2).getD ""
    let reads := [cnCommandLineParse_LookAheadIndex parse 2]
    let parsed := strtoll tickString.toList env.errno
    let parsedValue := parsed.value
    if parsedValue < 0 then
      { ret := CnOptionParseError, config := config,
        printed := ["Cannot step a negative number of ticks: " ++ tickString ++ "\n"],
        reads := reads }
    else if parsed.endptr ≠ [] ∨ parsed.errno = ERANGE then
      { ret := CnOptionParseError, config := config,
        printed := ["Unable to parse tick limit: " ++ tickString ++ "\n"],
        reads := reads }
    else
      { ret := 2, config := { config with tickLimit := parsedValue.toNat },
        printed := [], reads := reads }

/-- The table `s_options` that `cnMain_CommandLineOptionList` returns; a
handler's table entry passes on the value it returns and the block it
leaves. -/
def cnMain_CommandLineOptionList (env : Env) : List (CnCommandLineOption CnMainConfig) :=
  [{ help := some "-g,--game SHARED_LIB       Change the game/demo to boot.\n",
     shortOption := some "-g", longOption := some "--game",
     parser := fun parse c =>
      ((cnMain_OptionPayload env parse c).ret, (cnMain_OptionPayload env parse c).config) },
   { help := some "-t,--tick-limit NUM_TICKS  Limit the run to a specific number of ticks.\n",
     shortOption := some "-t", longOption := some "--tick-limit",
     parser := fun parse c =>
      ((cnMain_OptionTickLimit env parse c).ret, (cnMain_OptionTickLimit env parse c).config) }]

/-! ## The subsystem registry and the payload (`main.c`) -/

/-- The constant `CnMaxNumCoreSystems`. -/
def CnMaxNumCoreSystems : Nat := 16

/-- `cnMain_AddCoreSystem`.  The registry is the list of the first
`s_numCoreSystems` entries of the array `s_coreSystems`, so that the count is
its length and position `i` of the array is its `i`-th element; the failing
`CN_ASSERT` aborts. -/
def cnMain_AddCoreSystem {C : Type} (s_coreSystems : List (CnSystem C)) (system : CnSystem C) :
    Except String (List (CnSystem C)) :=
  if s_coreSystems.length < CnMaxNumCoreSystems then .ok (s_coreSystems ++ [system])
  else .error "Too many core systems added."

/-- The address of the function `cnMain_Init`. -/
def cnMain_Init_address : Nat := 0

/-- `cnMain_Plugin`: only `init` is set. -/
def cnMain_Plugin : CnPlugin :=
  { init := some cnMain_Init_address, shutdown := none, tick := none, draw := none,
    sharedLibrary := none }

/-- `cnMain_System`. -/
def cnMain_System (env : Env) : CnSystem CnMainConfig :=
  { name := some "Main", options := cnMain_CommandLineOptionList env, config := cnMain_Config,
    setDefaultConfig := some cnMain_SetDefaultConfig, plugin := cnMain_Plugin }

/-- The descriptors the functions `cnLog_System`, `cnCrash_System`,
`cnMem_System`, `cnTime_System` and `cnAssets_System` return; none of these
functions is among the sources. -/
structure CoreSystemFns where
  cnLog_System : CnSystem CnMainConfig
  cnCrash_System : CnSystem CnMainConfig
  cnMem_System : CnSystem CnMainConfig
  cnTime_System : CnSystem CnMainConfig
  cnAssets_System : CnSystem CnMainConfig

/-- The `for` loop of `cnMain_BuildCoreSystemList` over the array `systems`. -/
def cnMain_BuildCoreSystemList_from {C : Type} :
    List (CnSystem C) → List (CnSystem C) → Except String (List (CnSystem C))
  | [], s_coreSystems => .ok s_coreSystems
  | system :: rest, s_coreSystems =>
    match cnMain_AddCoreSystem s_coreSystems system with
    | .error e => .error e
    | .ok s_coreSystems1 => cnMain_BuildCoreSystemList_from rest s_coreSystems1

/-- `cnMain_BuildCoreSystemList`: the array `systems` holds, in this order,
`cnMain_System`, `cnLog_System`, `cnCrash_System`, `cnMem_System`,
`cnTime_System`, `cnAssets_System`; each is called and its descriptor
added. -/
def cnMain_BuildCoreSystemList (env : Env) (fns : CoreSystemFns)
    (s_coreSystems : List (CnSystem CnMainConfig)) :
    Except String (List (CnSystem CnMainConfig)) :=
  cnMain_BuildCoreSystemList_from
    [cnMain_System env, fns.cnLog_System, fns.cnCrash_System, fns.cnMem_System,
     fns.cnTime_System, fns.cnAssets_System]
    s_coreSystems

/-- `cnMain_ValidatePayload`.  `payload` is `none` for a NULL pointer.  The
function writes nothing; when it returns, the payload it was given is
returned. -/
def cnMain_ValidatePayload (payload : Option CnPlugin) : Except String CnPlugin :=
  match payload with
  | none => .error "Cannot register a null payload."
  | some p =>
    if p.init.isNone then .error "CnPlugin_Init function missing in payload."
    else if p.draw.isNone then .error "CnPlugin_DrawFn function missing in payload."
    else if p.tick.isNone then .error "CnPlugin_TickFn function missing in payload."
    else if p.shutdown.isNone then .error "CnPlugin_ShutdownFn function missing in payload."
    else .ok p

/-! ## Start-up (`main.c`) -/

/-- What `main.c` takes from outside the program at start-up: the asset and
shared-library helpers, the C library's `localtime`, the symbols of a loaded
library, the values the subsystems' `init` functions return, and the clock. -/
structure World where
  /-- The call `cnAssets_LastModifiedTime(path, &time)`: `none` when it
  returns false. -/
  cnAssets_LastModifiedTime : String → Option Nat
  /-- Whether `localtime` has a result for a time in seconds: false when it
  returns NULL, as it does for a time whose year is not an `int`. -/
  localtime : Nat → Bool
  /-- The call `cnSharedLibrary_Load(path)`: `none` when it returns NULL. -/
  cnSharedLibrary_Load : String → Option Nat
  /-- The address a symbol of a loaded library resolves to, if any. -/
  symbol : Nat → String → Option Nat
  /-- The value the `init` function at an address returns. -/
  init : Nat → Bool
  /-- The value of `cnTime_MakeNow()` at the end of start-up. -/
  now : CnTime

/-- The calls of start-up, of the loop and of shutdown that reach outside
`main.c`, the calls through function pointers, and the line shutdown prints
for a subsystem without a shutdown function. -/
inductive Event where
  | logPreInit
  | setDefaultConfig (system : Nat)
  | optionHandler (call : HandlerCall)
  | systemInit (system : Nat) (result : Bool)
  | uiInit (width height : Nat)
  | renderInit (width height : Nat)
  | lastModifiedTime (path : String)
  | payloadShutdown (fn : Nat)
  | libraryRelease (library : Option Nat)
  | libraryLoad (path : String)
  | resolveSymbols (library : Nat)
  | payloadInit (fn : Nat)
  | makeNow
  | renderShutdown
  | uiShutdown
  | systemShutdown (system : Nat) (fn : Nat)
  | noShutdownFunction (system : Nat)
  | processWindowEvents
  | payloadTick (fn : Nat) (dt : CnTime)
  | payloadDraw (fn : Nat)
deriving DecidableEq, Repr

/-- A run of a function of `main.c`: the calls it made, in order, and either
the state it returned in or the diagnostic of the fatal error that ended
it. -/
structure Run (σ : Type) where
  events : List Event
  outcome : Except String σ

/-- The statics of `main.c`, the configuration memory, the tick limit
`cnMain_SetTickLimit` stored (0 when none was set), and the number of ticks
`cnMain_TickCompleted` counted. -/
structure MainState where
  s_lastTick : CnTime
  s_payload : CnPlugin
  s_coreSystems : List (CnSystem CnMainConfig)
  configs : Nat → CnMainConfig
  tickLimit : Nat
  ticks : Nat := 0

/-- Modelled from the spec: `cnPlugin_IsComplete` (definition missing), "a
payload is complete only when init, tick, draw, and shutdown are all
non-null". -/
def cnPlugin_IsComplete (payload : CnPlugin) : Bool :=
  payload.init.isSome && payload.tick.isSome && payload.draw.isSome && payload.shutdown.isSome

/-- Modelled from the spec: `cnPlugin_LoadFromSharedLibrary` (definition
missing), "the four lifecycle symbols plus module handle are populated from"
the loaded module.  The symbol names are those the demos export. -/
def cnPlugin_LoadFromSharedLibrary (w : World) (library : Nat) : CnPlugin :=
  { init := w.symbol library "CnPlugin_Init",
    shutdown := w.symbol library "CnPlugin_Shutdown",
    tick := w.symbol library "CnPlugin_Tick",
    draw := w.symbol library "CnPlugin_Draw",
    sharedLibrary := some library }

/-- Modelled from the spec: `cnMain_SetTickLimit` (definition missing) stores
the configured limit of the loop, "a count of ticks". -/
def cnMain_SetTickLimit (st : MainState) (tickLimit : Nat) : MainState :=
  { st with tickLimit := tickLimit }

/-- `cnMain_Init`: a non-zero tick limit of the main configuration is handed
to `cnMain_SetTickLimit`; the function returns true. -/
def cnMain_Init (st : MainState) : Bool × MainState :=
  if (st.configs cnMain_Config).tickLimit ≠ 0 then
    (true, cnMain_SetTickLimit st (st.configs cnMain_Config).tickLimit)
  else (true, st)

/-- The call of the `init` function at address `fn`: `cnMain_Init` at its own
address, and otherwise a function outside `main.c` whose returned value the
world gives. -/
def callInit (w : World) (fn : Nat) (st : MainState) : Bool × MainState :=
  if fn = cnMain_Init_address then cnMain_Init st else (w.init fn, st)

/-- `cnMain_LoadPayloadFromFile`.  The result of `localtime` is handed to
`strftime` unchecked: when it is NULL the call crashes, before the trace line
is written and before anything is done to the old payload. -/
def cnMain_LoadPayloadFromFile (w : World) (st : MainState) (sharedLibraryName : String) :
    Run MainState :=
  match w.cnAssets_LastModifiedTime sharedLibraryName with
  | none =>
    { events := [Event.lastModifiedTime sharedLibraryName],
      outcome := .error "Unable to determine last modified time of '%s'" }
  | some gameLibModified =>
    if !w.localtime gameLibModified then
      { events := [Event.lastModifiedTime sharedLibraryName],
        outcome := .error "strftime called with the NULL result of localtime" }
    else
      let shutdown := match st.s_payload.shutdown with
        | some fn => [Event.payloadShutdown fn]
        | none => []
      let upToLoad := [Event.lastModifiedTime sharedLibraryName] ++ shutdown ++
        [Event.libraryRelease st.s_payload.sharedLibrary, Event.libraryLoad sharedLibraryName]
      match w.cnSharedLibrary_Load sharedLibraryName with
      | none => { events := upToLoad, outcome := .error "Unable to load game module: %s" }
      | some library =>
        let payload := cnPlugin_LoadFromSharedLibrary w library
        match cnMain_ValidatePayload (some payload) with
        | .error e =>
          { events := upToLoad ++ [Event.resolveSymbols library], outcome := .error e }
        | .ok _ =>
          { events := upToLoad ++ [Event.resolveSymbols library],
            outcome := .ok { st with s_payload := payload } }

/-- The loop of `cnMain_StartUp` that calls `plugin().init()` of every
subsystem from position `i` on; a false result is fatal.  A NULL `init` makes
the call crash. -/
def cnMain_StartUp_initSystems (w : World) :
    Nat → List (CnSystem CnMainConfig) → MainState → Run MainState
  | _, [], st => { events := [], outcome := .ok st }
  | i, system :: rest, st =>
    match system.plugin.init with
    | none => { events := [], outcome := .error "call through a NULL function pointer" }
    | some fn =>
      if (callInit w fn st).1 then
        { events := Event.systemInit i true ::
            (cnMain_StartUp_initSystems w (i + 1) rest (callInit w fn st).2).events,
          outcome := (cnMain_StartUp_initSystems w (i + 1) rest (callInit w fn st).2).outcome }
      else
        { events := [Event.systemInit i false],
          outcome := .error "Unable to initialize core system: %d" }

/-- The default-config calls `cnMain_ParseCommandLine` made when it aborted:
none when the argument count was refused, else one for every subsystem before
the first without a default-config function. -/
def defaultsBeforeAbort {C : Type} (s_coreSystems : List (CnSystem C)) (argc : Nat) :
    List Event :=
  if argc < 1 then []
  else (List.range (s_coreSystems.takeWhile fun system =>
    system.setDefaultConfig.isSome).length).map Event.setDefaultConfig

/-- The part of `cnMain_StartUp` after the subsystems are initialised, from
`cnUI_Init` on. -/
def cnMain_StartUp_payload (env : Env) (w : World) (st : MainState) : Run MainState :=
  let ui := [Event.uiInit 1024 768, Event.renderInit 1024 768]
  let config := st.configs cnMain_Config
  let resolved : Run MainState :=
    if !cnPlugin_IsComplete config.payload then
      if !cnPath_IsFile env (some config.gameLibPath) then
        { events := [], outcome := .error "Cannot load game. '%s' is not a game library." }
      else cnMain_LoadPayloadFromFile w st config.gameLibPath
    else
      match cnMain_ValidatePayload (some config.payload) with
      | .error e => { events := [], outcome := .error e }
      | .ok _ => { events := [], outcome := .ok st }
  match resolved.outcome with
  | .error e => { events := ui ++ resolved.events, outcome := .error e }
  | .ok st1 =>
    let init := match st1.s_payload.init with
      | some fn => [Event.payloadInit fn]
      | none => []
    if st1.s_payload.draw.isNone then
      { events := ui ++ resolved.events ++ init,
        outcome := .error "Draw function missing. Write a CnPlugin_Draw(void) function." }
    else if st1.s_payload.tick.isNone then
      { events := ui ++ resolved.events ++ init,
        outcome := .error "Update function missing. Write a CnPlugin_Tick(void) function." }
    else
      { events := ui ++ resolved.events ++ init ++ [Event.makeNow],
        outcome := .ok { st1 with s_lastTick := w.now } }

/-- `cnMain_StartUp`.  The result is `none` only if `cnMain_ParseCommandLine`
hits its iteration bound. -/
def cnMain_StartUp (env : Env) (fns : CoreSystemFns) (w : World) (st : MainState)
    (argc : Nat) (argv : List String) : Option (Run MainState) :=
  match cnMain_BuildCoreSystemList env fns st.s_coreSystems with
  | .error e => some { events := [], outcome := .error e }
  | .ok s_coreSystems =>
    match cnMain_ParseCommandLine s_coreSystems st.configs argc argv with
    | none => none
    | some (.error e) =>
      some { events := Event.logPreInit :: defaultsBeforeAbort s_coreSystems argc,
             outcome := .error e }
    | some (.ok parsed) =>
      let parsing := Event.logPreInit ::
        ((List.range s_coreSystems.length).map Event.setDefaultConfig ++
          parsed.calls.map Event.optionHandler)
      if !parsed.ret then
        some { events := parsing, outcome := .error "Unable to parse command line." }
      else
        let inits := cnMain_StartUp_initSystems w 0 s_coreSystems
          { st with s_coreSystems := s_coreSystems, configs := parsed.configs }
        match inits.outcome with
        | .error e => some { events := parsing ++ inits.events, outcome := .error e }
        | .ok st1 =>
          let payload := cnMain_StartUp_payload env w st1
          some { events := parsing ++ inits.events ++ payload.events,
                 outcome := payload.outcome }

/-- `cnMainConfig_Freestanding` (`main-config.c`): the four functions are
stored in the payload of `s_config`, with a NULL shared library. -/
def cnMainConfig_Freestanding (configs : Nat → CnMainConfig) (init tick draw shutdown : Option Nat) :
    Nat → CnMainConfig :=
  Function.update configs cnMain_Config
    { configs cnMain_Config with
      payload := { init := init, shutdown := shutdown, tick := tick, draw := draw,
                   sharedLibrary := none } }

/-- The first `for` loop of `cnMain_ParseCommandLine` if `CN_ASSERT_PTR`, whose
definition is missing, expanded to nothing: the call through a NULL
`setDefaultConfig` then crashes. -/
def cnMain_ParseCommandLine_defaults_unchecked {C : Type} :
    List (CnSystem C) → (Nat → C) → Except String (Nat → C)
  | [], configs => .ok configs
  | system :: rest, configs =>
    match system.setDefaultConfig with
    | none => .error "call through a NULL function pointer"
    | some setDefaultConfig =>
      cnMain_ParseCommandLine_defaults_unchecked rest
        (Function.update configs system.config (setDefaultConfig (configs system.config)))

/-! ## The loop and shutdown (`main.c`) -/

/-- Modelled from the spec: `cnMain_IsTickLimitReached` (definition missing).
The loop runs while "a tick-limit (if configured, a count of ticks >= 0
meaning unlimited at 0) is not yet reached", the boundary being "exact
equality" of the consumed-tick count and the limit. -/
def cnMain_IsTickLimitReached (st : MainState) : Bool :=
  st.tickLimit != 0 && st.ticks == st.tickLimit

/-- Modelled from the spec: `cnMain_TickCompleted` (definition missing), which
"increments the consumed-tick counter". -/
def cnMain_TickCompleted (st : MainState) : MainState :=
  { st with ticks := st.ticks + 1 }

/-- One iteration of the `while` of `cnMain_Loop` when the clock reads `now`:
the calls made and the state left.  `tick` and `draw` are the addresses in
`s_payload`, which `cnMain_Loop` asserted to be non-null. -/
def cnMain_Loop_body (tick draw : Nat) (now : CnTime) (st : MainState) :
    List Event × MainState :=
  let generated := cnMain_GenerateTick st.s_lastTick now ⟨0⟩
  if generated.ret then
    ([Event.processWindowEvents, Event.payloadTick tick generated.outDt, Event.payloadDraw draw],
     cnMain_TickCompleted { st with s_lastTick := generated.lastTick })
  else
    ([Event.processWindowEvents, Event.payloadDraw draw],
     { st with s_lastTick := generated.lastTick })

/-- The `while` of `cnMain_Loop`.  `cnMain_IsRunning`, whose flag is cleared
from outside `main.c`, is true once for every clock reading in the list, each
reading being the one of that iteration, and false after the last. -/
def cnMain_Loop_iterate (tick draw : Nat) : List CnTime → MainState → List Event × MainState
  | [], st => ([], st)
  | now :: rest, st =>
    if cnMain_IsTickLimitReached st then ([], st)
    else
      ((cnMain_Loop_body tick draw now st).1 ++
        (cnMain_Loop_iterate tick draw rest (cnMain_Loop_body tick draw now st).2).1,
       (cnMain_Loop_iterate tick draw rest (cnMain_Loop_body tick draw now st).2).2)

/-- `cnMain_Loop`, run over the clock readings of the iterations in which
`cnMain_IsRunning` is true. -/
def cnMain_Loop (st : MainState) (readings : List CnTime) : Run MainState :=
  match st.s_payload.tick with
  | none => { events := [], outcome := .error "Tick function not defined." }
  | some tick =>
    match st.s_payload.draw with
    | none => { events := [], outcome := .error "Draw function not defined." }
    | some draw =>
      { events := (cnMain_Loop_iterate tick draw readings st).1,
        outcome := .ok (cnMain_Loop_iterate tick draw readings st).2 }

/-- What `cnMain_Shutdown` does for the subsystem at `nextSystemIndex`: the
call of its shutdown function, or the line "No shutdown function for". -/
def cnMain_Shutdown_system {C : Type} (nextSystemIndex : Nat) (system : CnSystem C) : Event :=
  match system.plugin.shutdown with
  | none => Event.noShutdownFunction nextSystemIndex
  | some fn => Event.systemShutdown nextSystemIndex fn

/-- The `for` loop of `cnMain_Shutdown` from `i` on, with `remaining`
iterations to go: iteration `i` handles the subsystem at
`s_numCoreSystems - i - 1`; as `i < s_numCoreSystems`, the `uint32_t`
subtraction does not wrap. -/
def cnMain_Shutdown_loop {C : Type} (s_coreSystems : List (CnSystem C)) :
    Nat → Nat → List Event
  | 0, _ => []
  | remaining + 1, i =>
    (match s_coreSystems[s_coreSystems.length - i - 1]? with
      | none => []
      | some system => [cnMain_Shutdown_system (s_coreSystems.length - i - 1) system]) ++
    cnMain_Shutdown_loop s_coreSystems remaining (i + 1)

/-- `cnMain_Shutdown`: the calls it makes, in order. -/
def cnMain_Shutdown (st : MainState) : List Event :=
  (match st.s_payload.shutdown with
    | some fn => [Event.payloadShutdown fn]
    | none => []) ++
  [Event.renderShutdown, Event.uiShutdown] ++
  cnMain_Shutdown_loop st.s_coreSystems st.s_coreSystems.length 0

/-! ## Vocabulary of the claims about the loop -/

/-- The number of ticks `cnMain_GenerateTick` generates over the clock
readings when nothing stops the loop, starting from last tick `lastTick`. -/
def generatedTicks (lastTick : CnTime) : List CnTime → Nat
  | [] => 0
  | now :: rest =>
    (if (cnMain_GenerateTick lastTick now ⟨0⟩).ret then 1 else 0) +
      generatedTicks (cnMain_GenerateTick lastTick now ⟨0⟩).lastTick rest

/-- One iteration of the loop as the claims describe it, given the result
`generated` of the iteration's call of `cnMain_GenerateTick`: the event pump
runs once, the payload's tick is called with the generated dt exactly when a
tick was generated, and the payload's draw is called once. -/
def loopIteration (tick draw : Nat) (generated : TickResult) : List Event :=
  [Event.processWindowEvents] ++
    (if generated.ret then [Event.payloadTick tick generated.outDt] else []) ++
    [Event.payloadDraw draw]

/-- The iterations of the loop as the claims describe them, one for each
clock reading, when nothing stops the loop: the iteration of a reading is the
one of the call of `cnMain_GenerateTick` with that reading, from the last tick
the call of the reading before it left, the first from `lastTick`. -/
def loopIterations (tick draw : Nat) (lastTick : CnTime) : List CnTime → List (List Event)
  | [] => []
  | now :: rest =>
    loopIteration tick draw (cnMain_GenerateTick lastTick now ⟨0⟩) ::
      loopIterations tick draw (cnMain_GenerateTick lastTick now ⟨0⟩).lastTick rest

/-- Whether an event is a call of the payload's tick function. -/
def Event.isTick : Event → Bool
  | Event.payloadTick _ _ => true
  | _ => false

/-- Whether an event is a call of the payload's draw function. -/
def Event.isDraw : Event → Bool
  | Event.payloadDraw _ => true
  | _ => false

/-- Whether an event is a run of the event pump. -/
def Event.isPump : Event → Bool
  | Event.processWindowEvents => true
  | _ => false

/-- The subsystem an event of the shutdown loop is about: the one whose
shutdown function is called, or for which the missing function is reported. -/
def Event.subsystem : Event → Option Nat
  | Event.systemShutdown system _ => some system
  | Event.noShutdownFunction system => some system
  | _ => none

/-- Whether an event is a default-config call, an option-handler call or a
subsystem init: the calls `cnMain_StartUp` makes for the registry, between
`cnLog_PreInit` and `cnUI_Init`. -/
def Event.isRegistryCall : Event → Bool
  | Event.setDefaultConfig _ => true
  | Event.optionHandler _ => true
  | Event.systemInit _ _ => true
  | _ => false

/-- A registry of three subsystems with shutdown functions 10, 20 and 30. -/
def registryABC : List (CnSystem CnMainConfig) :=
  [{ name := some "A", options := [], config := 1, setDefaultConfig := none,
     plugin := { init := none, shutdown := some 10, tick := none, draw := none,
                 sharedLibrary := none } },
   { name := some "B", options := [], config := 2, setDefaultConfig := none,
     plugin := { init := none, shutdown := some 20, tick := none, draw := none,
                 sharedLibrary := none } },
   { name := some "C", options := [], config := 3, setDefaultConfig := none,
     plugin := { init := none, shutdown := some 30, tick := none, draw := none,
                 sharedLibrary := none } }]

/-- A registry of three subsystems of which the middle one has no shutdown
function. -/
def registryAxC : List (CnSystem CnMainConfig) :=
  [{ name := some "A", options := [], config := 1, setDefaultConfig := none,
     plugin := { init := none, shutdown := some 10, tick := none, draw := none,
                 sharedLibrary := none } },
   { name := some "B", options := [], config := 2, setDefaultConfig := none,
     plugin := { init := none, shutdown := none, tick := none, draw := none,
                 sharedLibrary := none } },
   { name := some "C", options := [], config := 3, setDefaultConfig := none,
     plugin := { init := none, shutdown := some 30, tick := none, draw := none,
                 sharedLibrary := none } }]

/-! ## Payloads and descriptors used as examples -/

/-- A payload with `init`, `draw` and `tick` but no `shutdown`. -/
def payloadWithoutShutdown : CnPlugin :=
  { init := some 1, shutdown := none, tick := some 3, draw := some 4, sharedLibrary := none }

/-- A payload with all four functions. -/
def completePayload : CnPlugin :=
  { init := some 1, shutdown := some 2, tick := some 3, draw := some 4, sharedLibrary := none }

/-- A descriptor without options that is told apart by its name; its
configuration block is at `config` and its `init` function at `init`. -/
def namedSystem (name : String) (config init : Nat) : CnSystem CnMainConfig :=
  { name := some name, options := [], config := config,
    setDefaultConfig := some cnMain_SetDefaultConfig,
    plugin := { init := some init, shutdown := none, tick := none, draw := none,
                sharedLibrary := none } }

/-- Five descriptors standing for the subsystems whose sources are missing. -/
def exampleFns : CoreSystemFns :=
  { cnLog_System := namedSystem "Log" 1 1,
    cnCrash_System := namedSystem "Crash" 2 2,
    cnMem_System := namedSystem "Mem" 3 3,
    cnTime_System := namedSystem "Time" 4 4,
    cnAssets_System := namedSystem "Assets" 5 5 }

/-- An environment in which the only file is `game.so`, every path fits its
buffer, and `errno` is 0 as at program start. -/
def exampleEnv : Env :=
  { CN_MAX_TERMINATED_PATH := 256,
    cnString_TerminatedFitsIn := fun str bytes => decide (str.utf8ByteSize < bytes),
    cnString_FitsWithNull := fun str bytes => decide (str.utf8ByteSize < bytes),
    stat := fun path => if path = "game.so" then some false else none,
    cwd := "/home",
    errno := 0 }

/-- A main configuration holding a tick limit of 7 and a game library. -/
def exampleConfig : CnMainConfig :=
  { payload := completePayload, gameLibPath := "old.so", tickLimit := 7 }

/-! ## Vocabulary of the claims about the tick limit -/

/-- The value `strtoll` reads a negative number with sign `sign` and digits
`digits` as, and the value of `errno` it leaves when `errno` was `errno`. -/
def strtollOutcome (sign digits tail : List Char) (errno : Int) : StrtollResult :=
  if sign = ['-'] then
    if (2 : Int) ^ 63 < decimalValue digits then
      { value := LLONG_MIN, endptr := tail, errno := ERANGE }
    else { value := -(decimalValue digits : Int), endptr := tail, errno := errno }
  else
    if LLONG_MAX < decimalValue digits then
      { value := LLONG_MAX, endptr := tail, errno := ERANGE }
    else { value := (decimalValue digits : Int), endptr := tail, errno := errno }

/-- The string is, after optional leading white space and an optional sign, a
run of decimal digits up to its end, and the number it denotes lies between 0
and `LLONG_MAX`. -/
def StrtollNonNegative (s : List Char) : Prop :=
  ∃ ws sign digits, s = ws ++ sign ++ digits ∧ (∀ c ∈ ws, isspace c = true) ∧
    (sign = [] ∨ sign = ['+'] ∨ sign = ['-']) ∧ digits ≠ [] ∧
    (∀ c ∈ digits, c.isDigit = true) ∧
    (sign = ['-'] → decimalValue digits = 0) ∧ decimalValue digits < 2 ^ 63

/-- The string is a non-empty run of decimal digits: a non-negative decimal
integer written without white space or sign. -/
def PlainDecimal (s : List Char) : Prop :=
  s ≠ [] ∧ ∀ c ∈ s, c.isDigit = true

/-- The registry `cnMain_BuildCoreSystemList` builds when the registry was
empty. -/
def builtRegistry (env : Env) (fns : CoreSystemFns) : List (CnSystem CnMainConfig) :=
  [cnMain_System env, fns.cnLog_System, fns.cnCrash_System, fns.cnMem_System,
   fns.cnTime_System, fns.cnAssets_System]

/-- A world in which `game.so` loads as library 9 and exports the four
symbols, and every `init` succeeds. -/
def exampleWorld : World :=
  { cnAssets_LastModifiedTime := fun path => if path = "game.so" then some 100 else none,
    localtime := fun _ => true,
    cnSharedLibrary_Load := fun path => if path = "game.so" then some 9 else none,
    symbol := fun library name =>
      if library = 9 then
        if name = "CnPlugin_Init" then some 11
        else if name = "CnPlugin_Shutdown" then some 12
        else if name = "CnPlugin_Tick" then some 13
        else if name = "CnPlugin_Draw" then some 14
        else none
      else none,
    init := fun _ => true,
    now := ⟨5000⟩ }

/-- A world like `exampleWorld` in which `game.so` was modified at second
`2 ^ 62`, and `localtime` has a result for the times whose year fits an `int`:
those up to second 67768036191676799, the last of the year 2147485547. -/
def farFutureWorld : World :=
  { exampleWorld with
    cnAssets_LastModifiedTime := fun path => if path = "game.so" then some (2 ^ 62) else none,
    localtime := fun t => decide (t ≤ 67768036191676799) }

/-- The statics of `main.c` at program start: nothing registered, no payload,
zeroed configuration blocks. -/
def initialState : MainState :=
  { s_lastTick := ⟨0⟩,
    s_payload := { init := none, shutdown := none, tick := none, draw := none,
                   sharedLibrary := none },
    s_coreSystems := [],
    configs := fun _ =>
      { payload := { init := none, shutdown := none, tick := none, draw := none,
                     sharedLibrary := none },
        gameLibPath := "", tickLimit := 0 },
    tickLimit := 0 }

/-- The statics of `main.c` once a complete payload is in place. -/
def runningState : MainState :=
  { initialState with s_payload := completePayload }

/-- A state whose main configuration asks for a tick limit of 2, as `-t 2`
leaves it. -/
def limitedState : MainState :=
  { runningState with configs := fun _ => { exampleConfig with tickLimit := 2 } }

/-- The statics of `main.c` when `cnMainConfig_Freestanding(1, 3, 4, 2)` has
stored a payload in the main configuration at program start, before
`cnMain_StartUp` is called: init at 1, tick at 3, draw at 4, shutdown at 2. -/
def freestandingState : MainState :=
  { initialState with
    configs := cnMainConfig_Freestanding initialState.configs (some 1) (some 3) (some 4)
      (some 2) }

/-- Clock readings of five iterations of the loop, in nanoseconds: 16 ms,
17 ms, 40 ms, 80 ms and 100 ms. -/
def exampleReadings : List CnTime :=
  [⟨16000000⟩, ⟨17000000⟩, ⟨40000000⟩, ⟨80000000⟩, ⟨100000000⟩]

/-! ## Vocabulary of the claims about the cursor bound -/

/-- The handlers of the subsystem report a positive number of consumed tokens
only when that many tokens, the flag included, are left at the cursor. -/
def ReportsAvailableTokens {C : Type} (system : CnSystem C) : Prop :=
  ∀ o ∈ system.options, ∀ (parse : CnCommandLineParse) (config : C),
    (o.parser parse config).1 ≤ 0 ∨
      parse.index + (o.parser parse config).1.toNat ≤ parse.argc

/-- A subsystem whose handler of `-x` returns 0, registered before one that
only declares `-y`. -/
def zeroOnlyRegistry : List (CnSystem Nat) :=
  [exampleSystem 0 [constOption "-x" 0], exampleSystem 1 [constOption "-y" 1]]

/-! ## 2D transforms (`math2.c`)

`math2.h` is not among the sources; the aggregate initialisers of `math2.c`
show `CnFloat2` to be a pair of `float`s and `CnTransform2` to hold a 3 by 3
array `m` of `float`s.  The `float`s are read over exact arithmetic, as
rational numbers, so that `CN_ASSERT_FINITE_F32` never fails. -/

/-- `CnFloat2`: the fields `x` and `y`. -/
structure CnFloat2 where
  x : ℚ
  y : ℚ
deriving DecidableEq

/-- `CnTransform2`: the array `m`, read as `m[i][j]`. -/
structure CnTransform2 where
  m : Fin 3 → Fin 3 → ℚ

/-- `cnFloat2_Make`. -/
def cnFloat2_Make (x y : ℚ) : CnFloat2 := { x := x, y := y }

/-- `cnFloat2_LengthSquared`. -/
def cnFloat2_LengthSquared (v : CnFloat2) : ℚ := v.x * v.x + v.y * v.y

/-- `cnFloat2_DistanceSquared`. -/
def cnFloat2_DistanceSquared (left right : CnFloat2) : ℚ :=
  cnFloat2_LengthSquared (cnFloat2_Make (left.x - right.x) (left.y - right.y))

/-- `cnTransform2_MakeIdentity`. -/
def cnTransform2_MakeIdentity : CnTransform2 :=
  { m := ![![1, 0, 0],
           ![0, 1, 0],
           ![0, 0, 1]] }

/-- `cnTransform2_MakeTranslateXY`. -/
def cnTransform2_MakeTranslateXY (x y : ℚ) : CnTransform2 :=
  { m := ![![1, 0, 0],
           ![0, 1, 0],
           ![x, y, 1]] }

/-- `cnTransform2_MakeUniformScale`. -/
def cnTransform2_MakeUniformScale (scale : ℚ) : CnTransform2 :=
  { m := ![![scale, 0, 0],
           ![0, scale, 0],
           ![0, 0, scale]] }

/-- `cnTransform2_Combine`: for every `i` and `j`, `result.m[i][j]` starts at 0
and has `first.m[k][j] * second.m[i][k]` added for `k = 0, 1, 2`. -/
def cnTransform2_Combine (first second : CnTransform2) : CnTransform2 :=
  { m := fun i j =>
      (List.finRange 3).foldl (fun result k => result + first.m k j * second.m i k) 0 }

/-- `cnMath2_TransformPoint`. -/
def cnMath2_TransformPoint (point : CnFloat2) (transform : CnTransform2) : CnFloat2 :=
  cnFloat2_Make
    (point.x * transform.m 0 0 + point.y * transform.m 1 0 + 1 * transform.m 2 0)
    (point.x * transform.m 0 1 + point.y * transform.m 1 1 + 1 * transform.m 2 1)

/-- `cnMath2_TransformVector`. -/
def cnMath2_TransformVector (point : CnFloat2) (transform : CnTransform2) : CnFloat2 :=
  cnFloat2_Make
    (point.x * transform.m 0 0 + point.y * transform.m 1 0)
    (point.x * transform.m 0 1 + point.y * transform.m 1 1)

/-- A quarter turn, as a value of `CnTransform2`. -/
def quarterTurn : CnTransform2 :=
  { m := ![![0, 1, 0],
           ![-1, 0, 0],
           ![0, 0, 1]] }

/-! ## Images and the texture atlas (`knell/image.c`, `knell/atlas.c`)

`atlas.h` and `knell/memory.h` are not among the sources.  `DynamicBuffer` is
taken to be the `contents`/`size` pair that `calendon/memory.h` declares as
`CnDynamicBuffer`; the fields of `TextureAtlas`, `ImageRGBA8`, `dimension2u32`
and `RowColu32` are those `atlas.c` reads and writes, all of them `uint32_t`.
A block of memory is the function from byte offsets to bytes. -/

/-- The number of values of a `uint32_t`. -/
def UINT32_SIZE : Nat := 2 ^ 32

/-- `DynamicBuffer`: the bytes of the block `contents` points to, by offset,
and its `size`. -/
structure DynamicBuffer where
  contents : Nat → Nat
  size : Nat

/-- `ImagePixels` (`image.h`). -/
structure ImagePixels where
  pixels : DynamicBuffer
  width : Nat
  height : Nat

/-- `Mem_Allocate(&buffer, size)` is not among the sources: the block it
provides has the requested size, and `fresh` stands for the bytes it happens
to hold. -/
def Mem_Allocate (fresh : Nat → Nat) (size : Nat) : DynamicBuffer :=
  { contents := fresh, size := size }

/-- `memcpy(dest + destOffset, src + srcOffset, n)`: the block `dest` after
the copy. -/
def memcpy (dest : Nat → Nat) (destOffset : Nat) (src : Nat → Nat) (srcOffset n : Nat) :
    Nat → Nat :=
  fun a => if destOffset ≤ a ∧ a < destOffset + n then src (srcOffset + (a - destOffset))
    else dest a

/-- The `for` loop of `Image_Flip` from row `i` on, with `remaining` rows to
go: row `i` of the image is copied to row `height - i - 1` of the new block
(`i < height`, so that subtraction does not wrap; the products are
`uint32_t`).  A copy that would leave one of the blocks is undefined and ends
the run. -/
def Image_Flip_rows (image : ImagePixels) (rowSize : Nat) :
    Nat → Nat → DynamicBuffer → Except String DynamicBuffer
  | 0, _, flippedImage => .ok flippedImage
  | remaining + 1, i, flippedImage =>
    let fromOffset := (rowSize * (image.height - i - 1)) % UINT32_SIZE
    let toOffset := (rowSize * i) % UINT32_SIZE
    if fromOffset + rowSize ≤ flippedImage.size ∧ toOffset + rowSize ≤ image.pixels.size then
      Image_Flip_rows image rowSize remaining (i + 1)
        { flippedImage with
          contents := memcpy flippedImage.contents fromOffset image.pixels.contents toOffset
            rowSize }
    else .error "memcpy outside the block"

/-- `Image_Flip`.  `fresh` is the content of the block `Mem_Allocate`
provides; the block the image held before is freed. -/
def Image_Flip (fresh : Nat → Nat) (image : ImagePixels) : Except String ImagePixels :=
  if !decide (image.pixels.size > 0) then .error "No pixels to flip."
  else if !decide (image.width > 0) then .error "Cannot flip an image with no width."
  else if !decide (image.height > 0) then .error "Cannot flip an image with no height."
  else
    let flippedImage := Mem_Allocate fresh image.pixels.size
    let pixelSize := 4
    let expectedPixelStorageSize :=
      ((pixelSize * image.width) % UINT32_SIZE * image.height) % UINT32_SIZE
    if expectedPixelStorageSize ≠ image.pixels.size then
      .error "Excessive storage for pixels found %u, not matching resolution %u(%u, %u)"
    else
      let rowSize := (pixelSize * image.width) % UINT32_SIZE
      match Image_Flip_rows image rowSize image.height 0 flippedImage with
      | .error e => .error e
      | .ok flipped => .ok { image with pixels := { image.pixels with contents := flipped.contents } }

/-- `dimension2u32`. -/
structure dimension2u32 where
  width : Nat
  height : Nat
deriving DecidableEq, Repr

/-- `RowColu32`. -/
structure RowColu32 where
  row : Nat
  col : Nat
deriving DecidableEq, Repr

/-- `ImageRGBA8`. -/
structure ImageRGBA8 where
  pixels : DynamicBuffer
  width : Nat
  height : Nat

/-- `TextureAtlas`. -/
structure TextureAtlas where
  usedImages : Nat
  totalImages : Nat
  subImageSizePixels : dimension2u32
  gridSize : dimension2u32
  backingSizePixels : dimension2u32
  image : ImageRGBA8

/-- The first `g` from `candidate` on with `g * g >= numImages`, among `fuel`
candidates. -/
def ceilSqrt_search (numImages : Nat) : Nat → Nat → Nat
  | 0, candidate => candidate
  | fuel + 1, candidate =>
    if numImages ≤ candidate * candidate then candidate
    else ceilSqrt_search numImages fuel (candidate + 1)

/-- The value `ceil(sqrt(numImages))` converted to `uint32_t`: the least `g`
with `g * g >= numImages`.  `sqrt` and `ceil` are the C library's, on
`double`; a `uint32_t` is a `double` exactly, and its correctly rounded square
root is an integer when the argument is a square and lies strictly between two
integers otherwise, so the ceiling is the ceiling of the real square root. -/
def ceilSqrt (numImages : Nat) : Nat :=
  ceilSqrt_search numImages numImages 0

/-- `TextureAtlas_Allocate`.  `ImageRGBA8_AllocateSized`, which is not among
the sources, is a parameter: the image it sets up for the given size. -/
def TextureAtlas_Allocate (ImageRGBA8_AllocateSized : dimension2u32 → ImageRGBA8)
    (subImageSize : dimension2u32) (numImages : Nat) : Except String TextureAtlas :=
  if !decide (subImageSize.width > 0) then
    .error "Cannot create a texture atlas with a zero width sub image."
  else if !decide (subImageSize.height > 0) then
    .error "Cannot create a texture atlas with a zero height sub image."
  else if !decide (numImages > 0) then .error "Cannot create a texture atlas for zero images."
  else
    let gridSize : dimension2u32 := { width := ceilSqrt numImages, height := ceilSqrt numImages }
    let backingSizePixels : dimension2u32 :=
      { width := (gridSize.width * subImageSize.width) % UINT32_SIZE,
        height := (gridSize.height * subImageSize.height) % UINT32_SIZE }
    .ok { usedImages := 0, totalImages := numImages, subImageSizePixels := subImageSize,
          gridSize := gridSize, backingSizePixels := backingSizePixels,
          image := ImageRGBA8_AllocateSized backingSizePixels }

/-- `TextureAtlas_SubImageGrid`.  A division by zero is undefined and ends the
run. -/
def TextureAtlas_SubImageGrid (ta : TextureAtlas) (subImageId : Nat) : Except String RowColu32 :=
  if ta.gridSize.width = 0 then .error "division by zero"
  else .ok { row := subImageId / ta.gridSize.width, col := subImageId % ta.gridSize.width }

/-- The `uint32_t` read through a `uint32_t*` at byte `offset` of a block. -/
def readU32 (contents : Nat → Nat) (offset : Nat) : Nat :=
  contents offset % 256 + 256 * (contents (offset + 1) % 256) +
    65536 * (contents (offset + 2) % 256) + 16777216 * (contents (offset + 3) % 256)

/-- `destStart` of `TextureAtlas_Insert`, with the row of the cell replaced by
`gridSize.height - cell.row - 1`, all in `uint32_t` arithmetic. -/
def TextureAtlas_Insert_destStart (ta : TextureAtlas) (subImage : ImageRGBA8)
    (cell : RowColu32) : Nat :=
  ((ta.gridSize.height + UINT32_SIZE - cell.row - 1) % UINT32_SIZE *
      ta.backingSizePixels.width * subImage.height + cell.col * subImage.width) % UINT32_SIZE

/-- `srcOffset` of `TextureAtlas_Insert` for the pixel `(x, y)`. -/
def TextureAtlas_Insert_srcOffset (subImage : ImageRGBA8) (x y : Nat) : Nat :=
  (x + y * subImage.width) % UINT32_SIZE

/-- `destOffset` of `TextureAtlas_Insert` for the pixel `(x, y)`. -/
def TextureAtlas_Insert_destOffset (ta : TextureAtlas) (destStart x y : Nat) : Nat :=
  (destStart + x + y * ta.backingSizePixels.width) % UINT32_SIZE

/-- The body of the inner loop of `TextureAtlas_Insert` for the pixel
`(x, y)`: the two bounds assertions, the copy of the pixel into the block
`dest` of the atlas image, and the assertion on the pixel's value. -/
def TextureAtlas_Insert_pixel (ta : TextureAtlas) (subImage : ImageRGBA8)
    (destStart x y : Nat) (dest : Nat → Nat) : Except String (Nat → Nat) :=
  let bytesPerPixel := 4
  let srcOffset := TextureAtlas_Insert_srcOffset subImage x y
  let destOffset := TextureAtlas_Insert_destOffset ta destStart x y
  if !decide ((bytesPerPixel * destOffset) % UINT32_SIZE < ta.image.pixels.size) then
    .error "Writing off the edge of the image."
  else if !decide ((bytesPerPixel * srcOffset) % UINT32_SIZE < subImage.pixels.size) then
    .error "Reading off the edge of the image."
  else
    let src := readU32 subImage.pixels.contents ((bytesPerPixel * srcOffset) % UINT32_SIZE)
    if !decide (src = 0 ∨ src = 0xFFFFFFFF) then .error "Unexpected subtexture value: %X"
    else
      .ok (memcpy dest ((bytesPerPixel * destOffset) % UINT32_SIZE) subImage.pixels.contents
        ((bytesPerPixel * srcOffset) % UINT32_SIZE) 4)

/-- The inner loop of `TextureAtlas_Insert` for row `y`, from column `x` on. -/
def TextureAtlas_Insert_row (ta : TextureAtlas) (subImage : ImageRGBA8) (destStart y : Nat) :
    Nat → Nat → (Nat → Nat) → Except String (Nat → Nat)
  | 0, _, dest => .ok dest
  | remaining + 1, x, dest =>
    match TextureAtlas_Insert_pixel ta subImage destStart x y dest with
    | .error e => .error e
    | .ok dest1 => TextureAtlas_Insert_row ta subImage destStart y remaining (x + 1) dest1

/-- The outer loop of `TextureAtlas_Insert`, from row `y` on. -/
def TextureAtlas_Insert_rows (ta : TextureAtlas) (subImage : ImageRGBA8) (destStart : Nat) :
    Nat → Nat → (Nat → Nat) → Except String (Nat → Nat)
  | 0, _, dest => .ok dest
  | remaining + 1, y, dest =>
    match TextureAtlas_Insert_row ta subImage destStart y subImage.width 0 dest with
    | .error e => .error e
    | .ok dest1 => TextureAtlas_Insert_rows ta subImage destStart remaining (y + 1) dest1

/-- `TextureAtlas_Insert`: the value returned and the atlas left. -/
def TextureAtlas_Insert (ta : TextureAtlas) (subImage : ImageRGBA8) :
    Except String (Nat × TextureAtlas) :=
  if !decide (ta.usedImages < ta.totalImages) then .error "TextureAtlas is full."
  else
    match TextureAtlas_SubImageGrid ta ta.usedImages with
    | .error e => .error e
    | .ok cell =>
      match TextureAtlas_Insert_rows ta subImage (TextureAtlas_Insert_destStart ta subImage cell)
          subImage.height 0 ta.image.pixels.contents with
      | .error e => .error e
      | .ok contents =>
        .ok (ta.usedImages,
          { ta with
            usedImages := (ta.usedImages + 1) % UINT32_SIZE,
            image := { ta.image with pixels := { ta.image.pixels with contents := contents } } })

/-! ## Images and atlases used as examples -/

/-- The atlas `ta` after inserts: `usedImages` and the bytes of its image are
replaced, everything `TextureAtlas_Allocate` computed is kept. -/
def atlasWith (ta : TextureAtlas) (usedImages : Nat) (contents : Nat → Nat) : TextureAtlas :=
  { ta with
    usedImages := usedImages,
    image := { ta.image with pixels := { ta.image.pixels with contents := contents } } }

/-- A block holding the bytes of the list, and 0 after them. -/
def bytes (values : List Nat) : Nat → Nat := fun offset => values.getD offset 0

/-- An image of the given size whose block holds the given bytes. -/
def imageOf (width height : Nat) (values : List Nat) : ImagePixels :=
  { pixels := { contents := bytes values, size := values.length }, width := width,
    height := height }

/-- An `ImageRGBA8_AllocateSized` that sets up a zeroed block of four bytes
for every pixel, as long as that size is a `uint32_t`. -/
def allocateZeroed (size : dimension2u32) : ImageRGBA8 :=
  { pixels := { contents := fun _ => 0, size := (4 * size.width * size.height) % UINT32_SIZE },
    width := size.width, height := size.height }

/-- The atlas `TextureAtlas_Allocate` sets up for 3 images of 2 by 1 pixels:
a grid of side 2 over an image of 4 by 2 pixels. -/
def exampleAtlas : TextureAtlas :=
  { usedImages := 0, totalImages := 3, subImageSizePixels := { width := 2, height := 1 },
    gridSize := { width := 2, height := 2 }, backingSizePixels := { width := 4, height := 2 },
    image := allocateZeroed { width := 4, height := 2 } }

/-- A sub-image of the given size whose block holds the given bytes. -/
def subImageOf (width height : Nat) (values : List Nat) : ImageRGBA8 :=
  { pixels := { contents := bytes values, size := values.length }, width := width,
    height := height }

/-! ### Helper lemmas -/

theorem cnTime_MakeMilli_8 : (cnTime_MakeMilli 8).native = 8000000 := by decide

theorem cnTime_MakeMilli_5000 : (cnTime_MakeMilli 5000).native = 5000000000 := by decide

theorem cnTime_Max_native (a b : CnTime) :
    (cnTime_Max a b).native = max a.native b.native := by
  unfold cnTime_Max cnTime_LessThan
  by_cases h : a.native < b.native
  · simp [h, Nat.max_eq_right (Nat.le_of_lt h)]
  · simp [h, Nat.max_eq_left (Nat.le_of_not_lt h)]

theorem cnTime_SubtractMonotonic_native (a b : CnTime) :
    (cnTime_SubtractMonotonic a b).native = a.native - b.native := by
  unfold cnTime_SubtractMonotonic cnTime_MonotonicSubtract cnUInt64_MonotonicSubtract
  by_cases h : a.native < b.native
  · simp [h, Nat.sub_eq_zero_of_le (Nat.le_of_lt h)]
  · simp [h]

/-- The delta `cnMain_GenerateTick` computes, in nanoseconds. -/
theorem tick_dt_native (L n : CnTime) :
    (cnTime_SubtractMonotonic (cnTime_Max L n) L).native = max L.native n.native - L.native := by
  rw [cnTime_SubtractMonotonic_native, cnTime_Max_native]

/-- Case analysis of `cnMain_GenerateTick` on the size of the delta. -/
theorem cnMain_GenerateTick_cases (L n o : CnTime) :
    (max L.native n.native - L.native < 8000000 ∧
        cnMain_GenerateTick L n o = { ret := false, outDt := o, lastTick := L }) ∨
    (8000000 ≤ max L.native n.native - L.native ∧
        5000000000 < max L.native n.native - L.native ∧
        cnMain_GenerateTick L n o = { ret := false, outDt := o, lastTick := cnTime_Max L n }) ∨
    (8000000 ≤ max L.native n.native - L.native ∧
        max L.native n.native - L.native ≤ 5000000000 ∧
        cnMain_GenerateTick L n o =
          { ret := true, outDt := cnTime_SubtractMonotonic (cnTime_Max L n) L,
            lastTick := cnTime_Max L n }) := by
  have hdt := tick_dt_native L n
  unfold cnMain_GenerateTick
  simp only [cnTime_LessThan, hdt, cnTime_MakeMilli_8, cnTime_MakeMilli_5000]
  by_cases h1 : max L.native n.native - L.native < 8000000
  · left; simp [h1]
  · by_cases h2 : 5000000000 < max L.native n.native - L.native
    · right; left; simp [h1, h2]; omega
    · right; right; simp [h1, h2]; omega

theorem generateTicks_chain (readings : List CnTime) :
    ∀ L outDt : CnTime,
      List.Chain (fun a b : CnTime => a.native ≤ b.native) L
        ((generateTicks L outDt readings).map TickResult.lastTick) := by
  induction readings with
  | nil => intro L outDt; exact List.Chain.nil
  | cons n rest ih =>
    intro L outDt
    simp only [generateTicks, List.map_cons]
    refine List.Chain.cons ?_ (ih _ _)
    rcases cnMain_GenerateTick_cases L n outDt with ⟨_, h⟩ | ⟨_, _, h⟩ | ⟨_, _, h⟩ <;>
      rw [h] <;> simp [cnTime_Max_native]

/-! ### Dispatcher lemmas -/

theorem lookAhead_one (parse : CnCommandLineParse) :
    cnCommandLineParse_LookAhead parse 1 = parse.argv[parse.index]? := by
  simp [cnCommandLineParse_LookAhead, cnCommandLineParse_LookAheadIndex]

theorem matches_eq_flagEquals {C : Type} (o : CnCommandLineOption C)
    (parse : CnCommandLineParse) (t : String)
    (hc : cnCommandLineParse_ShouldContinue parse = true)
    (ht : cnCommandLineParse_LookAhead parse 1 = some t) :
    cnCommandLineOption_Matches o parse = .ok (flagEquals o t) := by
  unfold cnCommandLineOption_Matches flagEquals strcmpEq
  simp only [hc, ht]
  cases hs : o.shortOption <;> cases hl : o.longOption <;> simp [eq_comm] <;> rfl

theorem runSystemParsers_from_eq {C : Type} (parse : CnCommandLineParse) (t : String)
    (hc : cnCommandLineParse_ShouldContinue parse = true)
    (ht : cnCommandLineParse_LookAhead parse 1 = some t)
    (j : Nat) (sys : CnSystem C) :
    ∀ (opts : List (CnCommandLineOption C)) (i : Nat) (st : ParseState C),
      cnMain_RunSystemParsers_from parse j sys i opts st =
        match firstOption t i opts with
        | none => .ok (0, st)
        | some (k, o) => .ok (callParser parse j sys k o st) := by
  intro opts
  induction opts with
  | nil => intro i st; rfl
  | cons o rest ih =>
    intro i st
    simp only [cnMain_RunSystemParsers_from, firstOption, matches_eq_flagEquals o parse t hc ht]
    cases h : flagEquals o t
    · simp [ih]
    · simp

theorem scan_none {C : Type} (parse : CnCommandLineParse) (t : String)
    (hc : cnCommandLineParse_ShouldContinue parse = true)
    (ht : cnCommandLineParse_LookAhead parse 1 = some t) :
    ∀ (systems : List (CnSystem C)) (j : Nat) (st : ParseState C),
      firstSystem t j systems = none →
      cnMain_ParseCommandLine_scan parse j systems st = .ok (0, st) := by
  intro systems
  induction systems with
  | nil => intro j st _; rfl
  | cons sys rest ih =>
    intro j st h
    simp only [firstSystem] at h
    cases hf : firstOption t 0 sys.options with
    | some p => rw [hf] at h; simp at h
    | none =>
      rw [hf] at h
      simp only [cnMain_ParseCommandLine_scan, cnMain_RunSystemParsers,
        runSystemParsers_from_eq parse t hc ht j sys, hf]
      simpa using ih (j + 1) st h

theorem scan_some {C : Type} (parse : CnCommandLineParse) (t : String)
    (hc : cnCommandLineParse_ShouldContinue parse = true)
    (ht : cnCommandLineParse_LookAhead parse 1 = some t) :
    ∀ (systems : List (CnSystem C)) (j : Nat) (st : ParseState C)
      (j1 : Nat) (sys : CnSystem C) (k : Nat) (o : CnCommandLineOption C),
      firstSystem t j systems = some (j1, sys, k, o) →
      (o.parser parse (st.configs sys.config)).1 ≠ 0 →
      cnMain_ParseCommandLine_scan parse j systems st = .ok (callParser parse j1 sys k o st) := by
  intro systems
  induction systems with
  | nil => intro j st j1 sys k o h; simp [firstSystem] at h
  | cons s rest ih =>
    intro j st j1 sys k o h hret
    simp only [firstSystem] at h
    cases hf : firstOption t 0 s.options with
    | some p =>
      obtain ⟨k1, o1⟩ := p
      rw [hf] at h
      simp only [Option.some.injEq, Prod.mk.injEq] at h
      obtain ⟨rfl, rfl, rfl, rfl⟩ := h
      simp only [cnMain_ParseCommandLine_scan, cnMain_RunSystemParsers,
        runSystemParsers_from_eq parse t hc ht j s, hf]
      have : (callParser parse j s k1 o1 st).1 ≠ 0 := hret
      simp [this]
    | none =>
      rw [hf] at h
      simp only [cnMain_ParseCommandLine_scan, cnMain_RunSystemParsers,
        runSystemParsers_from_eq parse t hc ht j s, hf]
      simpa using ih (j + 1) st j1 sys k o h hret

theorem consumedBy_append (a b : List HandlerCall) :
    consumedBy (a ++ b) = consumedBy a + consumedBy b := by
  simp [consumedBy]

theorem runSystemParsers_from_shape {C : Type} (parse : CnCommandLineParse)
    (j : Nat) (sys : CnSystem C) :
    ∀ (opts : List (CnCommandLineOption C)) (i : Nat) (st : ParseState C)
      (c : Int) (st1 : ParseState C),
      cnMain_RunSystemParsers_from parse j sys i opts st = .ok (c, st1) →
      (c = 0 ∧ st1 = st) ∨ ∃ k o, (c, st1) = callParser parse j sys k o st := by
  intro opts
  induction opts with
  | nil =>
    intro i st c st1 h
    simp only [cnMain_RunSystemParsers_from, Except.ok.injEq, Prod.mk.injEq] at h
    exact Or.inl ⟨h.1.symm, h.2.symm⟩
  | cons o rest ih =>
    intro i st c st1 h
    simp only [cnMain_RunSystemParsers_from] at h
    cases hm : cnCommandLineOption_Matches o parse with
    | error e => rw [hm] at h; simp at h
    | ok b =>
      rw [hm] at h
      cases b with
      | true =>
        simp only [Except.ok.injEq] at h
        exact Or.inr ⟨i, o, h.symm⟩
      | false => exact ih (i + 1) st c st1 h

/-- What a scan adds to the record: invocations at the cursor's index, that
reported `c` consumed tokens in all when `c` is positive and none otherwise. -/
theorem scan_shape {C : Type} (parse : CnCommandLineParse) :
    ∀ (systems : List (CnSystem C)) (j : Nat) (st : ParseState C)
      (c : Int) (st1 : ParseState C),
      cnMain_ParseCommandLine_scan parse j systems st = .ok (c, st1) →
      ∃ new, st1.calls = st.calls ++ new ∧ consumedBy new = c.toNat ∧
        ∀ call ∈ new, call.index = parse.index := by
  intro systems
  induction systems with
  | nil =>
    intro j st c st1 h
    simp only [cnMain_ParseCommandLine_scan, Except.ok.injEq, Prod.mk.injEq] at h
    obtain ⟨rfl, rfl⟩ := h
    exact ⟨[], by simp, by simp [consumedBy], by simp⟩
  | cons s rest ih =>
    intro j st c st1 h
    simp only [cnMain_ParseCommandLine_scan, cnMain_RunSystemParsers] at h
    cases hr : cnMain_RunSystemParsers_from parse j s 0 s.options st with
    | error e => rw [hr] at h; simp at h
    | ok p =>
      obtain ⟨c0, st0⟩ := p
      rw [hr] at h
      simp only at h
      rcases runSystemParsers_from_shape parse j s s.options 0 st c0 st0 hr with
        ⟨hc0, hst0⟩ | ⟨k, o, hcall⟩
      · subst hc0; subst hst0
        simp only [ne_eq, not_true_eq_false, ↓reduceIte] at h
        exact ih (j + 1) st0 c st1 h
      · simp only [callParser, Prod.mk.injEq] at hcall
        obtain ⟨hc0, hst0⟩ := hcall
        by_cases hz : c0 = 0
        · simp only [hz, ne_eq, not_true_eq_false, ↓reduceIte] at h
          obtain ⟨new, h1, h2, h3⟩ := ih (j + 1) st0 c st1 h
          refine ⟨{ system := j, option := k, config := s.config, index := parse.index,
                    ret := (o.parser parse (st.configs s.config)).1 } :: new, ?_, ?_, ?_⟩
          · rw [h1, hst0]; simp
          · simp only [consumedBy, List.map_cons, List.sum_cons] at h2 ⊢
            rw [h2, ← hc0, hz]; simp
          · intro call hcall
            rcases List.mem_cons.1 hcall with rfl | hmem
            · rfl
            · exact h3 call hmem
        · simp only [ne_eq, hz, not_false_eq_true, ↓reduceIte, Except.ok.injEq,
            Prod.mk.injEq] at h
          obtain ⟨rfl, rfl⟩ := h
          refine ⟨[{ system := j, option := k, config := s.config, index := parse.index,
                     ret := (o.parser parse (st.configs s.config)).1 }], ?_, ?_, ?_⟩
          · rw [hst0]
          · simp [consumedBy, hc0]
          · intro call hcall
            rcases List.mem_singleton.1 hcall with rfl
            rfl

theorem scan_ok {C : Type} (parse : CnCommandLineParse) (t : String)
    (hc : cnCommandLineParse_ShouldContinue parse = true)
    (ht : cnCommandLineParse_LookAhead parse 1 = some t) :
    ∀ (systems : List (CnSystem C)) (j : Nat) (st : ParseState C),
      ∃ c st1, cnMain_ParseCommandLine_scan parse j systems st = .ok (c, st1) := by
  intro systems
  induction systems with
  | nil => intro j st; exact ⟨0, st, rfl⟩
  | cons s rest ih =>
    intro j st
    simp only [cnMain_ParseCommandLine_scan, cnMain_RunSystemParsers,
      runSystemParsers_from_eq parse t hc ht j s]
    cases hf : firstOption t 0 s.options with
    | none =>
      obtain ⟨c, st1, h⟩ := ih (j + 1) st
      exact ⟨c, st1, by simpa using h⟩
    | some p =>
      obtain ⟨k, o⟩ := p
      by_cases hz : (callParser parse j s k o st).1 = 0
      · obtain ⟨c, st1, h⟩ := ih (j + 1) (callParser parse j s k o st).2
        exact ⟨c, st1, by simpa [hz] using h⟩
      · exact ⟨(callParser parse j s k o st).1, (callParser parse j s k o st).2, by simp [hz]⟩

/-- The first handler a scan invokes is the one `firstSystem` names. -/
theorem scan_first_call {C : Type} (parse : CnCommandLineParse) (t : String)
    (hc : cnCommandLineParse_ShouldContinue parse = true)
    (ht : cnCommandLineParse_LookAhead parse 1 = some t) :
    ∀ (systems : List (CnSystem C)) (j : Nat) (st : ParseState C)
      (j1 : Nat) (sys : CnSystem C) (k : Nat) (o : CnCommandLineOption C),
      firstSystem t j systems = some (j1, sys, k, o) →
      ∃ c st1 more, cnMain_ParseCommandLine_scan parse j systems st = .ok (c, st1) ∧
        st1.calls = st.calls ++
          { system := j1, option := k, config := sys.config, index := parse.index,
            ret := (o.parser parse (st.configs sys.config)).1 } :: more := by
  intro systems
  induction systems with
  | nil => intro j st j1 sys k o h; simp [firstSystem] at h
  | cons s rest ih =>
    intro j st j1 sys k o h
    simp only [firstSystem] at h
    cases hf : firstOption t 0 s.options with
    | some p =>
      obtain ⟨k1, o1⟩ := p
      rw [hf] at h
      simp only [Option.some.injEq, Prod.mk.injEq] at h
      obtain ⟨rfl, rfl, rfl, rfl⟩ := h
      by_cases hz : (callParser parse j s k1 o1 st).1 = 0
      · obtain ⟨c, st1, hscan⟩ := scan_ok parse t hc ht rest (j + 1)
          (callParser parse j s k1 o1 st).2
        obtain ⟨new, hnew, _, _⟩ := scan_shape parse rest (j + 1) _ c st1 hscan
        refine ⟨c, st1, new, ?_, ?_⟩
        · simp only [cnMain_ParseCommandLine_scan, cnMain_RunSystemParsers,
            runSystemParsers_from_eq parse t hc ht j s, hf]
          simpa [hz] using hscan
        · rw [hnew]; simp [callParser]
      · refine ⟨(callParser parse j s k1 o1 st).1, (callParser parse j s k1 o1 st).2, [], ?_, ?_⟩
        · simp only [cnMain_ParseCommandLine_scan, cnMain_RunSystemParsers,
            runSystemParsers_from_eq parse t hc ht j s, hf]
          simp [hz]
        · simp [callParser]
    | none =>
      rw [hf] at h
      obtain ⟨c, st1, more, hscan, hcalls⟩ := ih (j + 1) st j1 sys k o h
      refine ⟨c, st1, more, ?_, hcalls⟩
      simp only [cnMain_ParseCommandLine_scan, cnMain_RunSystemParsers,
        runSystemParsers_from_eq parse t hc ht j s, hf]
      simpa using hscan

theorem firstOption_none {C : Type} (t : String) :
    ∀ (opts : List (CnCommandLineOption C)) (i : Nat),
      firstOption t i opts = none → ∀ o ∈ opts, flagEquals o t = false := by
  intro opts
  induction opts with
  | nil => intro i _ o ho; simp at ho
  | cons a rest ih =>
    intro i h o ho
    simp only [firstOption] at h
    cases ha : flagEquals a t with
    | true => simp [ha] at h
    | false =>
      simp only [ha, Bool.false_eq_true, ↓reduceIte] at h
      rcases List.mem_cons.1 ho with rfl | hmem
      · exact ha
      · exact ih (i + 1) h o hmem

theorem firstOption_some {C : Type} (t : String) :
    ∀ (opts : List (CnCommandLineOption C)) (i k : Nat) (o : CnCommandLineOption C),
      firstOption t i opts = some (k, o) →
      i ≤ k ∧ opts[k - i]? = some o ∧ flagEquals o t = true ∧
      ∀ m, m < k - i → ∀ o0, opts[m]? = some o0 → flagEquals o0 t = false := by
  intro opts
  induction opts with
  | nil => intro i k o h; simp [firstOption] at h
  | cons a rest ih =>
    intro i k o h
    simp only [firstOption] at h
    cases ha : flagEquals a t with
    | true =>
      simp only [ha, ↓reduceIte, Option.some.injEq, Prod.mk.injEq] at h
      obtain ⟨rfl, rfl⟩ := h
      refine ⟨le_refl _, by simp, ha, ?_⟩
      intro m hm; omega
    | false =>
      simp only [ha, Bool.false_eq_true, ↓reduceIte] at h
      obtain ⟨h1, h2, h3, h4⟩ := ih (i + 1) k o h
      refine ⟨by omega, ?_, h3, ?_⟩
      · have : k - i = (k - (i + 1)) + 1 := by omega
        rw [this]; simpa using h2
      · intro m hm o0 ho0
        cases m with
        | zero => simp at ho0; rw [← ho0]; exact ha
        | succ m => exact h4 m (by omega) o0 (by simpa using ho0)

theorem firstSystem_some {C : Type} (t : String) :
    ∀ (systems : List (CnSystem C)) (j j1 : Nat) (sys : CnSystem C) (k : Nat)
      (o : CnCommandLineOption C),
      firstSystem t j systems = some (j1, sys, k, o) →
      j ≤ j1 ∧ systems[j1 - j]? = some sys ∧ firstOption t 0 sys.options = some (k, o) ∧
      ∀ m, m < j1 - j → ∀ s0, systems[m]? = some s0 →
        ∀ o0 ∈ s0.options, flagEquals o0 t = false := by
  intro systems
  induction systems with
  | nil => intro j j1 sys k o h; simp [firstSystem] at h
  | cons s rest ih =>
    intro j j1 sys k o h
    simp only [firstSystem] at h
    cases hf : firstOption t 0 s.options with
    | some p =>
      obtain ⟨k1, o1⟩ := p
      rw [hf] at h
      simp only [Option.some.injEq, Prod.mk.injEq] at h
      obtain ⟨rfl, rfl, rfl, rfl⟩ := h
      refine ⟨le_refl _, by simp, hf, ?_⟩
      intro m hm; omega
    | none =>
      rw [hf] at h
      obtain ⟨h1, h2, h3, h4⟩ := ih (j + 1) j1 sys k o h
      refine ⟨by omega, ?_, h3, ?_⟩
      · have : j1 - j = (j1 - (j + 1)) + 1 := by omega
        rw [this]; simpa using h2
      · intro m hm s0 hs0 o0 ho0
        cases m with
        | zero =>
          simp at hs0; subst hs0
          exact firstOption_none t _ 0 hf o0 ho0
        | succ m => exact h4 m (by omega) s0 (by simpa using hs0) o0 ho0

theorem shouldContinue_mk (argc : Nat) (argv : List String) (i : Nat) (h : i < argc) :
    cnCommandLineParse_ShouldContinue ⟨argc, argv, i⟩ = true := by
  simp [cnCommandLineParse_ShouldContinue, h]

theorem shouldContinue_false (argc : Nat) (argv : List String) (i : Nat) (h : argc ≤ i) :
    cnCommandLineParse_ShouldContinue ⟨argc, argv, i⟩ = false := by
  simp [cnCommandLineParse_ShouldContinue, h]

/-- Along resolved groups the outer loop runs from position `i` to position
`j`, invoking handlers only for tokens before `j`. -/
theorem loop_groups {C : Type} (systems : List (CnSystem C)) (argc : Nat) (argv : List String)
    {i j : Nat} {cfg cfg1 : Nat → C}
    (h : ResolvedGroups systems argc argv i cfg j cfg1) :
    i ≤ j ∧ ∀ (calls : List HandlerCall) (fuel : Nat), argc - i ≤ fuel →
      ∃ new fuel1, argc - j ≤ fuel1 ∧ (∀ call ∈ new, call.index < j) ∧
        cnMain_ParseCommandLine_loop systems fuel ⟨argc, argv, i⟩ ⟨cfg, calls⟩ =
          cnMain_ParseCommandLine_loop systems fuel1 ⟨argc, argv, j⟩ ⟨cfg1, calls ++ new⟩ := by
  induction h with
  | done i cfg =>
    exact ⟨le_refl _, fun calls fuel hf => ⟨[], fuel, hf, by simp, by simp⟩⟩
  | @group i j cfg cfg1 token systemIndex system parserIndex option hi htoken hfirst hret _ ih =>
    obtain ⟨hij, ih⟩ := ih
    have hpos : 0 < (option.parser ⟨argc, argv, i⟩ (cfg system.config)).1.toNat := by omega
    refine ⟨by omega, ?_⟩
    intro calls fuel hfuel
    cases fuel with
    | zero => omega
    | succ f =>
      have hc := shouldContinue_mk argc argv i hi
      have ht : cnCommandLineParse_LookAhead ⟨argc, argv, i⟩ 1 = some token := by
        rw [lookAhead_one]; exact htoken
      have hscan := scan_some ⟨argc, argv, i⟩ token hc ht systems 0 ⟨cfg, calls⟩
        systemIndex system parserIndex option hfirst (by simpa using (ne_of_gt hret))
      obtain ⟨new, fuel1, h1, h2, h3⟩ := ih
        (calls ++ [{ system := systemIndex, option := parserIndex, config := system.config,
                     index := i, ret := (option.parser ⟨argc, argv, i⟩ (cfg system.config)).1 }])
        f (by omega)
      refine ⟨{ system := systemIndex, option := parserIndex, config := system.config,
                index := i, ret := (option.parser ⟨argc, argv, i⟩ (cfg system.config)).1 } :: new,
              fuel1, h1, ?_, ?_⟩
      · intro call hcall
        rcases List.mem_cons.1 hcall with rfl | hmem
        · show i < j
          omega
        · exact h2 call hmem
      · simp only [cnMain_ParseCommandLine_loop, hc, hscan, ↓reduceIte, callParser]
        rw [if_neg (not_le.2 hret)]
        simp only [cnCommandLineParse_Advance]
        rw [h3]
        simp

theorem loop_index {C : Type} (systems : List (CnSystem C)) :
    ∀ (fuel : Nat) (parse : CnCommandLineParse) (st : ParseState C) (r : ParseResult C),
      cnMain_ParseCommandLine_loop systems fuel parse st = some (.ok r) →
      r.parse.index + consumedBy st.calls = parse.index + consumedBy r.calls := by
  intro fuel
  induction fuel with
  | zero =>
    intro parse st r h
    simp only [cnMain_ParseCommandLine_loop] at h
    cases hc : cnCommandLineParse_ShouldContinue parse with
    | true => simp [hc] at h
    | false =>
      simp only [hc, Bool.false_eq_true, ↓reduceIte, Option.some.injEq, Except.ok.injEq] at h
      subst h; rfl
  | succ f ih =>
    intro parse st r h
    simp only [cnMain_ParseCommandLine_loop] at h
    cases hc : cnCommandLineParse_ShouldContinue parse with
    | false =>
      simp only [hc, Bool.false_eq_true, ↓reduceIte, Option.some.injEq, Except.ok.injEq] at h
      subst h; rfl
    | true =>
      simp only [hc, ↓reduceIte] at h
      cases hs : cnMain_ParseCommandLine_scan parse 0 systems st with
      | error e => rw [hs] at h; simp at h
      | ok p =>
        obtain ⟨c, st1⟩ := p
        rw [hs] at h
        simp only at h
        obtain ⟨new, hnew, hsum, _⟩ := scan_shape parse systems 0 st c st1 hs
        by_cases hle : c ≤ 0
        · simp only [hle, ↓reduceIte, Option.some.injEq, Except.ok.injEq] at h
          subst h
          simp only [parseFailed, hnew, consumedBy_append, hsum]
          have : c.toNat = 0 := by omega
          omega
        · simp only [hle, ↓reduceIte] at h
          have := ih _ _ r h
          simp only [cnCommandLineParse_Advance, hnew, consumedBy_append, hsum] at this
          omega

theorem loop_total {C : Type} (systems : List (CnSystem C)) :
    ∀ (fuel : Nat) (parse : CnCommandLineParse) (st : ParseState C),
      parse.argc - parse.index ≤ fuel →
      ∃ res, cnMain_ParseCommandLine_loop systems fuel parse st = some res := by
  intro fuel
  induction fuel with
  | zero =>
    intro parse st hf
    have hc : cnCommandLineParse_ShouldContinue parse = false := by
      simp only [cnCommandLineParse_ShouldContinue, decide_eq_false_iff_not]; omega
    exact ⟨_, by simp only [cnMain_ParseCommandLine_loop, hc, Bool.false_eq_true, ↓reduceIte]; rfl⟩
  | succ f ih =>
    intro parse st hf
    simp only [cnMain_ParseCommandLine_loop]
    cases hc : cnCommandLineParse_ShouldContinue parse with
    | false => exact ⟨_, by simp only [Bool.false_eq_true, ↓reduceIte]; rfl⟩
    | true =>
      simp only [↓reduceIte]
      cases hs : cnMain_ParseCommandLine_scan parse 0 systems st with
      | error e => exact ⟨_, rfl⟩
      | ok p =>
        obtain ⟨c, st1⟩ := p
        simp only
        by_cases hle : c ≤ 0
        · exact ⟨_, by simp only [hle, ↓reduceIte]; rfl⟩
        · simp only [hle, ↓reduceIte]
          apply ih
          simp only [cnCommandLineParse_Advance]
          omega

theorem string_append_ne_self (a s : String) (hs : s ≠ "") : a ++ s ≠ a := by
  intro h
  have hl := congrArg String.length h
  rw [String.length_append] at hl
  have h0 : s.data.length = 0 := by
    have : s.length = 0 := by omega
    exact this
  apply hs
  apply String.ext
  simpa using List.length_eq_zero.1 h0

/-- Inside the 8 ms .. 5000 ms window a tick is generated. -/
theorem generateTick_window (L n outDt : CnTime)
    (hLn : L.native ≤ n.native)
    (hmin : 8000000 ≤ n.native - L.native)
    (hmax : n.native - L.native ≤ 5000000000) :
    cnMain_GenerateTick L n outDt =
      { ret := true, outDt := ⟨n.native - L.native⟩, lastTick := n } := by
  have hmaxLn : max L.native n.native = n.native := Nat.max_eq_right hLn
  have hcur : cnTime_Max L n = n := by
    cases n with
    | mk nn =>
      have := cnTime_Max_native L ⟨nn⟩
      cases hm : cnTime_Max L ⟨nn⟩ with
      | mk mm => rw [hm] at this; simp at this hmaxLn; simp [this, hmaxLn]
  have hdt : cnTime_SubtractMonotonic (cnTime_Max L n) L = ⟨n.native - L.native⟩ := by
    have := tick_dt_native L n
    cases hm : cnTime_SubtractMonotonic (cnTime_Max L n) L with
    | mk mm => rw [hm] at this; simp at this; simp [this, hmaxLn]
  rcases cnMain_GenerateTick_cases L n outDt with ⟨h0, _⟩ | ⟨_, h0, _⟩ | ⟨_, _, h1⟩
  · omega
  · omega
  · rw [h1, hdt, hcur]

/-- Above the 5000 ms bound the tick is dropped and the last tick advanced. -/
theorem generateTick_dropped (L n outDt : CnTime)
    (h : 5000000000 < n.native - L.native) :
    cnMain_GenerateTick L n outDt = { ret := false, outDt := outDt, lastTick := n } := by
  have hLn : L.native ≤ n.native := by omega
  have hmaxLn : max L.native n.native = n.native := Nat.max_eq_right hLn
  have hcur : cnTime_Max L n = n := by
    cases n with
    | mk nn =>
      have := cnTime_Max_native L ⟨nn⟩
      cases hm : cnTime_Max L ⟨nn⟩ with
      | mk mm => rw [hm] at this; simp at this hmaxLn; simp [this, hmaxLn]
  rcases cnMain_GenerateTick_cases L n outDt with ⟨h0, _⟩ | ⟨_, _, h1⟩ | ⟨_, h0, _⟩
  · omega
  · rw [h1, hcur]
  · omega

/-- A scan that ends with a non-zero value ends with the handler that
returned it; every handler invoked before it returned 0. -/
theorem scan_last {C : Type} (parse : CnCommandLineParse) :
    ∀ (systems : List (CnSystem C)) (j : Nat) (st : ParseState C)
      (c : Int) (st1 : ParseState C),
      cnMain_ParseCommandLine_scan parse j systems st = .ok (c, st1) → c ≠ 0 →
      ∃ earlier call, st1.calls = st.calls ++ earlier ++ [call] ∧ call.ret = c ∧
        call.index = parse.index ∧ ∀ e ∈ earlier, e.ret = 0 := by
  intro systems
  induction systems with
  | nil =>
    intro j st c st1 h hc
    simp only [cnMain_ParseCommandLine_scan, Except.ok.injEq, Prod.mk.injEq] at h
    exact absurd h.1.symm hc
  | cons s rest ih =>
    intro j st c st1 h hc
    simp only [cnMain_ParseCommandLine_scan, cnMain_RunSystemParsers] at h
    cases hr : cnMain_RunSystemParsers_from parse j s 0 s.options st with
    | error e => rw [hr] at h; simp at h
    | ok p =>
      obtain ⟨c0, st0⟩ := p
      rw [hr] at h
      simp only at h
      rcases runSystemParsers_from_shape parse j s s.options 0 st c0 st0 hr with
        ⟨hc0, hst0⟩ | ⟨k, o, hcall⟩
      · subst hc0; subst hst0
        simp only [ne_eq, not_true_eq_false, ↓reduceIte] at h
        exact ih (j + 1) st0 c st1 h hc
      · simp only [callParser, Prod.mk.injEq] at hcall
        obtain ⟨hc0, hst0⟩ := hcall
        by_cases hz : c0 = 0
        · simp only [hz, ne_eq, not_true_eq_false, ↓reduceIte] at h
          obtain ⟨earlier, call, h1, h2, h3, h4⟩ := ih (j + 1) st0 c st1 h hc
          refine ⟨{ system := j, option := k, config := s.config, index := parse.index,
                    ret := (o.parser parse (st.configs s.config)).1 } :: earlier,
                  call, ?_, h2, h3, ?_⟩
          · rw [h1, hst0]; simp
          · intro e he
            rcases List.mem_cons.1 he with rfl | hmem
            · show (o.parser parse (st.configs s.config)).1 = 0
              rw [← hc0]; exact hz
            · exact h4 e hmem
        · simp only [ne_eq, hz, not_false_eq_true, ↓reduceIte, Except.ok.injEq,
            Prod.mk.injEq] at h
          obtain ⟨rfl, rfl⟩ := h
          refine ⟨[], { system := j, option := k, config := s.config, index := parse.index,
                        ret := (o.parser parse (st.configs s.config)).1 }, ?_, hc0.symm, rfl, ?_⟩
          · rw [hst0]; simp
          · intro e he; simp at he

/-! ### `strtoll` lemmas -/

theorem isspace_false_of_isDigit (c : Char) (h : c.isDigit = true) : isspace c = false := by
  have h1 : c ≠ ' ' := by rintro rfl; exact absurd h (by decide)
  have h2 : c ≠ '\t' := by rintro rfl; exact absurd h (by decide)
  have h3 : c ≠ '\n' := by rintro rfl; exact absurd h (by decide)
  have h4 : c ≠ '\x0b' := by rintro rfl; exact absurd h (by decide)
  have h5 : c ≠ '\x0c' := by rintro rfl; exact absurd h (by decide)
  have h6 : c ≠ '\r' := by rintro rfl; exact absurd h (by decide)
  simp [isspace, h1, h2, h3, h4, h5, h6]

theorem not_sign_of_isDigit (c : Char) (h : c.isDigit = true) : c ≠ '-' ∧ c ≠ '+' := by
  constructor
  · rintro rfl; exact absurd h (by decide)
  · rintro rfl; exact absurd h (by decide)

theorem takeWhile_dropWhile_of_head (p : Char → Bool) (tail : List Char)
    (h : ∀ c, tail.head? = some c → p c = false) :
    tail.takeWhile p = [] ∧ tail.dropWhile p = tail := by
  cases tail with
  | nil => simp
  | cons c rest =>
    have hc : p c = false := h c rfl
    simp [List.takeWhile_cons, List.dropWhile_cons, hc]

/-- The digits and the rest `strtoll` finds in a run of digits followed by a
tail that does not start with a digit. -/
theorem digits_run (digits tail : List Char)
    (hdig : ∀ c ∈ digits, c.isDigit = true)
    (htail : ∀ c, tail.head? = some c → c.isDigit = false) :
    (digits ++ tail).takeWhile Char.isDigit = digits ∧
    (digits ++ tail).dropWhile Char.isDigit = tail := by
  obtain ⟨h1, h2⟩ := takeWhile_dropWhile_of_head Char.isDigit tail htail
  constructor
  · rw [List.takeWhile_append_of_pos hdig, h1, List.append_nil]
  · rw [List.dropWhile_append_of_pos hdig, h2]

/-- What `strtoll` computes on white space, an optional sign, a non-empty run
of digits and a tail that does not start with a digit. -/
theorem strtoll_shape (ws sign digits tail : List Char) (errno : Int)
    (hws : ∀ c ∈ ws, isspace c = true)
    (hsign : sign = [] ∨ sign = ['+'] ∨ sign = ['-'])
    (hne : digits ≠ [])
    (hdig : ∀ c ∈ digits, c.isDigit = true)
    (htail : ∀ c, tail.head? = some c → c.isDigit = false) :
    strtoll (ws ++ sign ++ digits ++ tail) errno = strtollOutcome sign digits tail errno := by
  obtain ⟨hrun1, hrun2⟩ := digits_run digits tail hdig htail
  obtain ⟨d, rest, rfl⟩ := List.exists_cons_of_ne_nil hne
  have hd : d.isDigit = true := hdig d (List.mem_cons_self _ _)
  have hdspace : isspace d = false := isspace_false_of_isDigit d hd
  obtain ⟨hd1, hd2⟩ := not_sign_of_isDigit d hd
  have hrun3 : List.takeWhile Char.isDigit (d :: (rest ++ tail)) = d :: rest := hrun1
  have hrun4 : List.dropWhile Char.isDigit (d :: (rest ++ tail)) = tail := hrun2
  rcases hsign with rfl | rfl | rfl
  · have hdrop : (ws ++ [] ++ (d :: rest) ++ tail).dropWhile isspace = (d :: rest) ++ tail := by
      rw [List.append_nil, List.append_assoc, List.dropWhile_append_of_pos hws]
      simp [List.dropWhile_cons, hdspace]
    simp only [strtoll, hdrop, strtollOutcome]
    simp [hd, hd1, hd2, hrun3, hrun4]
  · have hdrop : (ws ++ ['+'] ++ (d :: rest) ++ tail).dropWhile isspace =
        '+' :: ((d :: rest) ++ tail) := by
      rw [List.append_assoc, List.append_assoc, List.dropWhile_append_of_pos hws]
      simp [List.dropWhile_cons, isspace]
    simp only [strtoll, hdrop, strtollOutcome]
    simp [hd, hrun3, hrun4]
  · have hdrop : (ws ++ ['-'] ++ (d :: rest) ++ tail).dropWhile isspace =
        '-' :: ((d :: rest) ++ tail) := by
      rw [List.append_assoc, List.append_assoc, List.dropWhile_append_of_pos hws]
      simp [List.dropWhile_cons, isspace]
    simp only [strtoll, hdrop, strtollOutcome]
    simp [hd, hrun3, hrun4]

/-- When `strtoll` stops at the end of a non-empty string, the string is
white space, an optional sign and a non-empty run of digits. -/
theorem strtoll_decompose (s : List Char) (errno : Int)
    (hend : (strtoll s errno).endptr = []) (hs : s ≠ []) :
    ∃ ws sign digits, s = ws ++ sign ++ digits ∧ (∀ c ∈ ws, isspace c = true) ∧
      (sign = [] ∨ sign = ['+'] ∨ sign = ['-']) ∧ digits ≠ [] ∧
      (∀ c ∈ digits, c.isDigit = true) ∧
      strtoll s errno = strtollOutcome sign digits [] errno := by
  have hsplit : s = s.takeWhile isspace ++ s.dropWhile isspace :=
    (List.takeWhile_append_dropWhile isspace s).symm
  have hws : ∀ c ∈ s.takeWhile isspace, isspace c = true :=
    fun c hc => List.mem_takeWhile_imp hc
  have key : ∀ (sign u : List Char), (sign = [] ∨ sign = ['+'] ∨ sign = ['-']) →
      s.dropWhile isspace = sign ++ u →
      (strtoll s errno).endptr = (if u.takeWhile Char.isDigit = [] then s
        else u.dropWhile Char.isDigit) →
      ∃ ws sign digits, s = ws ++ sign ++ digits ∧ (∀ c ∈ ws, isspace c = true) ∧
        (sign = [] ∨ sign = ['+'] ∨ sign = ['-']) ∧ digits ≠ [] ∧
        (∀ c ∈ digits, c.isDigit = true) ∧
        strtoll s errno = strtollOutcome sign digits [] errno := by
    intro sign u hsign hdrop hendptr
    by_cases hdigits : u.takeWhile Char.isDigit = []
    · rw [hendptr, if_pos hdigits] at hend
      exact absurd hend hs
    · rw [hendptr, if_neg hdigits] at hend
      have hu : u = u.takeWhile Char.isDigit := by
        have := List.takeWhile_append_dropWhile Char.isDigit u
        rw [hend, List.append_nil] at this
        exact this.symm
      have hdig : ∀ c ∈ u.takeWhile Char.isDigit, c.isDigit = true :=
        fun c hc => List.mem_takeWhile_imp hc
      have hs' : s = s.takeWhile isspace ++ sign ++ u.takeWhile Char.isDigit := by
        rw [List.append_assoc, ← hu, ← hdrop]; exact hsplit
      refine ⟨s.takeWhile isspace, sign, u.takeWhile Char.isDigit, hs', hws, hsign, hdigits,
        hdig, ?_⟩
      have := strtoll_shape (s.takeWhile isspace) sign (u.takeWhile Char.isDigit) [] errno
        hws hsign hdigits hdig (by simp)
      rw [List.append_nil, ← hs'] at this
      exact this
  cases hd : s.dropWhile isspace with
  | nil =>
    refine key [] [] (Or.inl rfl) (by simp [hd]) ?_
    simp [strtoll, hd]
  | cons c u =>
    by_cases hminus : c = '-'
    · subst hminus
      refine key ['-'] u (Or.inr (Or.inr rfl)) (by simp [hd]) ?_
      simp only [strtoll, hd]
      by_cases hdigits : u.takeWhile Char.isDigit = []
      · simp [hdigits]
      · simp only [List.head?_cons, List.tail_cons, beq_self_eq_true, Bool.true_or, ↓reduceIte,
          hdigits]
        split <;> rfl
    · by_cases hplus : c = '+'
      · subst hplus
        refine key ['+'] u (Or.inr (Or.inl rfl)) (by simp [hd]) ?_
        simp only [strtoll, hd]
        by_cases hdigits : u.takeWhile Char.isDigit = []
        · simp [hdigits]
        · simp [hdigits]
          split <;> rfl
      · refine key [] (c :: u) (Or.inl rfl) (by simp [hd]) ?_
        simp only [strtoll, hd]
        by_cases hdigits : (c :: u).takeWhile Char.isDigit = []
        · simp [hminus, hplus, hdigits]
        · simp [hminus, hplus, hdigits]
          split <;> rfl

/-- A string in `strtoll`'s syntax for a non-negative number in range is read
to its end, as that number, without a range error. -/
theorem strtoll_of_nonNegative (s : List Char) (errno : Int) (h : StrtollNonNegative s) :
    (strtoll s errno).endptr = [] ∧ 0 ≤ (strtoll s errno).value ∧
    (strtoll s errno).errno = errno := by
  obtain ⟨ws, sign, digits, rfl, hws, hsign, hne, hdig, hneg, hlt⟩ := h
  have hshape := strtoll_shape ws sign digits [] errno hws hsign hne hdig (by simp)
  rw [List.append_nil] at hshape
  rw [hshape]
  unfold strtollOutcome
  have h1 : ¬ ((2 : Int) ^ 63 < (decimalValue digits : Int)) := by
    have : (decimalValue digits : Int) < 2 ^ 63 := by exact_mod_cast hlt
    omega
  have h2 : ¬ (LLONG_MAX < (decimalValue digits : Int)) := by
    have : (decimalValue digits : Int) < 2 ^ 63 := by exact_mod_cast hlt
    unfold LLONG_MAX; omega
  by_cases hs : sign = ['-']
  · have h0 := hneg hs
    simp [hs, h1, h0]
  · simp [hs, h2]

theorem strtollOutcome_minus (digits tail : List Char) (errno : Int) :
    ((2 : Int) ^ 63 < decimalValue digits →
      strtollOutcome ['-'] digits tail errno =
        { value := LLONG_MIN, endptr := tail, errno := ERANGE }) ∧
    (¬ (2 : Int) ^ 63 < decimalValue digits →
      strtollOutcome ['-'] digits tail errno =
        { value := -(decimalValue digits : Int), endptr := tail, errno := errno }) := by
  constructor
  · intro h
    unfold strtollOutcome
    rw [if_pos rfl, if_pos h]
  · intro h
    unfold strtollOutcome
    rw [if_pos rfl, if_neg h]

theorem strtollOutcome_plain (sign digits tail : List Char) (errno : Int)
    (hsign : sign ≠ ['-']) :
    (LLONG_MAX < decimalValue digits →
      strtollOutcome sign digits tail errno =
        { value := LLONG_MAX, endptr := tail, errno := ERANGE }) ∧
    (¬ LLONG_MAX < decimalValue digits →
      strtollOutcome sign digits tail errno =
        { value := (decimalValue digits : Int), endptr := tail, errno := errno }) := by
  constructor
  · intro h
    unfold strtollOutcome
    rw [if_neg hsign, if_pos h]
  · intro h
    unfold strtollOutcome
    rw [if_neg hsign, if_neg h]

/-- The end pointer, the sign of the value and the range error of
`strtollOutcome`. -/
theorem strtollOutcome_facts (sign digits tail : List Char) (errno : Int) :
    (strtollOutcome sign digits tail errno).endptr = tail ∧
    (sign ≠ ['-'] → 0 ≤ (strtollOutcome sign digits tail errno).value) ∧
    (sign = ['-'] → decimalValue digits ≠ 0 →
      (strtollOutcome sign digits tail errno).value < 0) ∧
    (0 ≤ (strtollOutcome sign digits tail errno).value →
      (strtollOutcome sign digits tail errno).errno ≠ ERANGE →
      (sign = ['-'] → decimalValue digits = 0) ∧ decimalValue digits < 2 ^ 63) ∧
    (sign ≠ ['-'] → 2 ^ 63 ≤ decimalValue digits →
      (strtollOutcome sign digits tail errno).errno = ERANGE) := by
  by_cases hsign : sign = ['-']
  · subst hsign
    obtain ⟨h1, h2⟩ := strtollOutcome_minus digits tail errno
    by_cases hbig : (2 : Int) ^ 63 < decimalValue digits
    · rw [h1 hbig]
      refine ⟨rfl, fun h => absurd rfl h, fun _ _ => (by decide : LLONG_MIN < 0), ?_,
        fun h => absurd rfl h⟩
      intro _ herr
      exact absurd rfl herr
    · rw [h2 hbig]
      refine ⟨rfl, fun h => absurd rfl h, ?_, ?_, fun h => absurd rfl h⟩
      · intro _ hne
        show -(decimalValue digits : Int) < 0
        have : 0 < decimalValue digits := Nat.pos_of_ne_zero hne
        omega
      · intro hpos _
        have hpos' : 0 ≤ -(decimalValue digits : Int) := hpos
        have h0 : decimalValue digits = 0 := by omega
        exact ⟨fun _ => h0, by rw [h0]; decide⟩
  · obtain ⟨h1, h2⟩ := strtollOutcome_plain sign digits tail errno hsign
    by_cases hbig : LLONG_MAX < decimalValue digits
    · rw [h1 hbig]
      refine ⟨rfl, fun _ => (by decide : (0 : Int) ≤ LLONG_MAX), fun h => absurd h hsign, ?_,
        fun _ _ => rfl⟩
      intro _ herr
      exact absurd rfl herr
    · rw [h2 hbig]
      refine ⟨rfl, fun _ => Int.ofNat_nonneg _, fun h => absurd h hsign, ?_, ?_⟩
      · intro _ _
        refine ⟨fun h => absurd h hsign, ?_⟩
        unfold LLONG_MAX at hbig
        have : (decimalValue digits : Int) < 2 ^ 63 := by omega
        exact_mod_cast this
      · intro _ hge
        exfalso
        apply hbig
        unfold LLONG_MAX
        have : ((2 : Nat) ^ 63 : Nat) ≤ decimalValue digits := hge
        have h3 : (((2 : Nat) ^ 63 : Nat) : Int) ≤ (decimalValue digits : Int) := by
          exact_mod_cast this
        have h4 : (((2 : Nat) ^ 63 : Nat) : Int) = (2 : Int) ^ 63 := by norm_num
        omega

/-! ### Decimal numerals -/

theorem foldl_decimal (digits : List Char) :
    ∀ acc : Nat, digits.foldl (fun acc c => acc * 10 + digitValue c) acc =
      acc * 10 ^ digits.length + decimalValue digits := by
  induction digits with
  | nil => intro acc; simp [decimalValue]
  | cons d rest ih =>
    intro acc
    simp only [List.foldl_cons, decimalValue, List.length_cons]
    rw [ih, ih (0 * 10 + digitValue d)]
    ring

theorem decimalValue_append_singleton (digits : List Char) (d : Char) :
    decimalValue (digits ++ [d]) = decimalValue digits * 10 + digitValue d := by
  simp [decimalValue, List.foldl_append]

theorem digitChar_digit (m : Nat) (h : m < 10) :
    (Nat.digitChar m).isDigit = true ∧ digitValue (Nat.digitChar m) = m := by
  interval_cases m <;> exact ⟨by decide, by decide⟩

theorem toDigitsCore_decimal :
    ∀ (fuel n : Nat) (ds : List Char), n < fuel →
      ∃ pre, Nat.toDigitsCore 10 fuel n ds = pre ++ ds ∧ pre ≠ [] ∧
        (∀ c ∈ pre, c.isDigit = true) ∧ decimalValue pre = n := by
  intro fuel
  induction fuel with
  | zero => intro n ds h; omega
  | succ f ih =>
    intro n ds h
    obtain ⟨hd1, hd2⟩ := digitChar_digit (n % 10) (Nat.mod_lt _ (by decide))
    simp only [Nat.toDigitsCore]
    by_cases h0 : n / 10 = 0
    · refine ⟨[Nat.digitChar (n % 10)], by simp [h0], by simp, ?_, ?_⟩
      · intro c hc
        rw [List.mem_singleton.1 hc]; exact hd1
      · have : decimalValue [Nat.digitChar (n % 10)] = digitValue (Nat.digitChar (n % 10)) := by
          simp [decimalValue]
        rw [this, hd2]; omega
    · obtain ⟨pre, h1, h2, h3, h4⟩ := ih (n / 10) (Nat.digitChar (n % 10) :: ds) (by omega)
      refine ⟨pre ++ [Nat.digitChar (n % 10)], by simp [h0, h1], by simp, ?_, ?_⟩
      · intro c hc
        rcases List.mem_append.1 hc with hc | hc
        · exact h3 c hc
        · rw [List.mem_singleton.1 hc]; exact hd1
      · rw [decimalValue_append_singleton, h4, hd2]; omega

/-- The decimal numeral `toString n` is a non-empty run of digits that
denotes `n`. -/
theorem toString_decimal (n : Nat) :
    PlainDecimal (toString n).toList ∧ decimalValue (toString n).toList = n := by
  obtain ⟨pre, h1, h2, h3, h4⟩ := toDigitsCore_decimal (n + 1) n [] (by omega)
  have hlist : (toString n).toList = pre := by
    show Nat.toDigits 10 n = pre
    unfold Nat.toDigits
    rw [h1, List.append_nil]
  rw [hlist]
  exact ⟨⟨h2, h3⟩, h4⟩

/-! ### Option handler lemmas -/

theorem lookAhead_two (parse : CnCommandLineParse) :
    cnCommandLineParse_LookAhead parse 2 = parse.argv[parse.index + 1]? ∧
    cnCommandLineParse_LookAheadIndex parse 2 = parse.index + 1 := by
  simp [cnCommandLineParse_LookAhead, cnCommandLineParse_LookAheadIndex]

theorem hasLookAhead_two (parse : CnCommandLineParse) (h : parse.index + 2 ≤ parse.argc) :
    cnCommandLineParse_HasLookAhead parse 2 = true := by
  simp [cnCommandLineParse_HasLookAhead, h]

theorem hasLookAhead_two_false (parse : CnCommandLineParse) (h : parse.argc < parse.index + 2) :
    cnCommandLineParse_HasLookAhead parse 2 = false := by
  simp [cnCommandLineParse_HasLookAhead, h]

/-- `cnMain_OptionTickLimit` with a following argument: the three cases of its
tests on the result of `strtoll`. -/
theorem optionTickLimit_cases (env : Env) (parse : CnCommandLineParse) (config : CnMainConfig)
    (tickString : String)
    (hla : parse.index + 2 ≤ parse.argc)
    (harg : parse.argv[parse.index + 1]? = some tickString) :
    ((strtoll tickString.toList env.errno).value < 0 →
      cnMain_OptionTickLimit env parse config =
        { ret := CnOptionParseError, config := config,
          printed := ["Cannot step a negative number of ticks: " ++ tickString ++ "\n"],
          reads := [parse.index + 1] }) ∧
    (0 ≤ (strtoll tickString.toList env.errno).value →
      ((strtoll tickString.toList env.errno).endptr ≠ [] ∨
        (strtoll tickString.toList env.errno).errno = ERANGE) →
      cnMain_OptionTickLimit env parse config =
        { ret := CnOptionParseError, config := config,
          printed := ["Unable to parse tick limit: " ++ tickString ++ "\n"],
          reads := [parse.index + 1] }) ∧
    (0 ≤ (strtoll tickString.toList env.errno).value →
      (strtoll tickString.toList env.errno).endptr = [] →
      (strtoll tickString.toList env.errno).errno ≠ ERANGE →
      cnMain_OptionTickLimit env parse config =
        { ret := 2,
          config := { config with
            tickLimit := (strtoll tickString.toList env.errno).value.toNat },
          printed := [], reads := [parse.index + 1] }) := by
  obtain ⟨hl1, hl2⟩ := lookAhead_two parse
  have hh := hasLookAhead_two parse hla
  have hunfold : cnMain_OptionTickLimit env parse config =
      if (strtoll tickString.toList env.errno).value < 0 then
        { ret := CnOptionParseError, config := config,
          printed := ["Cannot step a negative number of ticks: " ++ tickString ++ "\n"],
          reads := [parse.index + 1] }
      else if (strtoll tickString.toList env.errno).endptr ≠ [] ∨
          (strtoll tickString.toList env.errno).errno = ERANGE then
        { ret := CnOptionParseError, config := config,
          printed := ["Unable to parse tick limit: " ++ tickString ++ "\n"],
          reads := [parse.index + 1] }
      else
        { ret := 2,
          config := { config with
            tickLimit := (strtoll tickString.toList env.errno).value.toNat },
          printed := [], reads := [parse.index + 1] } := by
    simp only [cnMain_OptionTickLimit, hh, hl1, hl2, harg, Option.getD_some, Bool.not_true,
      Bool.false_eq_true, ↓reduceIte]
  refine ⟨?_, ?_, ?_⟩
  · intro hneg
    rw [hunfold, if_pos hneg]
  · intro hpos hbad
    rw [hunfold, if_neg (not_lt.2 hpos), if_pos hbad]
  · intro hpos hend herr
    have hgood : ¬ ((strtoll tickString.toList env.errno).endptr ≠ [] ∨
        (strtoll tickString.toList env.errno).errno = ERANGE) := by
      rintro (h | h)
      · exact h hend
      · exact herr h
    rw [hunfold, if_neg (not_lt.2 hpos), if_neg hgood]

/-- `cnMain_OptionPayload` when the following argument is not a file. -/
theorem optionPayload_not_file (env : Env) (parse : CnCommandLineParse) (config : CnMainConfig)
    (gamePath : String)
    (hla : parse.index + 2 ≤ parse.argc)
    (harg : parse.argv[parse.index + 1]? = some gamePath)
    (hfile : cnPath_IsFile env (some gamePath) = false) :
    (cnMain_OptionPayload env parse config).ret = CnOptionParseError ∧
    (cnMain_OptionPayload env parse config).config = config ∧
    (cnMain_OptionPayload env parse config).reads = [parse.index + 1] := by
  obtain ⟨hl1, hl2⟩ := lookAhead_two parse
  have hh := hasLookAhead_two parse hla
  by_cases hfit : env.cnString_TerminatedFitsIn gamePath env.CN_MAX_TERMINATED_PATH = true
  · simp [cnMain_OptionPayload, hh, hl1, hl2, harg, hfit, hfile]
  · simp [cnMain_OptionPayload, hh, hl1, hl2, harg, hfit]

/-- Both handlers of `main-config.c` when no argument follows the flag. -/
theorem options_without_argument (env : Env) (parse : CnCommandLineParse) (config : CnMainConfig)
    (h : parse.argc < parse.index + 2) :
    cnMain_OptionPayload env parse config =
      { ret := CnOptionParseError, config := config,
        printed := ["Payload must be provided a shared library (or DLL) to load\n"],
        reads := [] } ∧
    cnMain_OptionTickLimit env parse config =
      { ret := CnOptionParseError, config := config,
        printed := ["Must provide the number of ticks for which to run the program.\n"],
        reads := [] } := by
  have hh := hasLookAhead_two_false parse h
  constructor
  · simp [cnMain_OptionPayload, hh]
  · simp [cnMain_OptionTickLimit, hh]

/-- In a registry headed by the main subsystem, `-g` and `--game` resolve to
its first option and `-t` and `--tick-limit` to its second. -/
theorem firstSystem_main (env : Env) (others : List (CnSystem CnMainConfig)) :
    (∀ flag, flag = "-g" ∨ flag = "--game" →
      ∃ o, firstSystem flag 0 (cnMain_System env :: others) =
          some (0, cnMain_System env, 0, o) ∧
        o.parser = fun parse c =>
          ((cnMain_OptionPayload env parse c).ret, (cnMain_OptionPayload env parse c).config)) ∧
    (∀ flag, flag = "-t" ∨ flag = "--tick-limit" →
      ∃ o, firstSystem flag 0 (cnMain_System env :: others) =
          some (0, cnMain_System env, 1, o) ∧
        o.parser = fun parse c =>
          ((cnMain_OptionTickLimit env parse c).ret,
           (cnMain_OptionTickLimit env parse c).config)) := by
  constructor
  · intro flag hflag
    rcases hflag with rfl | rfl
    · exact ⟨_, rfl, rfl⟩
    · exact ⟨_, rfl, rfl⟩
  · intro flag hflag
    rcases hflag with rfl | rfl
    · exact ⟨_, rfl, rfl⟩
    · exact ⟨_, rfl, rfl⟩

/-- After groups consumed by successful handlers up to position `k`, a
negative value returned by the handler resolved for the token at `k` ends the
parse there. -/
theorem parse_fails_at_handler {C : Type} (systems : List (CnSystem C))
    (configs cfgD cfgK : Nat → C) (argv : List String) (k : Nat) (token : String)
    (j : Nat) (sys : CnSystem C) (i : Nat) (o : CnCommandLineOption C)
    (hdef : cnMain_ParseCommandLine_defaults systems configs = .ok cfgD)
    (hgroups : ResolvedGroups systems argv.length argv 1 cfgD k cfgK)
    (htoken : argv[k]? = some token)
    (hfirst : firstSystem token 0 systems = some (j, sys, i, o))
    (hret : (o.parser ⟨argv.length, argv, k⟩ (cfgK sys.config)).1 < 0) :
    ∃ r before, cnMain_ParseCommandLine systems configs argv.length argv = some (.ok r) ∧
      r.ret = false ∧ r.parse.index = k ∧ r.unparsed = some (some token, k) ∧
      r.configs = Function.update cfgK sys.config
        (o.parser ⟨argv.length, argv, k⟩ (cfgK sys.config)).2 ∧
      r.calls = before ++
        [{ system := j, option := i, config := sys.config, index := k,
           ret := (o.parser ⟨argv.length, argv, k⟩ (cfgK sys.config)).1 }] ∧
      ∀ call ∈ before, call.index < k := by
  have hk : k < argv.length := by
    rcases List.getElem?_eq_some_iff.1 htoken with ⟨h, _⟩
    exact h
  obtain ⟨_, hloop⟩ := loop_groups systems argv.length argv hgroups
  obtain ⟨new, fuel1, hfuel1, hnew, h⟩ := hloop [] argv.length (by omega)
  have hc := shouldContinue_mk argv.length argv k hk
  have ht : cnCommandLineParse_LookAhead ⟨argv.length, argv, k⟩ 1 = some token := by
    rw [lookAhead_one]; exact htoken
  have hscan := scan_some ⟨argv.length, argv, k⟩ token hc ht systems 0 ⟨cfgK, [] ++ new⟩
    j sys i o hfirst (ne_of_lt hret)
  refine ⟨parseFailed ⟨argv.length, argv, k⟩
    (callParser ⟨argv.length, argv, k⟩ j sys i o ⟨cfgK, [] ++ new⟩).2, new, ?_, rfl, rfl, ?_,
    rfl, ?_, hnew⟩
  · have hlt : ¬ argv.length < 1 := by omega
    simp only [cnMain_ParseCommandLine, hlt, ↓reduceIte, hdef, cnCommandLineParse_Make]
    rw [h]
    cases fuel1 with
    | zero => omega
    | succ f =>
      simp only [cnMain_ParseCommandLine_loop, hc, hscan, ↓reduceIte]
      have hle : (callParser ⟨argv.length, argv, k⟩ j sys i o ⟨cfgK, [] ++ new⟩).1 ≤ 0 :=
        le_of_lt hret
      rw [if_pos hle]
  · simp [parseFailed, ht, cnCommandLineParse_LookAheadIndex]
  · simp [parseFailed, callParser]

theorem buildCoreSystemList_empty (env : Env) (fns : CoreSystemFns) :
    cnMain_BuildCoreSystemList env fns [] = .ok (builtRegistry env fns) := rfl

/-! ### Parsing defaults, the loop and shutdown -/

theorem defaults_null {C : Type} (systems : List (CnSystem C))
    (hnull : ∃ system ∈ systems, system.setDefaultConfig = none) :
    ∀ configs : Nat → C,
      cnMain_ParseCommandLine_defaults systems configs =
        .error "s_coreSystems[i].setDefaultConfig is null." ∧
      cnMain_ParseCommandLine_defaults_unchecked systems configs =
        .error "call through a NULL function pointer" := by
  induction systems with
  | nil => obtain ⟨s, hs, _⟩ := hnull; cases hs
  | cons system rest ih =>
    intro configs
    cases hd : system.setDefaultConfig with
    | none =>
      constructor
      · simp only [cnMain_ParseCommandLine_defaults, hd, CN_ASSERT_PTR]; rfl
      · simp only [cnMain_ParseCommandLine_defaults_unchecked, hd]
    | some f =>
      have hrest : ∃ s ∈ rest, s.setDefaultConfig = none := by
        obtain ⟨s, hs, hn⟩ := hnull
        rcases List.mem_cons.mp hs with h | h
        · subst h; rw [hd] at hn; cases hn
        · exact ⟨s, h, hn⟩
      have := ih hrest (Function.update configs system.config (f (configs system.config)))
      constructor
      · simp only [cnMain_ParseCommandLine_defaults, hd, CN_ASSERT_PTR]; exact this.1
      · simp only [cnMain_ParseCommandLine_defaults_unchecked, hd]; exact this.2

theorem shutdown_loop_eq {C : Type} (systems : List (CnSystem C)) :
    ∀ remaining i, remaining + i = systems.length →
      cnMain_Shutdown_loop systems remaining i =
        ((systems.take remaining).enum.reverse).map
          (fun p => cnMain_Shutdown_system p.1 p.2) := by
  intro remaining
  induction remaining with
  | zero => intro i _; simp [cnMain_Shutdown_loop]
  | succ r ih =>
    intro i hi
    have hidx : systems.length - i - 1 = r := by omega
    have hr : r < systems.length := by omega
    have hget : systems[r]? = some systems[r] := List.getElem?_eq_getElem hr
    have hlen : (List.take r systems).length = r := by
      rw [List.length_take]; omega
    simp only [cnMain_Shutdown_loop, hidx, hget]
    have htake : List.take (r + 1) systems = List.take r systems ++ [systems[r]] := by
      rw [List.take_succ, hget]; rfl
    rw [ih (i + 1) (by omega), htake, List.enum_append, hlen, List.reverse_append,
      List.map_append]
    rfl

theorem shutdown_system_subsystem {C : Type} (j : Nat) (system : CnSystem C) :
    (cnMain_Shutdown_system j system).subsystem = some j := by
  unfold cnMain_Shutdown_system
  cases system.plugin.shutdown <;> rfl

theorem shutdown_enumFrom_not_mem {C : Type} (x : Event) (j : Nat) (hx : x.subsystem = some j) :
    ∀ (l : List (CnSystem C)) (k : Nat), j < k →
      x ∉ (l.enumFrom k).map (fun p => cnMain_Shutdown_system p.1 p.2) := by
  intro l
  induction l with
  | nil => intro k _ h; simp at h
  | cons a l ih =>
    intro k hk h
    rw [List.enumFrom_cons, List.map_cons, List.mem_cons] at h
    rcases h with h | h
    · have := shutdown_system_subsystem k a
      rw [← h, hx] at this
      simp only [Option.some.injEq] at this
      omega
    · exact ih (k + 1) (by omega) h

theorem shutdown_enumFrom_count {C : Type} :
    ∀ (l : List (CnSystem C)) (k i : Nat) (system : CnSystem C), l[i]? = some system →
      ((l.enumFrom k).map (fun p => cnMain_Shutdown_system p.1 p.2)).count
        (cnMain_Shutdown_system (k + i) system) = 1 := by
  intro l
  induction l with
  | nil => intro k i system h; simp at h
  | cons a l ih =>
    intro k i system h
    rw [List.enumFrom_cons, List.map_cons]
    cases i with
    | zero =>
      simp only [List.getElem?_cons_zero, Option.some.injEq] at h
      subst h
      rw [Nat.add_zero, List.count_cons_self,
        List.count_eq_zero.mpr (shutdown_enumFrom_not_mem _ k (shutdown_system_subsystem k a) l
          (k + 1) (by omega))]
    | succ i =>
      simp only [List.getElem?_cons_succ] at h
      have hne : cnMain_Shutdown_system k a ≠ cnMain_Shutdown_system (k + (i + 1)) system := by
        intro heq
        have h1 := shutdown_system_subsystem k a
        rw [heq, shutdown_system_subsystem] at h1
        simp only [Option.some.injEq] at h1
        omega
      rw [List.count_cons_of_ne hne.symm]
      have := ih (k + 1) i system h
      rwa [show k + 1 + i = k + (i + 1) by omega] at this

theorem shutdown_events (st : MainState) :
    cnMain_Shutdown st =
      (match st.s_payload.shutdown with
        | some fn => [Event.payloadShutdown fn]
        | none => []) ++ [Event.renderShutdown, Event.uiShutdown] ++
      st.s_coreSystems.enum.reverse.map (fun p => cnMain_Shutdown_system p.1 p.2) := by
  unfold cnMain_Shutdown
  rw [shutdown_loop_eq st.s_coreSystems st.s_coreSystems.length 0 (by omega), List.take_length]

theorem shutdown_before_subsystem (payload : CnPlugin) :
    ∀ e ∈ (match payload.shutdown with
        | some fn => [Event.payloadShutdown fn]
        | none => []) ++ [Event.renderShutdown, Event.uiShutdown], e.subsystem = none := by
  intro e he
  cases h : payload.shutdown <;> rw [h] at he <;> simp at he <;>
    rcases he with rfl | rfl | rfl <;> rfl

theorem loop_body_eq (tick draw : Nat) (now : CnTime) (st : MainState) :
    (cnMain_Loop_body tick draw now st).1 =
      [Event.processWindowEvents] ++
        (if (cnMain_GenerateTick st.s_lastTick now ⟨0⟩).ret then
          [Event.payloadTick tick (cnMain_GenerateTick st.s_lastTick now ⟨0⟩).outDt]
         else []) ++ [Event.payloadDraw draw] ∧
    (cnMain_Loop_body tick draw now st).2.ticks =
      st.ticks + (if (cnMain_GenerateTick st.s_lastTick now ⟨0⟩).ret then 1 else 0) ∧
    (cnMain_Loop_body tick draw now st).2.s_lastTick =
      (cnMain_GenerateTick st.s_lastTick now ⟨0⟩).lastTick ∧
    (cnMain_Loop_body tick draw now st).2.tickLimit = st.tickLimit := by
  unfold cnMain_Loop_body
  by_cases h : (cnMain_GenerateTick st.s_lastTick now ⟨0⟩).ret = true
  · simp [h, cnMain_TickCompleted]
  · simp [h]

theorem loop_iterate_cons (tick draw : Nat) (now : CnTime) (rest : List CnTime)
    (st : MainState) :
    cnMain_Loop_iterate tick draw (now :: rest) st =
      if cnMain_IsTickLimitReached st then ([], st)
      else
        ((cnMain_Loop_body tick draw now st).1 ++
          (cnMain_Loop_iterate tick draw rest (cnMain_Loop_body tick draw now st).2).1,
         (cnMain_Loop_iterate tick draw rest (cnMain_Loop_body tick draw now st).2).2) := rfl

theorem loop_iterate_blocks (tick draw : Nat) :
    ∀ (readings : List CnTime) (st : MainState),
      ∃ blocks : List (List Event),
        (cnMain_Loop_iterate tick draw readings st).1 = blocks.flatten ∧
        blocks.length ≤ readings.length ∧
        (∀ b ∈ blocks, b = [Event.processWindowEvents, Event.payloadDraw draw] ∨
          ∃ dt, b = [Event.processWindowEvents, Event.payloadTick tick dt,
            Event.payloadDraw draw]) ∧
        (cnMain_Loop_iterate tick draw readings st).2.ticks =
          st.ticks + (blocks.filter fun b => b.length == 3).length := by
  intro readings
  induction readings with
  | nil => intro st; exact ⟨[], rfl, Nat.le_refl _, fun b hb => (by cases hb), rfl⟩
  | cons now rest ih =>
    intro st
    rw [loop_iterate_cons]
    by_cases hlim : cnMain_IsTickLimitReached st = true
    · rw [if_pos hlim]
      exact ⟨[], rfl, Nat.zero_le _, fun b hb => (by cases hb), rfl⟩
    · rw [if_neg hlim]
      obtain ⟨blocks, hj, hlen, hshape, hticks⟩ := ih (cnMain_Loop_body tick draw now st).2
      obtain ⟨hb1, hb2, _, _⟩ := loop_body_eq tick draw now st
      refine ⟨(cnMain_Loop_body tick draw now st).1 :: blocks, ?_, ?_, ?_, ?_⟩
      · simp only [List.flatten_cons, hj]
      · simp only [List.length_cons]; omega
      · intro b hb
        rcases List.mem_cons.mp hb with h | h
        · subst h
          rw [hb1]
          by_cases hg : (cnMain_GenerateTick st.s_lastTick now ⟨0⟩).ret = true
          · right; exact ⟨_, by simp only [hg, ↓reduceIte]; rfl⟩
          · left; simp only [hg, Bool.false_eq_true, ↓reduceIte]; rfl
        · exact hshape b h
      · simp only [hticks, hb2, List.filter_cons, hb1]
        by_cases hg : (cnMain_GenerateTick st.s_lastTick now ⟨0⟩).ret = true
        · simp [hg]; omega
        · simp [hg]

theorem countP_join_blocks (tick draw : Nat) :
    ∀ blocks : List (List Event),
      (∀ b ∈ blocks, b = [Event.processWindowEvents, Event.payloadDraw draw] ∨
        ∃ dt, b = [Event.processWindowEvents, Event.payloadTick tick dt,
          Event.payloadDraw draw]) →
      blocks.flatten.countP Event.isPump = blocks.length ∧
      blocks.flatten.countP Event.isDraw = blocks.length ∧
      blocks.flatten.countP Event.isTick = (blocks.filter fun b => b.length == 3).length := by
  intro blocks
  induction blocks with
  | nil => intro _; exact ⟨rfl, rfl, rfl⟩
  | cons b rest ih =>
    intro h
    obtain ⟨h1, h2, h3⟩ := ih (fun b hb => h b (List.mem_cons_of_mem _ hb))
    rcases h b (List.mem_cons_self _ _) with hb | ⟨dt, hb⟩
    · subst hb
      simp [List.countP_append, List.countP_cons, Event.isPump, Event.isDraw, Event.isTick,
        h1, h2, h3]
    · subst hb
      simp [List.countP_append, List.countP_cons, Event.isPump, Event.isDraw, Event.isTick,
        h1, h2, h3]

theorem loop_of_payload (st : MainState) (readings : List CnTime) (tick draw : Nat)
    (htick : st.s_payload.tick = some tick) (hdraw : st.s_payload.draw = some draw) :
    cnMain_Loop st readings =
      { events := (cnMain_Loop_iterate tick draw readings st).1,
        outcome := .ok (cnMain_Loop_iterate tick draw readings st).2 } := by
  unfold cnMain_Loop
  rw [htick, hdraw]

theorem isTickLimitReached_iff (st : MainState) :
    cnMain_IsTickLimitReached st = true ↔ st.tickLimit ≠ 0 ∧ st.ticks = st.tickLimit := by
  simp [cnMain_IsTickLimitReached]

theorem loop_iterate_reached (tick draw : Nat) (readings : List CnTime) (st : MainState)
    (h : cnMain_IsTickLimitReached st = true) :
    cnMain_Loop_iterate tick draw readings st = ([], st) := by
  cases readings with
  | nil => rfl
  | cons now rest => rw [loop_iterate_cons, if_pos h]

theorem loop_body_ticks (tick draw : Nat) (now : CnTime) (st : MainState) :
    (cnMain_Loop_body tick draw now st).1.countP Event.isTick =
      if (cnMain_GenerateTick st.s_lastTick now ⟨0⟩).ret then 1 else 0 := by
  rw [(loop_body_eq tick draw now st).1]
  by_cases hg : (cnMain_GenerateTick st.s_lastTick now ⟨0⟩).ret = true
  · simp [hg, List.countP_cons, Event.isTick]
  · simp [hg, List.countP_cons, Event.isTick]

theorem loop_iterate_limit (tick draw : Nat) :
    ∀ (readings : List CnTime) (st : MainState), st.tickLimit ≠ 0 →
      st.ticks ≤ st.tickLimit →
      (cnMain_Loop_iterate tick draw readings st).1.countP Event.isTick =
        min (st.tickLimit - st.ticks) (generatedTicks st.s_lastTick readings) ∧
      (st.ticks < st.tickLimit →
        st.tickLimit - st.ticks ≤ generatedTicks st.s_lastTick readings →
        ∃ front dt, (cnMain_Loop_iterate tick draw readings st).1 =
          front ++ [Event.payloadTick tick dt, Event.payloadDraw draw]) := by
  intro readings
  induction readings with
  | nil =>
    intro st _ _
    refine ⟨by simp [cnMain_Loop_iterate, generatedTicks], ?_⟩
    intro h1 h2
    simp only [generatedTicks] at h2
    omega
  | cons now rest ih =>
    intro st hlim hle
    by_cases hreached : cnMain_IsTickLimitReached st = true
    · have heq := ((isTickLimitReached_iff st).mp hreached).2
      rw [loop_iterate_reached tick draw _ st hreached]
      refine ⟨by simp [heq], ?_⟩
      intro h1; omega
    · have hlt : st.ticks < st.tickLimit := by
        rcases Nat.lt_or_ge st.ticks st.tickLimit with h | h
        · exact h
        · exact absurd ((isTickLimitReached_iff st).mpr ⟨hlim, by omega⟩) hreached
      obtain ⟨hb1, hb2, hb3, hb4⟩ := loop_body_eq tick draw now st
      have hbt := loop_body_ticks tick draw now st
      have hgen : generatedTicks st.s_lastTick (now :: rest) =
          (if (cnMain_GenerateTick st.s_lastTick now ⟨0⟩).ret then 1 else 0) +
            generatedTicks (cnMain_GenerateTick st.s_lastTick now ⟨0⟩).lastTick rest := rfl
      have hle2 : (cnMain_Loop_body tick draw now st).2.ticks ≤
          (cnMain_Loop_body tick draw now st).2.tickLimit := by
        rw [hb2, hb4]; split <;> omega
      obtain ⟨ih1, ih2⟩ := ih (cnMain_Loop_body tick draw now st).2 (by rw [hb4]; exact hlim) hle2
      rw [loop_iterate_cons, if_neg hreached]
      constructor
      · simp only [List.countP_append, hbt, ih1, hb2, hb3, hb4, hgen]
        split <;> omega
      · intro _ hgenle
        rw [hgen] at hgenle
        by_cases hnext : cnMain_IsTickLimitReached (cnMain_Loop_body tick draw now st).2 = true
        · have hn := ((isTickLimitReached_iff _).mp hnext).2
          rw [hb2, hb4] at hn
          have hg : (cnMain_GenerateTick st.s_lastTick now ⟨0⟩).ret = true := by
            by_contra hg
            simp only [hg, Bool.false_eq_true, ↓reduceIte] at hn
            omega
          simp only [loop_iterate_reached tick draw rest _ hnext, List.append_nil]
          rw [hb1]
          exact ⟨[Event.processWindowEvents], _, by simp only [hg, ↓reduceIte]; rfl⟩
        · have hn : ¬ ((cnMain_Loop_body tick draw now st).2.ticks =
              (cnMain_Loop_body tick draw now st).2.tickLimit) := by
            intro h
            exact hnext ((isTickLimitReached_iff _).mpr ⟨by rw [hb4]; exact hlim, h⟩)
          rw [hb2, hb4] at hn hle2
          have hgenle2 : (cnMain_Loop_body tick draw now st).2.tickLimit -
              (cnMain_Loop_body tick draw now st).2.ticks ≤
              generatedTicks (cnMain_Loop_body tick draw now st).2.s_lastTick rest := by
            rw [hb2, hb3, hb4]
            by_cases hg : (cnMain_GenerateTick st.s_lastTick now ⟨0⟩).ret = true
            · simp only [hg, ↓reduceIte] at hgenle ⊢; omega
            · simp only [hg, Bool.false_eq_true, ↓reduceIte] at hgenle ⊢; omega
          obtain ⟨front, dt, hfront⟩ := ih2 (by rw [hb2, hb4]; omega) hgenle2
          exact ⟨(cnMain_Loop_body tick draw now st).1 ++ front, dt, by
            simp only [hfront, List.append_assoc]⟩

theorem loop_iterate_tickLimit (tick draw : Nat) :
    ∀ (readings : List CnTime) (st : MainState),
      (cnMain_Loop_iterate tick draw readings st).2.tickLimit = st.tickLimit := by
  intro readings
  induction readings with
  | nil => intro st; rfl
  | cons now rest ih =>
    intro st
    rw [loop_iterate_cons]
    split
    · rfl
    · exact (ih _).trans (loop_body_eq tick draw now st).2.2.2

/-! ### Start-up order -/

theorem initSystems_shape (w : World) :
    ∀ (systems : List (CnSystem CnMainConfig)) (i : Nat) (st : MainState),
      ∃ (k : Nat) (failed : Bool),
        (cnMain_StartUp_initSystems w i systems st).events =
          (List.range k).map (fun j => Event.systemInit (i + j) true) ++
            (if failed then [Event.systemInit (i + k) false] else []) ∧
        k + (if failed then 1 else 0) ≤ systems.length ∧
        (failed = true → (cnMain_StartUp_initSystems w i systems st).outcome =
          .error "Unable to initialize core system: %d") ∧
        (∀ st1, (cnMain_StartUp_initSystems w i systems st).outcome = .ok st1 →
          k = systems.length ∧ failed = false) := by
  intro systems
  induction systems with
  | nil =>
    intro i st
    exact ⟨0, false, rfl, Nat.le_refl _, fun h => (by cases h), fun _ _ => ⟨rfl, rfl⟩⟩
  | cons system rest ih =>
    intro i st
    cases hinit : system.plugin.init with
    | none =>
      refine ⟨0, false, ?_, Nat.zero_le _, fun h => (by cases h), ?_⟩
      · simp only [cnMain_StartUp_initSystems, hinit]; rfl
      · intro st1 h
        simp only [cnMain_StartUp_initSystems, hinit] at h
        cases h
    | some fn =>
      by_cases hcall : (callInit w fn st).1 = true
      · obtain ⟨k, failed, hev, hlen, hfail, hok⟩ := ih (i + 1) (callInit w fn st).2
        refine ⟨k + 1, failed, ?_, ?_, ?_, ?_⟩
        · simp only [cnMain_StartUp_initSystems, hinit, hcall, ↓reduceIte, hev]
          rw [List.range_succ_eq_map, List.map_cons, List.map_map]
          have hfun : ((fun j => Event.systemInit (i + j) true) ∘ Nat.succ) =
              fun j => Event.systemInit (i + 1 + j) true := by
            funext j
            show Event.systemInit (i + (j + 1)) true = _
            rw [show i + (j + 1) = i + 1 + j by omega]
          rw [hfun, show i + (k + 1) = i + 1 + k by omega]
          rfl
        · simp only [List.length_cons]; omega
        · intro hf
          simp only [cnMain_StartUp_initSystems, hinit, hcall, ↓reduceIte]
          exact hfail hf
        · intro st1 h
          simp only [cnMain_StartUp_initSystems, hinit, hcall, ↓reduceIte] at h
          obtain ⟨h1, h2⟩ := hok st1 h
          exact ⟨by simp only [List.length_cons]; omega, h2⟩
      · refine ⟨0, true, ?_, ?_, ?_, ?_⟩
        · simp only [cnMain_StartUp_initSystems, hinit, hcall, Bool.false_eq_true, ↓reduceIte]
          rfl
        · simp only [List.length_cons, ↓reduceIte]; omega
        · intro _
          simp only [cnMain_StartUp_initSystems, hinit, hcall, Bool.false_eq_true, ↓reduceIte]
        · intro st1 h
          simp only [cnMain_StartUp_initSystems, hinit, hcall, Bool.false_eq_true,
            ↓reduceIte] at h
          cases h

theorem loadPayloadFromFile_events (w : World) (st : MainState) (name : String) :
    ∃ after, (cnMain_LoadPayloadFromFile w st name).events =
        [Event.lastModifiedTime name] ++ after ∧
      (w.cnAssets_LastModifiedTime name = none → after = [] ∧
        (cnMain_LoadPayloadFromFile w st name).outcome =
          .error "Unable to determine last modified time of '%s'") ∧
      (∀ t, w.cnAssets_LastModifiedTime name = some t → w.localtime t = false →
        after = [] ∧
        (cnMain_LoadPayloadFromFile w st name).outcome =
          .error "strftime called with the NULL result of localtime") ∧
      (∀ t, w.cnAssets_LastModifiedTime name = some t → w.localtime t = true →
        ∃ loaded, after = (match st.s_payload.shutdown with
            | some fn => [Event.payloadShutdown fn]
            | none => []) ++
          [Event.libraryRelease st.s_payload.sharedLibrary, Event.libraryLoad name] ++ loaded ∧
        (w.cnSharedLibrary_Load name = none → loaded = [] ∧
          (cnMain_LoadPayloadFromFile w st name).outcome =
            .error "Unable to load game module: %s") ∧
        (∀ library, w.cnSharedLibrary_Load name = some library →
          loaded = [Event.resolveSymbols library] ∧
          (∀ e, cnMain_ValidatePayload (some (cnPlugin_LoadFromSharedLibrary w library)) =
              .error e → (cnMain_LoadPayloadFromFile w st name).outcome = .error e) ∧
          (∀ p, cnMain_ValidatePayload (some (cnPlugin_LoadFromSharedLibrary w library)) =
              .ok p → (cnMain_LoadPayloadFromFile w st name).outcome =
                .ok { st with s_payload := cnPlugin_LoadFromSharedLibrary w library }))) := by
  unfold cnMain_LoadPayloadFromFile
  cases hmod : w.cnAssets_LastModifiedTime name with
  | none =>
    exact ⟨[], rfl, fun _ => ⟨rfl, rfl⟩, fun t h => (by cases h), fun t h => (by cases h)⟩
  | some t =>
    cases hlt : w.localtime t with
    | false =>
      refine ⟨[], ?_, fun h => (by cases h), fun t2 h _ => ?_, fun t2 h h2 => ?_⟩
      · simp only [hlt, Bool.not_false, ↓reduceIte, List.append_nil]
      · simp only [hlt, Bool.not_false, ↓reduceIte, and_self]
      · cases h; rw [hlt] at h2; cases h2
    | true =>
      simp only [hlt, Bool.not_true, Bool.false_eq_true, ↓reduceIte]
      cases hload : w.cnSharedLibrary_Load name with
      | none =>
        refine ⟨(match st.s_payload.shutdown with
              | some fn => [Event.payloadShutdown fn]
              | none => []) ++
            [Event.libraryRelease st.s_payload.sharedLibrary, Event.libraryLoad name] ++ [],
          ?_, fun h => (by cases h), fun t2 h h2 => (by cases h; rw [hlt] at h2; cases h2),
          fun _ _ _ => ⟨[], rfl, fun _ => ⟨rfl, rfl⟩, fun library h => (by cases h)⟩⟩
        simp only [List.append_assoc, List.append_nil]
      | some library =>
        cases hval : cnMain_ValidatePayload (some (cnPlugin_LoadFromSharedLibrary w library)) with
        | error e =>
          refine ⟨(match st.s_payload.shutdown with
                | some fn => [Event.payloadShutdown fn]
                | none => []) ++
              [Event.libraryRelease st.s_payload.sharedLibrary, Event.libraryLoad name] ++
              [Event.resolveSymbols library],
            ?_, fun h => (by cases h),
            fun t2 h h2 => (by cases h; rw [hlt] at h2; cases h2),
            fun _ _ _ => ⟨[Event.resolveSymbols library], rfl,
            fun h => (by cases h), fun library2 h => ?_⟩⟩
          · simp only [hval, List.append_assoc]
          · cases h
            exact ⟨rfl, fun e2 h2 => (by rw [hval] at h2; cases h2; simp only [hval]),
              fun p h2 => (by rw [hval] at h2; cases h2)⟩
        | ok p =>
          refine ⟨(match st.s_payload.shutdown with
                | some fn => [Event.payloadShutdown fn]
                | none => []) ++
              [Event.libraryRelease st.s_payload.sharedLibrary, Event.libraryLoad name] ++
              [Event.resolveSymbols library],
            ?_, fun h => (by cases h),
            fun t2 h h2 => (by cases h; rw [hlt] at h2; cases h2),
            fun _ _ _ => ⟨[Event.resolveSymbols library], rfl,
            fun h => (by cases h), fun library2 h => ?_⟩⟩
          · simp only [hval, List.append_assoc]
          · cases h
            exact ⟨rfl, fun e2 h2 => (by rw [hval] at h2; cases h2),
              fun p h2 => (by simp only [hval])⟩

/-- The events of `cnMain_LoadPayloadFromFile`: the query of the modified time
alone when the function ends there, and else the old payload's shutdown if it
has one, the release, the load and, if the load succeeds, the resolution. -/
theorem loadPayloadFromFile_list (w : World) (st : MainState) (name : String) :
    (cnMain_LoadPayloadFromFile w st name).events = [Event.lastModifiedTime name] ∨
    ∃ loaded, (loaded = [] ∨ ∃ library, loaded = [Event.resolveSymbols library]) ∧
      (cnMain_LoadPayloadFromFile w st name).events =
        [Event.lastModifiedTime name] ++ ((match st.s_payload.shutdown with
            | some fn => [Event.payloadShutdown fn]
            | none => []) ++
          [Event.libraryRelease st.s_payload.sharedLibrary, Event.libraryLoad name] ++
          loaded) := by
  obtain ⟨after, hev, hnone, hnull, hsome⟩ := loadPayloadFromFile_events w st name
  cases hmod : w.cnAssets_LastModifiedTime name with
  | none =>
    left; rw [hev, (hnone hmod).1]; rfl
  | some t =>
    cases hlt : w.localtime t with
    | false => left; rw [hev, (hnull t hmod hlt).1]; rfl
    | true =>
      right
      obtain ⟨loaded, hafter, hl1, hl2⟩ := hsome t hmod hlt
      refine ⟨loaded, ?_, by rw [hev, hafter]⟩
      cases hload : w.cnSharedLibrary_Load name with
      | none => exact Or.inl (hl1 hload).1
      | some library => exact Or.inr ⟨library, (hl2 library hload).1⟩

theorem parse_total {C : Type} (systems : List (CnSystem C)) (configs : Nat → C) (argc : Nat)
    (argv : List String) :
    ∃ r, cnMain_ParseCommandLine systems configs argc argv = some r := by
  unfold cnMain_ParseCommandLine
  by_cases h1 : argc < 1
  · exact ⟨_, by simp only [h1, ↓reduceIte]; rfl⟩
  · simp only [h1, ↓reduceIte]
    cases hd : cnMain_ParseCommandLine_defaults systems configs with
    | error e => exact ⟨_, rfl⟩
    | ok cfgD => exact loop_total systems argc _ _ (by simp [cnCommandLineParse_Make])

theorem loadPayloadFromFile_kind (w : World) (st : MainState) (name : String) :
    ∀ e ∈ (cnMain_LoadPayloadFromFile w st name).events, e.isRegistryCall = false := by
  intro e he
  rcases loadPayloadFromFile_list w st name with hev | ⟨loaded, hloaded, hev⟩
  · rw [hev] at he
    simp at he
    subst he; rfl
  · rw [hev] at he
    cases hsh : st.s_payload.shutdown with
    | none =>
      rw [hsh] at he
      rcases hloaded with hl | ⟨library, hl⟩ <;> subst hl <;> simp at he <;>
        rcases he with rfl | rfl | rfl | rfl <;> rfl
    | some fn0 =>
      rw [hsh] at he
      rcases hloaded with hl | ⟨library, hl⟩ <;> subst hl <;> simp at he <;>
        rcases he with rfl | rfl | rfl | rfl | rfl <;> rfl

theorem startUp_payload_kind (env : Env) (w : World) (st : MainState) :
    ∀ e ∈ (cnMain_StartUp_payload env w st).events, e.isRegistryCall = false := by
  intro e he
  unfold cnMain_StartUp_payload at he
  simp only [] at he
  generalize hres : (if (!cnPlugin_IsComplete (st.configs cnMain_Config).payload) = true then
      if (!cnPath_IsFile env (some (st.configs cnMain_Config).gameLibPath)) = true then
        ({ events := [], outcome := .error "Cannot load game. '%s' is not a game library." } :
          Run MainState)
      else cnMain_LoadPayloadFromFile w st (st.configs cnMain_Config).gameLibPath
    else
      match cnMain_ValidatePayload (some (st.configs cnMain_Config).payload) with
      | .error e => { events := [], outcome := .error e }
      | .ok _ => { events := [], outcome := .ok st }) = resolved at he
  have hresolved : ∀ e ∈ resolved.events, e.isRegistryCall = false := by
    rw [← hres]
    intro e he
    split at he
    · split at he
      · cases he
      · exact loadPayloadFromFile_kind w st _ e he
    · split at he <;> cases he
  cases hout : resolved.outcome with
  | error err =>
    rw [hout] at he
    simp only [List.mem_append, List.mem_cons, List.mem_singleton, List.not_mem_nil,
      or_false] at he
    rcases he with (rfl | rfl) | he
    · rfl
    · rfl
    · exact hresolved e he
  | ok st1 =>
    rw [hout] at he
    simp only [] at he
    have hinit : ∀ e ∈ (match st1.s_payload.init with
        | some fn => [Event.payloadInit fn]
        | none => []), e.isRegistryCall = false := by
      intro e he
      cases h : st1.s_payload.init <;> rw [h] at he <;> simp at he
      subst he; rfl
    split at he
    · simp only [List.mem_append, List.mem_cons, List.mem_singleton, List.not_mem_nil,
        or_false] at he
      rcases he with ((rfl | rfl) | he) | he
      · rfl
      · rfl
      · exact hresolved e he
      · exact hinit e he
    · split at he
      · simp only [List.mem_append, List.mem_cons, List.mem_singleton, List.not_mem_nil,
          or_false] at he
        rcases he with ((rfl | rfl) | he) | he
        · rfl
        · rfl
        · exact hresolved e he
        · exact hinit e he
      · simp only [List.mem_append, List.mem_cons, List.mem_singleton, List.not_mem_nil,
          or_false] at he
        rcases he with (((rfl | rfl) | he) | he) | rfl
        · rfl
        · rfl
        · exact hresolved e he
        · exact hinit e he
        · rfl

/-! ### 2D transforms -/

theorem combine_entry (first second : CnTransform2) (i j : Fin 3) :
    (cnTransform2_Combine first second).m i j =
      first.m 0 j * second.m i 0 + first.m 1 j * second.m i 1 + first.m 2 j * second.m i 2 := by
  simp [cnTransform2_Combine, List.finRange]

/-! ### Invariants of the dispatcher -/

theorem runSystemParsers_from_mem {C : Type} (parse : CnCommandLineParse)
    (j : Nat) (sys : CnSystem C) :
    ∀ (opts : List (CnCommandLineOption C)) (i : Nat) (st : ParseState C)
      (c : Int) (st1 : ParseState C),
      cnMain_RunSystemParsers_from parse j sys i opts st = .ok (c, st1) →
      (c = 0 ∧ st1 = st) ∨
        ∃ k, ∃ o ∈ opts, cnCommandLineParse_ShouldContinue parse = true ∧
          (c, st1) = callParser parse j sys k o st := by
  intro opts
  induction opts with
  | nil =>
    intro i st c st1 h
    simp only [cnMain_RunSystemParsers_from, Except.ok.injEq, Prod.mk.injEq] at h
    exact Or.inl ⟨h.1.symm, h.2.symm⟩
  | cons o rest ih =>
    intro i st c st1 h
    simp only [cnMain_RunSystemParsers_from] at h
    cases hm : cnCommandLineOption_Matches o parse with
    | error e => rw [hm] at h; simp at h
    | ok b =>
      have hcont : cnCommandLineParse_ShouldContinue parse = true := by
        unfold cnCommandLineOption_Matches at hm
        by_contra hne
        simp only [hne, Bool.not_false, ↓reduceIte] at hm
        cases hm
      rw [hm] at h
      cases b with
      | true =>
        simp only [Except.ok.injEq] at h
        exact Or.inr ⟨i, o, List.mem_cons_self _ _, hcont, h.symm⟩
      | false =>
        rcases ih (i + 1) st c st1 h with h0 | ⟨k, o1, ho1, hc1, heq⟩
        · exact Or.inl h0
        · exact Or.inr ⟨k, o1, List.mem_cons_of_mem _ ho1, hc1, heq⟩

/-- A property of the dispatcher's memory that every handler invocation of the
registry maintains is maintained by a scan, and a non-zero result of the scan
is the value some handler of the registry returned at this cursor. -/
theorem scan_induct {C : Type} (parse : CnCommandLineParse) (P : ParseState C → Prop)
    (systems : List (CnSystem C))
    (hcall : ∀ (j : Nat) (sys : CnSystem C) (k : Nat) (o : CnCommandLineOption C)
      (st : ParseState C), sys ∈ systems → o ∈ sys.options →
      cnCommandLineParse_ShouldContinue parse = true → P st →
      P (callParser parse j sys k o st).2) :
    ∀ (sub : List (CnSystem C)) (j : Nat) (st : ParseState C) (c : Int) (st1 : ParseState C),
      (∀ s ∈ sub, s ∈ systems) →
      cnMain_ParseCommandLine_scan parse j sub st = .ok (c, st1) → P st →
      P st1 ∧ (c ≠ 0 → cnCommandLineParse_ShouldContinue parse = true ∧
        ∃ sys ∈ systems, ∃ o ∈ sys.options, ∃ cfg, (o.parser parse cfg).1 = c) := by
  intro sub
  induction sub with
  | nil =>
    intro j st c st1 _ h hP
    simp only [cnMain_ParseCommandLine_scan, Except.ok.injEq, Prod.mk.injEq] at h
    obtain ⟨rfl, rfl⟩ := h
    exact ⟨hP, fun h => absurd rfl h⟩
  | cons sys rest ih =>
    intro j st c st1 hsub h hP
    simp only [cnMain_ParseCommandLine_scan] at h
    cases hrun : cnMain_RunSystemParsers parse j sys st with
    | error e => rw [hrun] at h; simp at h
    | ok res =>
      obtain ⟨a, st2⟩ := res
      rw [hrun] at h
      simp only at h
      have hsys : sys ∈ systems := hsub sys (List.mem_cons_self _ _)
      have hshape := runSystemParsers_from_mem parse j sys sys.options 0 st a st2 hrun
      have hP2 : P st2 ∧ (a ≠ 0 → cnCommandLineParse_ShouldContinue parse = true ∧
          ∃ sys ∈ systems, ∃ o ∈ sys.options, ∃ cfg, (o.parser parse cfg).1 = a) := by
        rcases hshape with ⟨h0, hst⟩ | ⟨k, o, ho, hc, heq⟩
        · subst hst
          exact ⟨hP, fun hne => absurd h0 hne⟩
        · have h1 : a = (callParser parse j sys k o st).1 := congrArg Prod.fst heq
          have h2 : st2 = (callParser parse j sys k o st).2 := congrArg Prod.snd heq
          refine ⟨by rw [h2]; exact hcall j sys k o st hsys ho hc hP, fun _ => ⟨hc, ?_⟩⟩
          exact ⟨sys, hsys, o, ho, st.configs sys.config, h1.symm⟩
      by_cases ha : a = 0
      · rw [if_neg (by simpa using ha)] at h
        exact ih (j + 1) st2 c st1 (fun s hs => hsub s (List.mem_cons_of_mem _ hs)) h hP2.1
      · rw [if_pos ha] at h
        simp only [Except.ok.injEq, Prod.mk.injEq] at h
        obtain ⟨rfl, rfl⟩ := h
        exact hP2

/-- A property of cursor and memory that every handler invocation maintains,
and that advancing the cursor by a positive value returned by a handler
maintains, holds when `cnMain_ParseCommandLine` returns. -/
theorem loop_induct {C : Type} (systems : List (CnSystem C))
    (P : CnCommandLineParse → ParseState C → Prop)
    (hcall : ∀ (parse : CnCommandLineParse) (j : Nat) (sys : CnSystem C) (k : Nat)
      (o : CnCommandLineOption C) (st : ParseState C), sys ∈ systems → o ∈ sys.options →
      cnCommandLineParse_ShouldContinue parse = true → P parse st →
      P parse (callParser parse j sys k o st).2)
    (hadv : ∀ (parse : CnCommandLineParse) (st : ParseState C) (c : Int),
      cnCommandLineParse_ShouldContinue parse = true → P parse st → 0 < c →
      (∃ sys ∈ systems, ∃ o ∈ sys.options, ∃ cfg, (o.parser parse cfg).1 = c) →
      P (cnCommandLineParse_Advance parse c) st) :
    ∀ (fuel : Nat) (parse : CnCommandLineParse) (st : ParseState C) (r : ParseResult C),
      cnMain_ParseCommandLine_loop systems fuel parse st = some (.ok r) → P parse st →
      P r.parse ⟨r.configs, r.calls⟩ := by
  intro fuel
  induction fuel with
  | zero =>
    intro parse st r h hP
    simp only [cnMain_ParseCommandLine_loop] at h
    split at h
    · cases h
    · simp only [Option.some.injEq, Except.ok.injEq] at h
      subst h
      exact hP
  | succ f ih =>
    intro parse st r h hP
    simp only [cnMain_ParseCommandLine_loop] at h
    split at h
    · cases hscan : cnMain_ParseCommandLine_scan parse 0 systems st with
      | error e => rw [hscan] at h; simp at h
      | ok res =>
        obtain ⟨c, st1⟩ := res
        rw [hscan] at h
        simp only at h
        obtain ⟨hP1, hc⟩ := scan_induct parse (P parse) systems
          (fun j sys k o st hs ho hcont hp => hcall parse j sys k o st hs ho hcont hp)
          systems 0 st c st1 (fun s hs => hs) hscan hP
        split at h
        · simp only [Option.some.injEq, Except.ok.injEq] at h
          subst h
          exact hP1
        · have hpos : 0 < c := by omega
          obtain ⟨hcont, hex⟩ := hc (by omega)
          exact ih _ st1 r h (hadv parse st1 c hcont hP1 hpos hex)
    · simp only [Option.some.injEq, Except.ok.injEq] at h
      subst h
      exact hP

theorem defaults_frame {C : Type} (a : Nat) :
    ∀ (systems : List (CnSystem C)) (configs cfg : Nat → C),
      (∀ s ∈ systems, s.config ≠ a) →
      cnMain_ParseCommandLine_defaults systems configs = .ok cfg → cfg a = configs a := by
  intro systems
  induction systems with
  | nil =>
    intro configs cfg _ h
    simp only [cnMain_ParseCommandLine_defaults, Except.ok.injEq] at h
    rw [← h]
  | cons sys rest ih =>
    intro configs cfg hne h
    simp only [cnMain_ParseCommandLine_defaults] at h
    cases hd : sys.setDefaultConfig with
    | none => rw [hd] at h; simp [CN_ASSERT_PTR] at h
    | some f =>
      rw [hd] at h
      simp only [CN_ASSERT_PTR] at h
      rw [ih _ cfg (fun s hs => hne s (List.mem_cons_of_mem _ hs)) h,
        Function.update_noteq (hne sys (List.mem_cons_self _ _)).symm]

theorem main_handlers_ret (env : Env) (parse : CnCommandLineParse) (config : CnMainConfig) :
    ((cnMain_OptionPayload env parse config).ret = CnOptionParseError ∨
      ((cnMain_OptionPayload env parse config).ret = 2 ∧
        parse.index + 2 ≤ parse.argc)) ∧
    ((cnMain_OptionTickLimit env parse config).ret = CnOptionParseError ∨
      ((cnMain_OptionTickLimit env parse config).ret = 2 ∧
        parse.index + 2 ≤ parse.argc)) ∧
    (cnMain_OptionPayload env parse config).config.payload = config.payload ∧
    (cnMain_OptionTickLimit env parse config).config.payload = config.payload := by
  by_cases hla : cnCommandLineParse_HasLookAhead parse 2 = true
  · have hle : parse.index + 2 ≤ parse.argc := by
      simpa [cnCommandLineParse_HasLookAhead] using hla
    refine ⟨?_, ?_, ?_, ?_⟩
    · unfold cnMain_OptionPayload
      simp only [hla, Bool.not_true, Bool.false_eq_true, ↓reduceIte]
      split
      · split
        · exact Or.inl rfl
        · exact Or.inr ⟨rfl, hle⟩
      · exact Or.inl rfl
    · unfold cnMain_OptionTickLimit
      simp only [hla, Bool.not_true, Bool.false_eq_true, ↓reduceIte]
      split
      · exact Or.inl rfl
      · split
        · exact Or.inl rfl
        · exact Or.inr ⟨rfl, hle⟩
    · unfold cnMain_OptionPayload
      simp only [hla, Bool.not_true, Bool.false_eq_true, ↓reduceIte]
      split
      · split <;> rfl
      · rfl
    · unfold cnMain_OptionTickLimit
      simp only [hla, Bool.not_true, Bool.false_eq_true, ↓reduceIte]
      split
      · rfl
      · split <;> rfl
  · simp only [Bool.not_eq_true] at hla
    refine ⟨Or.inl ?_, Or.inl ?_, ?_, ?_⟩ <;>
      simp [cnMain_OptionPayload, cnMain_OptionTickLimit, hla]

theorem main_option_cases (env : Env) (o : CnCommandLineOption CnMainConfig)
    (ho : o ∈ (cnMain_System env).options) :
    o.parser = (fun parse c =>
      ((cnMain_OptionPayload env parse c).ret, (cnMain_OptionPayload env parse c).config)) ∨
    o.parser = (fun parse c =>
      ((cnMain_OptionTickLimit env parse c).ret,
       (cnMain_OptionTickLimit env parse c).config)) := by
  simp only [cnMain_System, cnMain_CommandLineOptionList, List.mem_cons, List.mem_singleton,
    List.not_mem_nil, or_false] at ho
  rcases ho with rfl | rfl
  · exact Or.inl rfl
  · exact Or.inr rfl

theorem main_reportsAvailableTokens (env : Env) : ReportsAvailableTokens (cnMain_System env) := by
  intro o ho parse config
  obtain ⟨h1, h2, _, _⟩ := main_handlers_ret env parse config
  rcases main_option_cases env o ho with hp | hp
  · rw [hp]
    rcases h1 with h | ⟨h, hle⟩
    · left; show (cnMain_OptionPayload env parse config).ret ≤ 0
      rw [h]; decide
    · right; show parse.index + (cnMain_OptionPayload env parse config).ret.toNat ≤ parse.argc
      rw [h]; exact hle
  · rw [hp]
    rcases h2 with h | ⟨h, hle⟩
    · left; show (cnMain_OptionTickLimit env parse config).ret ≤ 0
      rw [h]; decide
    · right; show parse.index + (cnMain_OptionTickLimit env parse config).ret.toNat ≤ parse.argc
      rw [h]; exact hle

/-! ### The wiped payload -/

theorem parse_main_payload (env : Env) (others : List (CnSystem CnMainConfig))
    (configs : Nat → CnMainConfig) (argc : Nat) (argv : List String) (r : ParseResult CnMainConfig)
    (hothers : ∀ s ∈ others, s.config ≠ cnMain_Config)
    (hres : cnMain_ParseCommandLine (cnMain_System env :: others) configs argc argv =
      some (.ok r)) :
    (r.configs cnMain_Config).payload =
      { init := none, shutdown := none, tick := none, draw := none, sharedLibrary := none } := by
  unfold cnMain_ParseCommandLine at hres
  by_cases h1 : argc < 1
  · simp [h1] at hres
  · simp only [h1, ↓reduceIte] at hres
    cases hd : cnMain_ParseCommandLine_defaults (cnMain_System env :: others) configs with
    | error e => rw [hd] at hres; simp at hres
    | ok cfgD =>
      rw [hd] at hres
      simp only at hres
      have hzero : (cfgD cnMain_Config).payload =
          { init := none, shutdown := none, tick := none, draw := none,
            sharedLibrary := none } := by
        simp only [cnMain_ParseCommandLine_defaults, cnMain_System, CN_ASSERT_PTR] at hd
        rw [defaults_frame cnMain_Config others _ cfgD hothers hd, Function.update_same]
        rfl
      exact loop_induct (cnMain_System env :: others)
        (fun _ st => (st.configs cnMain_Config).payload =
          { init := none, shutdown := none, tick := none, draw := none,
            sharedLibrary := none })
        (by
          intro parse j sys k o st hs ho _ hP
          rcases List.mem_cons.mp hs with h | h
          · subst h
            obtain ⟨_, _, h3, h4⟩ := main_handlers_ret env parse (st.configs cnMain_Config)
            have hgoal : (callParser parse j (cnMain_System env) k o st).2.configs
                cnMain_Config = (o.parser parse (st.configs cnMain_Config)).2 := by
              simp only [callParser, cnMain_System, Function.update_same]
            rw [hgoal]
            rcases main_option_cases env o ho with hp | hp
            · rw [hp]; exact h3.trans hP
            · rw [hp]; exact h4.trans hP
          · show (Function.update st.configs sys.config _ cnMain_Config).payload = _
            rw [Function.update_noteq (hothers sys h).symm]
            exact hP)
        (fun _ _ _ _ hP _ _ => hP)
        argc (cnCommandLineParse_Make argc argv) ⟨cfgD, []⟩ r hres hzero

/-! ### The texture atlas -/

theorem ceilSqrt_search_spec (n : Nat) :
    ∀ (fuel g : Nat), (∀ k, k < g → k * k < n) → n ≤ (g + fuel) * (g + fuel) →
      n ≤ ceilSqrt_search n fuel g * ceilSqrt_search n fuel g ∧
      ∀ k, k < ceilSqrt_search n fuel g → k * k < n := by
  intro fuel
  induction fuel with
  | zero =>
    intro g hbelow hle
    simp only [ceilSqrt_search]
    exact ⟨by simpa using hle, hbelow⟩
  | succ f ih =>
    intro g hbelow hle
    simp only [ceilSqrt_search]
    by_cases hg : n ≤ g * g
    · rw [if_pos hg]
      exact ⟨hg, hbelow⟩
    · rw [if_neg hg]
      apply ih (g + 1)
      · intro k hk
        rcases Nat.lt_succ_iff_lt_or_eq.mp hk with h | h
        · exact hbelow k h
        · subst h; omega
      · rw [show g + 1 + f = g + (f + 1) by omega]
        exact hle

theorem ceilSqrt_spec (n : Nat) :
    n ≤ ceilSqrt n * ceilSqrt n ∧ (∀ k, n ≤ k * k → ceilSqrt n ≤ k) ∧
    (0 < n → 0 < ceilSqrt n) := by
  have hnn : n ≤ (0 + n) * (0 + n) := by
    rw [Nat.zero_add]
    rcases Nat.eq_zero_or_pos n with h | h
    · subst h; exact Nat.le_refl _
    · exact Nat.le_mul_of_pos_left n h
  obtain ⟨h1, h2⟩ := ceilSqrt_search_spec n n 0 (fun k hk => absurd hk (Nat.not_lt_zero k)) hnn
  refine ⟨h1, ?_, ?_⟩
  · intro k hk
    by_contra hlt
    have := h2 k (by unfold ceilSqrt at hlt; omega)
    omega
  · intro hn
    by_contra h0
    have hz : ceilSqrt n = 0 := by omega
    unfold ceilSqrt at hz
    rw [hz] at h1
    omega

theorem allocate_fields (alloc : dimension2u32 → ImageRGBA8) (subImageSize : dimension2u32)
    (numImages : Nat) (ta : TextureAtlas)
    (halloc : TextureAtlas_Allocate alloc subImageSize numImages = .ok ta) :
    0 < subImageSize.width ∧ 0 < subImageSize.height ∧ 0 < numImages ∧
    ta.usedImages = 0 ∧ ta.totalImages = numImages ∧ ta.subImageSizePixels = subImageSize ∧
    ta.gridSize = { width := ceilSqrt numImages, height := ceilSqrt numImages } ∧
    ta.backingSizePixels =
      { width := (ceilSqrt numImages * subImageSize.width) % UINT32_SIZE,
        height := (ceilSqrt numImages * subImageSize.height) % UINT32_SIZE } ∧
    ta.image = alloc ta.backingSizePixels := by
  unfold TextureAtlas_Allocate at halloc
  by_cases hw : 0 < subImageSize.width
  · by_cases hh : 0 < subImageSize.height
    · by_cases hn : 0 < numImages
      · simp only [gt_iff_lt, hw, hh, hn, decide_True, Bool.not_true, Bool.false_eq_true,
          ↓reduceIte, Except.ok.injEq] at halloc
        subst halloc
        exact ⟨hw, hh, hn, rfl, rfl, rfl, rfl, rfl, rfl⟩
      · simp [hw, hh, hn] at halloc
    · simp [hw, hh] at halloc
  · simp [hw] at halloc

/-! ### Image_Flip -/

theorem memcpy_inside (dest : Nat → Nat) (d : Nat) (src : Nat → Nat) (s n a : Nat)
    (h1 : d ≤ a) (h2 : a < d + n) : memcpy dest d src s n a = src (s + (a - d)) := by
  unfold memcpy
  rw [if_pos ⟨h1, h2⟩]

theorem memcpy_outside (dest : Nat → Nat) (d : Nat) (src : Nat → Nat) (s n a : Nat)
    (h : a < d ∨ d + n ≤ a) : memcpy dest d src s n a = dest a := by
  unfold memcpy
  rw [if_neg (by omega)]

theorem flip_rows_spec (image : ImagePixels) (rowSize : Nat)
    (hsize : rowSize * image.height = image.pixels.size)
    (hu32 : image.pixels.size < UINT32_SIZE) :
    ∀ (remaining i : Nat) (flippedImage : DynamicBuffer),
      remaining + i = image.height → flippedImage.size = image.pixels.size →
      ∃ out, Image_Flip_rows image rowSize remaining i flippedImage = .ok out ∧
        out.size = flippedImage.size ∧
        (∀ r, r < remaining → ∀ b, b < rowSize →
          out.contents (rowSize * r + b) =
            image.pixels.contents (rowSize * (image.height - 1 - r) + b)) ∧
        (∀ a, rowSize * remaining ≤ a → out.contents a = flippedImage.contents a) := by
  intro remaining
  induction remaining with
  | zero =>
    intro i flippedImage _ _
    exact ⟨flippedImage, rfl, rfl, fun r hr => absurd hr (Nat.not_lt_zero r), fun a _ => rfl⟩
  | succ rem ih =>
    intro i flippedImage hi hfs
    have hrow : image.height - i - 1 = rem := by omega
    have hm1 : rowSize * (rem + 1) = rowSize * rem + rowSize := Nat.mul_succ _ _
    have hm2 : rowSize * (i + 1) = rowSize * i + rowSize := Nat.mul_succ _ _
    have hle1 : rowSize * (rem + 1) ≤ rowSize * image.height :=
      Nat.mul_le_mul_left _ (by omega)
    have hle2 : rowSize * (i + 1) ≤ rowSize * image.height :=
      Nat.mul_le_mul_left _ (by omega)
    have hfrom : (rowSize * (image.height - i - 1)) % UINT32_SIZE = rowSize * rem := by
      rw [hrow]; exact Nat.mod_eq_of_lt (by omega)
    have hto : (rowSize * i) % UINT32_SIZE = rowSize * i := Nat.mod_eq_of_lt (by omega)
    simp only [Image_Flip_rows, hfrom, hto]
    rw [if_pos ⟨by omega, by omega⟩]
    obtain ⟨out, hout, hsz, hrows, hrest⟩ := ih (i + 1)
      { flippedImage with
        contents := memcpy flippedImage.contents (rowSize * rem) image.pixels.contents
          (rowSize * i) rowSize } (by omega) hfs
    refine ⟨out, hout, hsz, ?_, ?_⟩
    · intro r hr b hb
      rcases Nat.lt_succ_iff_lt_or_eq.mp hr with h | h
      · exact hrows r h b hb
      · subst h
        rw [hrest _ (by omega)]
        show memcpy flippedImage.contents (rowSize * r) image.pixels.contents (rowSize * i)
          rowSize (rowSize * r + b) = _
        rw [memcpy_inside _ _ _ _ _ _ (by omega) (by omega)]
        rw [show image.height - 1 - r = i by omega, show rowSize * r + b - rowSize * r = b by omega]
    · intro a ha
      rw [hrest a (by omega)]
      show memcpy flippedImage.contents (rowSize * rem) image.pixels.contents (rowSize * i)
        rowSize a = _
      exact memcpy_outside _ _ _ _ _ _ (Or.inr (by omega))

theorem flip_once (fresh : Nat → Nat) (image : ImagePixels)
    (hw : 0 < image.width) (hh : 0 < image.height)
    (hsize : image.pixels.size = 4 * image.width * image.height)
    (hu32 : image.pixels.size < UINT32_SIZE) :
    ∃ flipped, Image_Flip fresh image = .ok flipped ∧
      flipped.width = image.width ∧ flipped.height = image.height ∧
      flipped.pixels.size = image.pixels.size ∧
      ∀ i, i < image.height → ∀ b, b < 4 * image.width →
        flipped.pixels.contents (4 * image.width * i + b) =
          image.pixels.contents (4 * image.width * (image.height - 1 - i) + b) := by
  have hpos : 0 < image.pixels.size := by
    rw [hsize]; exact Nat.mul_pos (Nat.mul_pos (by decide) hw) hh
  have hrowle : 4 * image.width ≤ 4 * image.width * image.height :=
    Nat.le_mul_of_pos_right _ hh
  have hrow : (4 * image.width) % UINT32_SIZE = 4 * image.width :=
    Nat.mod_eq_of_lt (by omega)
  obtain ⟨out, hout, _, hrows, _⟩ := flip_rows_spec image (4 * image.width) hsize.symm hu32
    image.height 0 (Mem_Allocate fresh image.pixels.size) (by omega) rfl
  refine ⟨{ image with pixels := { image.pixels with contents := out.contents } }, ?_, rfl, rfl,
    rfl, hrows⟩
  have hexp2 : (4 * image.width * image.height) % UINT32_SIZE = image.pixels.size := by
    rw [← hsize]; exact Nat.mod_eq_of_lt hu32
  unfold Image_Flip
  simp only [gt_iff_lt, hpos, hw, hh, decide_True, Bool.not_true, Bool.false_eq_true,
    ↓reduceIte, hexp2, ne_eq, not_true_eq_false, hrow, hout]

/-! ### TextureAtlas_Insert -/

theorem insert_dest_bound (g w h r c x y : Nat) (hr : r < g) (hc : c < g) (hx : x < w)
    (hy : y < h) :
    r * (g * w) * h + c * w + x + y * (g * w) < g * w * (g * h) := by
  have h1 : c * w + w ≤ g * w := by
    rw [← Nat.succ_mul]; exact Nat.mul_le_mul_right w hc
  have h2 : y * (g * w) + g * w ≤ h * (g * w) := by
    rw [← Nat.succ_mul]; exact Nat.mul_le_mul_right _ hy
  have h3 : r * (g * w) * h + g * w * h ≤ g * (g * w) * h := by
    rw [← Nat.add_mul, ← Nat.succ_mul]
    exact Nat.mul_le_mul_right _ (Nat.mul_le_mul_right _ hr)
  have h4 : g * (g * w) * h = g * w * (g * h) := by ring
  have h5 : h * (g * w) = g * w * h := Nat.mul_comm _ _
  omega

theorem insert_src_bound (w h x y : Nat) (hx : x < w) (hy : y < h) : x + y * w < w * h := by
  have h2 : y * w + w ≤ h * w := by
    rw [← Nat.succ_mul]; exact Nat.mul_le_mul_right _ hy
  have h5 : h * w = w * h := Nat.mul_comm _ _
  omega

theorem insert_pixel_eq (ta : TextureAtlas) (subImage : ImageRGBA8) (D x y : Nat)
    (dest : Nat → Nat) (S T : Nat)
    (hdest : D + x + y * ta.backingSizePixels.width < S)
    (hS : ta.image.pixels.size = 4 * S) (hS32 : 4 * S < UINT32_SIZE)
    (hsrc : x + y * subImage.width < T)
    (hT : subImage.pixels.size = 4 * T) (hT32 : 4 * T < UINT32_SIZE) :
    TextureAtlas_Insert_destOffset ta D x y = D + x + y * ta.backingSizePixels.width ∧
    TextureAtlas_Insert_srcOffset subImage x y = x + y * subImage.width ∧
    TextureAtlas_Insert_pixel ta subImage D x y dest =
      if readU32 subImage.pixels.contents (4 * (x + y * subImage.width)) = 0 ∨
          readU32 subImage.pixels.contents (4 * (x + y * subImage.width)) = 0xFFFFFFFF then
        .ok (memcpy dest (4 * (D + x + y * ta.backingSizePixels.width))
          subImage.pixels.contents (4 * (x + y * subImage.width)) 4)
      else .error "Unexpected subtexture value: %X" := by
  have hd : TextureAtlas_Insert_destOffset ta D x y =
      D + x + y * ta.backingSizePixels.width := by
    unfold TextureAtlas_Insert_destOffset
    exact Nat.mod_eq_of_lt (by omega)
  have hs : TextureAtlas_Insert_srcOffset subImage x y = x + y * subImage.width := by
    unfold TextureAtlas_Insert_srcOffset
    exact Nat.mod_eq_of_lt (by omega)
  have hd4 : (4 * (D + x + y * ta.backingSizePixels.width)) % UINT32_SIZE =
      4 * (D + x + y * ta.backingSizePixels.width) := Nat.mod_eq_of_lt (by omega)
  have hs4 : (4 * (x + y * subImage.width)) % UINT32_SIZE = 4 * (x + y * subImage.width) :=
    Nat.mod_eq_of_lt (by omega)
  refine ⟨hd, hs, ?_⟩
  unfold TextureAtlas_Insert_pixel
  simp only [hd, hs, hd4, hs4]
  rw [if_neg (by simp only [hS, Bool.not_eq_true', decide_eq_false_iff_not]; omega),
    if_neg (by simp only [hT, Bool.not_eq_true', decide_eq_false_iff_not]; omega)]
  by_cases hv : readU32 subImage.pixels.contents (4 * (x + y * subImage.width)) = 0 ∨
      readU32 subImage.pixels.contents (4 * (x + y * subImage.width)) = 0xFFFFFFFF
  · rw [if_pos hv, if_neg (by
      simp only [Bool.not_eq_true', decide_eq_false_iff_not, not_not]; exact hv)]
  · rw [if_neg hv, if_pos (by
      simp only [Bool.not_eq_true', decide_eq_false_iff_not]; exact hv)]

theorem insert_row_spec (ta : TextureAtlas) (subImage : ImageRGBA8) (D y : Nat) (S T : Nat)
    (hS : ta.image.pixels.size = 4 * S) (hS32 : 4 * S < UINT32_SIZE)
    (hT : subImage.pixels.size = 4 * T) (hT32 : 4 * T < UINT32_SIZE)
    (hbound : ∀ x, x < subImage.width →
      D + x + y * ta.backingSizePixels.width < S ∧ x + y * subImage.width < T) :
    ∀ (remaining x : Nat) (dest : Nat → Nat), x + remaining = subImage.width →
      (∀ e, TextureAtlas_Insert_row ta subImage D y remaining x dest = .error e →
        e = "Unexpected subtexture value: %X") ∧
      ((∀ x1, x1 < subImage.width →
          readU32 subImage.pixels.contents (4 * (x1 + y * subImage.width)) = 0 ∨
          readU32 subImage.pixels.contents (4 * (x1 + y * subImage.width)) = 0xFFFFFFFF) →
        ∃ d, TextureAtlas_Insert_row ta subImage D y remaining x dest = .ok d) := by
  intro remaining
  induction remaining with
  | zero =>
    intro x dest _
    exact ⟨fun e h => (by simp [TextureAtlas_Insert_row] at h), fun _ => ⟨dest, rfl⟩⟩
  | succ rem ih =>
    intro x dest hx
    obtain ⟨hb1, hb2⟩ := hbound x (by omega)
    obtain ⟨_, _, hpix⟩ := insert_pixel_eq ta subImage D x y dest S T hb1 hS hS32 hb2 hT hT32
    simp only [TextureAtlas_Insert_row, hpix]
    by_cases hv : readU32 subImage.pixels.contents (4 * (x + y * subImage.width)) = 0 ∨
        readU32 subImage.pixels.contents (4 * (x + y * subImage.width)) = 0xFFFFFFFF
    · rw [if_pos hv]
      exact ih (x + 1) _ (by omega)
    · rw [if_neg hv]
      refine ⟨fun e h => ?_, fun hall => absurd (hall x (by omega)) hv⟩
      simp only [Except.error.injEq] at h
      exact h.symm

theorem insert_rows_spec (ta : TextureAtlas) (subImage : ImageRGBA8) (D : Nat) (S T : Nat)
    (hS : ta.image.pixels.size = 4 * S) (hS32 : 4 * S < UINT32_SIZE)
    (hT : subImage.pixels.size = 4 * T) (hT32 : 4 * T < UINT32_SIZE)
    (hbound : ∀ x y, x < subImage.width → y < subImage.height →
      D + x + y * ta.backingSizePixels.width < S ∧ x + y * subImage.width < T) :
    ∀ (remaining y : Nat) (dest : Nat → Nat), y + remaining = subImage.height →
      (∀ e, TextureAtlas_Insert_rows ta subImage D remaining y dest = .error e →
        e = "Unexpected subtexture value: %X") ∧
      ((∀ x1 y1, x1 < subImage.width → y1 < subImage.height →
          readU32 subImage.pixels.contents (4 * (x1 + y1 * subImage.width)) = 0 ∨
          readU32 subImage.pixels.contents (4 * (x1 + y1 * subImage.width)) = 0xFFFFFFFF) →
        ∃ d, TextureAtlas_Insert_rows ta subImage D remaining y dest = .ok d) := by
  intro remaining
  induction remaining with
  | zero =>
    intro y dest _
    exact ⟨fun e h => (by simp [TextureAtlas_Insert_rows] at h), fun _ => ⟨dest, rfl⟩⟩
  | succ rem ih =>
    intro y dest hy
    obtain ⟨hrow1, hrow2⟩ := insert_row_spec ta subImage D y S T hS hS32 hT hT32
      (fun x hx => hbound x y hx (by omega)) subImage.width 0 dest (by omega)
    simp only [TextureAtlas_Insert_rows]
    cases hr : TextureAtlas_Insert_row ta subImage D y subImage.width 0 dest with
    | error e =>
      refine ⟨fun e2 h => ?_, fun hall => ?_⟩
      · simp only [Except.error.injEq] at h
        rw [← h]; exact hrow1 e hr
      · obtain ⟨d, hd⟩ := hrow2 (fun x1 hx1 => hall x1 y hx1 (by omega))
        rw [hr] at hd; cases hd
    | ok d => exact ih (y + 1) d (by omega)

/-! ### The iterations of the loop -/

theorem loopIteration_counts (tick draw : Nat) (generated : TickResult) :
    (loopIteration tick draw generated).countP Event.isPump = 1 ∧
    (loopIteration tick draw generated).countP Event.isDraw = 1 ∧
    (loopIteration tick draw generated).countP Event.isTick =
      (if generated.ret then 1 else 0) := by
  unfold loopIteration
  cases h : generated.ret <;>
    simp [List.countP_cons, Event.isPump, Event.isDraw, Event.isTick]

theorem loopIterations_length (tick draw : Nat) :
    ∀ (readings : List CnTime) (lastTick : CnTime),
      (loopIterations tick draw lastTick readings).length = readings.length := by
  intro readings
  induction readings with
  | nil => intro _; rfl
  | cons now rest ih => intro lastTick; simp only [loopIterations, List.length_cons, ih]

theorem loop_iterate_trace (tick draw : Nat) :
    ∀ (readings : List CnTime) (st : MainState),
      ∃ k, k ≤ readings.length ∧
        (cnMain_Loop_iterate tick draw readings st).1 =
          ((loopIterations tick draw st.s_lastTick readings).take k).flatten ∧
        (cnMain_Loop_iterate tick draw readings st).2.ticks = st.ticks +
          ((loopIterations tick draw st.s_lastTick readings).take k).flatten.countP
            Event.isTick ∧
        (cnMain_Loop_iterate tick draw readings st).2.tickLimit = st.tickLimit ∧
        (∀ j, j < k → ¬ (st.tickLimit ≠ 0 ∧ st.ticks +
          ((loopIterations tick draw st.s_lastTick readings).take j).flatten.countP
            Event.isTick = st.tickLimit)) ∧
        (k < readings.length → st.tickLimit ≠ 0 ∧ st.ticks +
          ((loopIterations tick draw st.s_lastTick readings).take k).flatten.countP
            Event.isTick = st.tickLimit) ∧
        ((loopIterations tick draw st.s_lastTick readings).take k).flatten.countP
          Event.isPump = k ∧
        ((loopIterations tick draw st.s_lastTick readings).take k).flatten.countP
          Event.isDraw = k ∧
        ((loopIterations tick draw st.s_lastTick readings).take k).flatten.countP
          Event.isTick ≤ k := by
  intro readings
  induction readings with
  | nil =>
    intro st
    exact ⟨0, Nat.le_refl _, rfl, rfl, rfl, fun j hj => absurd hj (Nat.not_lt_zero _),
      fun h => absurd h (Nat.lt_irrefl _), rfl, rfl, Nat.le_refl _⟩
  | cons now rest ih =>
    intro st
    rw [loop_iterate_cons]
    by_cases hlim : cnMain_IsTickLimitReached st = true
    · rw [if_pos hlim]
      have hreached := (isTickLimitReached_iff st).mp hlim
      refine ⟨0, Nat.zero_le _, rfl, rfl, rfl, fun j hj => absurd hj (Nat.not_lt_zero _),
        fun _ => ?_, rfl, rfl, Nat.le_refl _⟩
      simpa using hreached
    · rw [if_neg hlim]
      have hnot : ¬ (st.tickLimit ≠ 0 ∧ st.ticks = st.tickLimit) :=
        fun h => hlim ((isTickLimitReached_iff st).mpr h)
      obtain ⟨hb1, hb2, hb3, hb4⟩ := loop_body_eq tick draw now st
      obtain ⟨k, hk, hev, htk, hlimit, hbefore, hafter, hp, hd, ht⟩ :=
        ih (cnMain_Loop_body tick draw now st).2
      rw [hb3] at hev htk hbefore hafter hp hd ht
      rw [hb2] at htk hbefore hafter
      rw [hb4] at hlimit hbefore hafter
      obtain ⟨hc1, hc2, hc3⟩ :=
        loopIteration_counts tick draw (cnMain_GenerateTick st.s_lastTick now ⟨0⟩)
      have hbody : (cnMain_Loop_body tick draw now st).1 =
          loopIteration tick draw (cnMain_GenerateTick st.s_lastTick now ⟨0⟩) := hb1
      have hstep : ∀ j, ((loopIterations tick draw st.s_lastTick (now :: rest)).take
            (j + 1)).flatten =
          loopIteration tick draw (cnMain_GenerateTick st.s_lastTick now ⟨0⟩) ++
            ((loopIterations tick draw (cnMain_GenerateTick st.s_lastTick now ⟨0⟩).lastTick
              rest).take j).flatten := by
        intro j
        simp only [loopIterations, List.take_succ_cons, List.flatten_cons]
      refine ⟨k + 1, by simp only [List.length_cons]; omega, ?_, ?_, hlimit, ?_, ?_, ?_, ?_, ?_⟩
      · show _ ++ _ = _
        rw [hstep, hbody, hev]
      · show (cnMain_Loop_iterate tick draw rest (cnMain_Loop_body tick draw now st).2).2.ticks = _
        rw [hstep, List.countP_append, hc3, htk]
        omega
      · intro j hj
        cases j with
        | zero =>
          simpa using hnot
        | succ j =>
          rw [hstep, List.countP_append, hc3]
          have := hbefore j (by omega)
          intro hcon
          apply this
          refine ⟨hcon.1, ?_⟩
          have h2 := hcon.2
          omega
      · intro hlt
        rw [hstep, List.countP_append, hc3]
        obtain ⟨h1, h2⟩ := hafter (by simp only [List.length_cons] at hlt; omega)
        exact ⟨h1, by omega⟩
      · rw [hstep, List.countP_append, hc1, hp]; omega
      · rw [hstep, List.countP_append, hc2, hd]; omega
      · rw [hstep, List.countP_append, hc3]
        split <;> omega

/-! ## Tick generation: the claims -/

/-- C1: for every stored last-tick instant `L` and clock reading `n` with
`max(L, n) - L` below 8 ms (8 000 000 ns), `cnMain_GenerateTick` returns false
and leaves the stored last-tick instant equal to `L` (and `*outDt` as it was). -/
theorem cnMain_GenerateTick_below_min (L n outDt : CnTime)
    (h : max L.native n.native - L.native < 8 * 1000000) :
    (cnMain_GenerateTick L n outDt).ret = false ∧
    (cnMain_GenerateTick L n outDt).lastTick = L ∧
    (cnMain_GenerateTick L n outDt).outDt = outDt := by
  rcases cnMain_GenerateTick_cases L n outDt with ⟨_, h1⟩ | ⟨h0, _, _⟩ | ⟨h0, _, _⟩
  · rw [h1]; exact ⟨rfl, rfl, rfl⟩
  · omega
  · omega

/-- Witness for C1: last tick at 1 000 ns, the clock 3 ms later. -/
theorem cnMain_GenerateTick_below_min_witness :
    (cnMain_GenerateTick ⟨1000⟩ ⟨3001000⟩ ⟨7⟩).ret = false ∧
    (cnMain_GenerateTick ⟨1000⟩ ⟨3001000⟩ ⟨7⟩).lastTick = ⟨1000⟩ ∧
    (cnMain_GenerateTick ⟨1000⟩ ⟨3001000⟩ ⟨7⟩).outDt = ⟨7⟩ :=
  cnMain_GenerateTick_below_min ⟨1000⟩ ⟨3001000⟩ ⟨7⟩ (by decide)

/-- C2: for every stored last-tick instant `L` and clock reading `n >= L` with
8 ms <= `n - L` <= 5000 ms (both inclusive), `cnMain_GenerateTick` returns
true, writes exactly `n - L` to the output delta and sets the stored last-tick
instant to `n`; in particular an advance of 16 ms gives a tick whose delta is
16 ms. -/
theorem cnMain_GenerateTick_in_window (L n outDt : CnTime)
    (hLn : L.native ≤ n.native)
    (hmin : 8 * 1000000 ≤ n.native - L.native)
    (hmax : n.native - L.native ≤ 5000 * 1000000) :
    cnMain_GenerateTick L n outDt =
      { ret := true, outDt := ⟨n.native - L.native⟩, lastTick := n } ∧
    (n.native - L.native = 16 * 1000000 →
      (cnMain_GenerateTick L n outDt).ret = true ∧
      (cnMain_GenerateTick L n outDt).outDt = cnTime_MakeMilli 16 ∧
      cnTime_Milli (cnMain_GenerateTick L n outDt).outDt = 16) := by
  have hres := generateTick_window L n outDt hLn (by omega) (by omega)
  refine ⟨hres, ?_⟩
  intro h16
  rw [hres]
  refine ⟨rfl, ?_, ?_⟩
  · show (⟨n.native - L.native⟩ : CnTime) = cnTime_MakeMilli 16
    rw [h16]; decide
  · show cnTime_Milli ⟨n.native - L.native⟩ = 16
    rw [h16]; decide

/-- Witness for C2: last tick at 1 000 ns, the clock 16 ms later. -/
theorem cnMain_GenerateTick_in_window_witness :
    cnMain_GenerateTick ⟨1000⟩ ⟨16001000⟩ ⟨0⟩ =
      { ret := true, outDt := ⟨16000000⟩, lastTick := ⟨16001000⟩ } ∧
    cnTime_Milli (cnMain_GenerateTick ⟨1000⟩ ⟨16001000⟩ ⟨0⟩).outDt = 16 :=
  have h := cnMain_GenerateTick_in_window ⟨1000⟩ ⟨16001000⟩ ⟨0⟩
    (by decide) (by decide) (by decide)
  ⟨h.1, (h.2 (by decide)).2.2⟩

/-- C3: for every stored last-tick instant `L` and clock reading `n` with
`n - L` above 5000 ms, `cnMain_GenerateTick` returns false and writes no
delta, yet the stored last-tick instant becomes `n`: the next call, whatever
its clock reading `m`, is the call made from last-tick `n`, and when `m - n`
lies in the 8 ms .. 5000 ms window its delta is `m - n`. -/
theorem cnMain_GenerateTick_above_max (L n outDt : CnTime)
    (h : 5000 * 1000000 < n.native - L.native) :
    cnMain_GenerateTick L n outDt = { ret := false, outDt := outDt, lastTick := n } ∧
    (∀ m : CnTime, generateTicks L outDt [n, m] =
      [{ ret := false, outDt := outDt, lastTick := n }, cnMain_GenerateTick n m outDt]) ∧
    (∀ m : CnTime, n.native ≤ m.native → 8 * 1000000 ≤ m.native - n.native →
      m.native - n.native ≤ 5000 * 1000000 →
      generateTicks L outDt [n, m] =
        [{ ret := false, outDt := outDt, lastTick := n },
         { ret := true, outDt := ⟨m.native - n.native⟩, lastTick := m }]) := by
  have hres := generateTick_dropped L n outDt (by omega)
  have hrun : ∀ m : CnTime, generateTicks L outDt [n, m] =
      [{ ret := false, outDt := outDt, lastTick := n }, cnMain_GenerateTick n m outDt] := by
    intro m
    simp [generateTicks, hres]
  refine ⟨hres, hrun, ?_⟩
  intro m h1 h2 h3
  rw [hrun m, generateTick_window n m outDt h1 (by omega) (by omega)]

/-- Witness for C3: last tick at 1 000 ns, the clock 6000 ms later. -/
theorem cnMain_GenerateTick_above_max_witness :
    cnMain_GenerateTick ⟨1000⟩ ⟨6000001000⟩ ⟨7⟩ =
      { ret := false, outDt := ⟨7⟩, lastTick := ⟨6000001000⟩ } ∧
    generateTicks ⟨1000⟩ ⟨7⟩ [⟨6000001000⟩, ⟨6016001000⟩] =
      [{ ret := false, outDt := ⟨7⟩, lastTick := ⟨6000001000⟩ },
       { ret := true, outDt := ⟨16000000⟩, lastTick := ⟨6016001000⟩ }] :=
  have h := cnMain_GenerateTick_above_max ⟨1000⟩ ⟨6000001000⟩ ⟨7⟩ (by decide)
  ⟨h.1, h.2.2 ⟨6016001000⟩ (by decide) (by decide) (by decide)⟩

/-- C4, as stated, fails: with the last tick at 1 000 ns and the clock 4000 ms
later, `cnMain_GenerateTick` does not return false. -/
theorem cnMain_GenerateTick_4000ms_counterexample :
    ¬ ((cnMain_GenerateTick ⟨1000⟩ ⟨1000 + 4000 * 1000000⟩ ⟨0⟩).ret = false ∧
       (cnMain_GenerateTick ⟨1000⟩ ⟨1000 + 4000 * 1000000⟩ ⟨0⟩).lastTick =
         ⟨1000 + 4000 * 1000000⟩) := by
  decide

/-- C4, amended: given a last-tick instant `L`, calling `cnMain_GenerateTick`
with the clock advanced by 4000 ms returns true (a tick is generated) with a
delta of 4000 ms, and advances the stored last-tick instant to `L` + 4000 ms. -/
theorem cnMain_GenerateTick_4000ms (L outDt : CnTime) :
    cnMain_GenerateTick L ⟨L.native + 4000 * 1000000⟩ outDt =
      { ret := true, outDt := cnTime_MakeMilli 4000,
        lastTick := ⟨L.native + 4000 * 1000000⟩ } := by
  have h := generateTick_window L ⟨L.native + 4000 * 1000000⟩ outDt
    (by simp) (by simp) (by simp)
  rw [h]
  have : (⟨L.native + 4000 * 1000000 - L.native⟩ : CnTime) = cnTime_MakeMilli 4000 := by
    rw [Nat.add_sub_cancel_left]; decide
  simp only [this]

/-- C5: the stored last-tick instant never decreases.  Over every sequence of
`cnMain_GenerateTick` calls and every sequence of clock readings (backward
ones included), the last-tick instant after each call is at least its value
before the call; a reading earlier than the last tick gives a delta of 0 and
no tick, the last-tick instant staying put. -/
theorem s_lastTick_monotone (L outDt : CnTime) (readings : List CnTime) :
    List.Chain (fun a b : CnTime => a.native ≤ b.native) L
      ((generateTicks L outDt readings).map TickResult.lastTick) ∧
    (∀ n : CnTime, L.native ≤ (cnMain_GenerateTick L n outDt).lastTick.native) ∧
    (∀ n : CnTime, n.native < L.native →
      cnTime_SubtractMonotonic (cnTime_Max L n) L = ⟨0⟩ ∧
      cnMain_GenerateTick L n outDt = { ret := false, outDt := outDt, lastTick := L }) := by
  refine ⟨generateTicks_chain readings L outDt, ?_, ?_⟩
  · intro n
    rcases cnMain_GenerateTick_cases L n outDt with ⟨_, h⟩ | ⟨_, _, h⟩ | ⟨_, _, h⟩ <;>
      rw [h] <;> simp [cnTime_Max_native]
  · intro n hn
    have hmaxLn : max L.native n.native = L.native := Nat.max_eq_left (Nat.le_of_lt hn)
    constructor
    · have := tick_dt_native L n
      cases hm : cnTime_SubtractMonotonic (cnTime_Max L n) L with
      | mk mm => rw [hm] at this; simp at this; simp [this, hmaxLn]
    · rcases cnMain_GenerateTick_cases L n outDt with ⟨_, h⟩ | ⟨h0, _, _⟩ | ⟨h0, _, _⟩
      · exact h
      · omega
      · omega

/-- Witness for C5: a clock that jumps forward, backward, and forward again. -/
theorem s_lastTick_monotone_witness :
    (generateTicks ⟨1000⟩ ⟨0⟩ [⟨16001000⟩, ⟨5⟩, ⟨9000000000⟩, ⟨16001001⟩]).map
        TickResult.lastTick = [⟨16001000⟩, ⟨16001000⟩, ⟨9000000000⟩, ⟨9000000000⟩] ∧
    cnMain_GenerateTick ⟨1000⟩ ⟨5⟩ ⟨0⟩ = { ret := false, outDt := ⟨0⟩, lastTick := ⟨1000⟩ } :=
  ⟨by decide, ((s_lastTick_monotone ⟨1000⟩ ⟨0⟩ []).2.2 ⟨5⟩ (by decide)).2⟩

/-! ## Command-line dispatch: the claims -/

/-- C6, as stated, fails: in `["prog", "-x"]` the token `-x` equals a flag of
a registered option (the second subsystem's) whose handler succeeds and
reports the group's length 1, yet `cnMain_ParseCommandLine` returns false with
the cursor still at 1, because the first subsystem declares `-x` too and its
handler fails. -/
theorem cnMain_ParseCommandLine_some_option_counterexample :
    (∃ cfgD cfg1,
      cnMain_ParseCommandLine_defaults failingFirstRegistry (fun _ => 5) = .ok cfgD ∧
      FlagGroups failingFirstRegistry 2 ["prog", "-x"] 1 cfgD 2 cfg1) ∧
    parseSummary (cnMain_ParseCommandLine failingFirstRegistry (fun _ => 5) 2 ["prog", "-x"]) =
      some (some { ret := false, index := 1, calls := [⟨0, 0, 0, 1, -1⟩],
                   unparsed := some (some "-x", 1) }) := by
  exact ⟨⟨_, _, rfl,
    FlagGroups.group "-x" (exampleSystem 1 [constOption "-x" 1]) (constOption "-x" 1)
      (by decide) rfl (List.mem_cons_of_mem _ (List.mem_cons_self _ _))
      (List.mem_cons_self _ _) (by decide) (by decide) (FlagGroups.done _ _)⟩, by decide⟩

/-- C6, amended: for every argument vector that, after the executable name,
splits left to right into groups, each starting with a token for which the
first registered option with an equal flag (subsystems in registration order,
options in list order) has a handler that succeeds and reports that group's
length, `cnMain_ParseCommandLine` consumes the entire vector (the cursor ends
at argc), returns true and prints no "unable to parse" line, whatever the
order of the groups. -/
theorem cnMain_ParseCommandLine_consumes_groups {C : Type} (systems : List (CnSystem C))
    (configs cfgD cfg1 : Nat → C) (argv : List String)
    (hargv : 1 ≤ argv.length)
    (hdef : cnMain_ParseCommandLine_defaults systems configs = .ok cfgD)
    (hgroups : ResolvedGroups systems argv.length argv 1 cfgD argv.length cfg1) :
    ∃ r, cnMain_ParseCommandLine systems configs argv.length argv = some (.ok r) ∧
      r.ret = true ∧ r.parse.index = argv.length ∧ r.parse.argc = argv.length ∧
      r.configs = cfg1 ∧ r.unparsed = none := by
  obtain ⟨_, hloop⟩ := loop_groups systems argv.length argv hgroups
  obtain ⟨new, fuel1, _, _, h⟩ := hloop [] argv.length (by omega)
  refine ⟨parseDone ⟨argv.length, argv, argv.length⟩ ⟨cfg1, [] ++ new⟩, ?_, rfl, rfl, rfl, rfl, rfl⟩
  have hlt : ¬ argv.length < 1 := by omega
  simp only [cnMain_ParseCommandLine, hlt, ↓reduceIte, hdef, cnCommandLineParse_Make]
  rw [h]
  have hc := shouldContinue_false argv.length argv argv.length (le_refl _)
  cases fuel1 <;> simp [cnMain_ParseCommandLine_loop, hc]

/-- Witness for C6: `prog -x -t 5 -x` against a registry with `-t ARG` and
`-x`. -/
theorem cnMain_ParseCommandLine_consumes_groups_witness :
    ∃ r, cnMain_ParseCommandLine tickLimitRegistry (fun _ => 5) 5
        ["prog", "-x", "-t", "5", "-x"] = some (.ok r) ∧
      r.ret = true ∧ r.parse.index = 5 := by
  obtain ⟨r, h1, h2, h3, _⟩ := cnMain_ParseCommandLine_consumes_groups tickLimitRegistry
    (fun _ => 5) _ _ ["prog", "-x", "-t", "5", "-x"] (by decide) rfl
    (ResolvedGroups.group "-x" 1 (exampleSystem 1 [constOption "-x" 1]) 0 (constOption "-x" 1)
      (by decide) rfl rfl (by decide)
      (ResolvedGroups.group "-t" 0 (exampleSystem 0 [argOption]) 0 argOption
        (by decide) rfl rfl (by decide)
        (ResolvedGroups.group "-x" 1 (exampleSystem 1 [constOption "-x" 1]) 0
          (constOption "-x" 1) (by decide) rfl rfl (by decide)
          (ResolvedGroups.done _ _))))
  exact ⟨r, h1, h2, h3⟩

/-- C7, as stated, fails: in `["prog", "-t", "5"]` the first token that
matches no option is `5`, at index 2, yet `cnMain_ParseCommandLine` returns
true and reports nothing: the handler of `-t` consumed `5` as its argument. -/
theorem cnMain_ParseCommandLine_first_unmatched_counterexample :
    FirstUnmatchedAt tickLimitRegistry ["prog", "-t", "5"] 2 ∧
    parseSummary (cnMain_ParseCommandLine tickLimitRegistry (fun _ => 5) 3 ["prog", "-t", "5"]) =
      some (some { ret := true, index := 3, calls := [⟨0, 0, 0, 1, 2⟩], unparsed := none }) := by
  refine ⟨⟨by decide, ⟨"5", rfl, rfl⟩, ?_⟩, by decide⟩
  intro i h1 h2
  have hi : i = 1 := by omega
  subst hi
  exact ⟨"-t", rfl, by simp [tickLimitRegistry, firstSystem, firstOption, flagEquals,
    exampleSystem, argOption]⟩

/-- C7, amended: for every argument vector in which the tokens before index
`k` split into groups consumed by successful handlers (so that the parse
cursor reaches `k`) and the token at index `k` matches no option of any
registered subsystem, `cnMain_ParseCommandLine` returns false, the token and
index it reports are `argv[k]` and `k` exactly, the cursor stays at `k`, and
every option handler invocation is for a token before index `k`. -/
theorem cnMain_ParseCommandLine_halts_at_unmatched {C : Type} (systems : List (CnSystem C))
    (configs cfgD cfgK : Nat → C) (argv : List String) (k : Nat) (token : String)
    (hdef : cnMain_ParseCommandLine_defaults systems configs = .ok cfgD)
    (hgroups : ResolvedGroups systems argv.length argv 1 cfgD k cfgK)
    (htoken : argv[k]? = some token)
    (hnone : firstSystem token 0 systems = none) :
    ∃ r, cnMain_ParseCommandLine systems configs argv.length argv = some (.ok r) ∧
      r.ret = false ∧ r.unparsed = some (some token, k) ∧ r.parse.index = k ∧
      r.configs = cfgK ∧ ∀ call ∈ r.calls, call.index < k := by
  have hk : k < argv.length := by
    rcases List.getElem?_eq_some_iff.1 htoken with ⟨h, _⟩
    exact h
  obtain ⟨_, hloop⟩ := loop_groups systems argv.length argv hgroups
  obtain ⟨new, fuel1, hfuel1, hnew, h⟩ := hloop [] argv.length (by omega)
  have hc := shouldContinue_mk argv.length argv k hk
  have ht : cnCommandLineParse_LookAhead ⟨argv.length, argv, k⟩ 1 = some token := by
    rw [lookAhead_one]; exact htoken
  refine ⟨parseFailed ⟨argv.length, argv, k⟩ ⟨cfgK, [] ++ new⟩, ?_, rfl, ?_, rfl, rfl, ?_⟩
  · have hlt : ¬ argv.length < 1 := by omega
    simp only [cnMain_ParseCommandLine, hlt, ↓reduceIte, hdef, cnCommandLineParse_Make]
    rw [h]
    cases fuel1 with
    | zero => omega
    | succ f =>
      simp [cnMain_ParseCommandLine_loop, hc,
        scan_none ⟨argv.length, argv, k⟩ token hc ht systems 0 _ hnone]
  · simp [parseFailed, ht, cnCommandLineParse_LookAheadIndex]
  · intro call hcall
    exact hnew call (by simpa [parseFailed] using hcall)

/-- Witness for C7: `prog -t 5 bogus`; the parse stops at `bogus`, index 3. -/
theorem cnMain_ParseCommandLine_halts_at_unmatched_witness :
    ∃ r, cnMain_ParseCommandLine tickLimitRegistry (fun _ => 5) 4
        ["prog", "-t", "5", "bogus"] = some (.ok r) ∧
      r.ret = false ∧ r.unparsed = some (some "bogus", 3) ∧ r.parse.index = 3 := by
  obtain ⟨r, h1, h2, h3, h4, _⟩ := cnMain_ParseCommandLine_halts_at_unmatched tickLimitRegistry
    (fun _ => 5) _ _ ["prog", "-t", "5", "bogus"] 3 "bogus" rfl
    (ResolvedGroups.group "-t" 0 (exampleSystem 0 [argOption]) 0 argOption
      (by decide) rfl rfl (by decide) (ResolvedGroups.done _ _))
    rfl rfl
  exact ⟨r, h1, h2, h3, h4⟩

/-- C8: whenever the matched option handler (the one option resolution picks
for the token at the cursor) returns a positive count `c`, the iteration of
`cnMain_ParseCommandLine` goes on from the cursor advanced by exactly `c`
tokens; the token found there is resolved against the whole registry again,
from the first registered subsystem: if its handler returns a positive count
as well, the loop goes on past that group too, whichever subsystem each of the
two options belongs to.  The same holds for whichever handler ends the scan
of the registry with a positive count (those invoked before it returned 0).
The cursor moves by no other means: the parse always returns, and the cursor
it ends at is 1 plus the positive counts the invoked handlers returned. -/
theorem cnMain_ParseCommandLine_advance {C : Type} (systems : List (CnSystem C))
    (fuel : Nat) (parse : CnCommandLineParse) (st : ParseState C) (t : String)
    (j : Nat) (sys : CnSystem C) (k : Nat) (o : CnCommandLineOption C)
    (hc : parse.index < parse.argc) (ht : parse.argv[parse.index]? = some t)
    (hfirst : firstSystem t 0 systems = some (j, sys, k, o))
    (hret : 0 < (o.parser parse (st.configs sys.config)).1) :
    cnMain_ParseCommandLine_loop systems (fuel + 1) parse st =
      cnMain_ParseCommandLine_loop systems fuel
        (cnCommandLineParse_Advance parse (o.parser parse (st.configs sys.config)).1)
        (callParser parse j sys k o st).2 ∧
    ((cnCommandLineParse_Advance parse (o.parser parse (st.configs sys.config)).1).index : Int) =
      parse.index + (o.parser parse (st.configs sys.config)).1 ∧
    (∀ (t1 : String) (j1 : Nat) (sys1 : CnSystem C) (k1 : Nat) (o1 : CnCommandLineOption C),
      (cnCommandLineParse_Advance parse (o.parser parse (st.configs sys.config)).1).index
        < parse.argc →
      parse.argv[(cnCommandLineParse_Advance parse
        (o.parser parse (st.configs sys.config)).1).index]? = some t1 →
      firstSystem t1 0 systems = some (j1, sys1, k1, o1) →
      0 < (o1.parser (cnCommandLineParse_Advance parse (o.parser parse (st.configs sys.config)).1)
            ((callParser parse j sys k o st).2.configs sys1.config)).1 →
      cnMain_ParseCommandLine_loop systems (fuel + 2) parse st =
        cnMain_ParseCommandLine_loop systems fuel
          (cnCommandLineParse_Advance
            (cnCommandLineParse_Advance parse (o.parser parse (st.configs sys.config)).1)
            (o1.parser (cnCommandLineParse_Advance parse
                (o.parser parse (st.configs sys.config)).1)
              ((callParser parse j sys k o st).2.configs sys1.config)).1)
          (callParser (cnCommandLineParse_Advance parse
              (o.parser parse (st.configs sys.config)).1) j1 sys1 k1 o1
            (callParser parse j sys k o st).2).2) ∧
    (∀ (c : Int) (st1 : ParseState C),
      cnMain_ParseCommandLine_scan parse 0 systems st = .ok (c, st1) → 0 < c →
      (∃ earlier call, st1.calls = st.calls ++ earlier ++ [call] ∧ call.ret = c ∧
        call.index = parse.index ∧ ∀ e ∈ earlier, e.ret = 0) ∧
      cnMain_ParseCommandLine_loop systems (fuel + 1) parse st =
        cnMain_ParseCommandLine_loop systems fuel (cnCommandLineParse_Advance parse c) st1 ∧
      ((cnCommandLineParse_Advance parse c).index : Int) = parse.index + c) ∧
    (∀ (configs : Nat → C) (argc : Nat) (argv : List String),
      (∃ res, cnMain_ParseCommandLine systems configs argc argv = some res) ∧
      ∀ r, cnMain_ParseCommandLine systems configs argc argv = some (.ok r) →
        r.parse.index = 1 + consumedBy r.calls) := by
  have step : ∀ (fuel : Nat) (parse : CnCommandLineParse) (st : ParseState C) (t : String)
      (j : Nat) (sys : CnSystem C) (k : Nat) (o : CnCommandLineOption C),
      parse.index < parse.argc → parse.argv[parse.index]? = some t →
      firstSystem t 0 systems = some (j, sys, k, o) →
      0 < (o.parser parse (st.configs sys.config)).1 →
      cnMain_ParseCommandLine_loop systems (fuel + 1) parse st =
        cnMain_ParseCommandLine_loop systems fuel
          (cnCommandLineParse_Advance parse (o.parser parse (st.configs sys.config)).1)
          (callParser parse j sys k o st).2 := by
    intro fuel parse st t j sys k o hc ht hfirst hret
    have hc1 : cnCommandLineParse_ShouldContinue parse = true := by
      simp [cnCommandLineParse_ShouldContinue, hc]
    have ht1 : cnCommandLineParse_LookAhead parse 1 = some t := by
      rw [lookAhead_one]; exact ht
    have hscan := scan_some parse t hc1 ht1 systems 0 st j sys k o hfirst (ne_of_gt hret)
    simp only [cnMain_ParseCommandLine_loop, hc1, hscan, ↓reduceIte]
    have hnle : ¬ (callParser parse j sys k o st).1 ≤ 0 := not_le.2 hret
    rw [if_neg hnle]
    rfl
  refine ⟨step fuel parse st t j sys k o hc ht hfirst hret, ?_, ?_, ?_, ?_⟩
  · simp only [cnCommandLineParse_Advance]
    omega
  · intro t1 j1 sys1 k1 o1 hc1 ht1 hfirst1 hret1
    rw [step (fuel + 1) parse st t j sys k o hc ht hfirst hret]
    exact step fuel _ _ t1 j1 sys1 k1 o1 hc1 ht1 hfirst1 hret1
  · intro c st1 hscan hpos
    refine ⟨scan_last parse systems 0 st c st1 hscan (ne_of_gt hpos), ?_, ?_⟩
    · have hc1 : cnCommandLineParse_ShouldContinue parse = true := by
        simp [cnCommandLineParse_ShouldContinue, hc]
      simp only [cnMain_ParseCommandLine_loop, hc1, hscan, ↓reduceIte]
      rw [if_neg (not_le.2 hpos)]
    · simp only [cnCommandLineParse_Advance]
      omega
  · intro configs argc argv
    constructor
    · unfold cnMain_ParseCommandLine
      by_cases h1 : argc < 1
      · exact ⟨_, by simp only [h1, ↓reduceIte]; rfl⟩
      · simp only [h1, ↓reduceIte]
        cases hd : cnMain_ParseCommandLine_defaults systems configs with
        | error e => exact ⟨_, rfl⟩
        | ok cfgD =>
          exact loop_total systems argc _ _ (by simp [cnCommandLineParse_Make])
    · intro r hr
      unfold cnMain_ParseCommandLine at hr
      by_cases h1 : argc < 1
      · simp [h1] at hr
      · simp only [h1, ↓reduceIte] at hr
        cases hd : cnMain_ParseCommandLine_defaults systems configs with
        | error e => rw [hd] at hr; simp at hr
        | ok cfgD =>
          rw [hd] at hr
          have := loop_index systems argc _ _ r hr
          simpa [cnCommandLineParse_Make, consumedBy, Nat.add_comm] using this

/-- Witness for C8: in `prog -x -t 5 -x` the token `-x` is matched by the
second subsystem, whose handler returns 1; the cursor moves from 1 to 2, and
the token found there, `-t`, is resolved by the first subsystem. -/
theorem cnMain_ParseCommandLine_advance_witness :
    cnMain_ParseCommandLine_loop tickLimitRegistry 5
        ⟨5, ["prog", "-x", "-t", "5", "-x"], 1⟩ ⟨fun _ => 0, []⟩ =
      cnMain_ParseCommandLine_loop tickLimitRegistry 3
        ⟨5, ["prog", "-x", "-t", "5", "-x"], 4⟩
        ⟨Function.update (Function.update (fun _ => 0) 1 0) 0 1,
         [⟨1, 0, 1, 1, 1⟩, ⟨0, 0, 0, 2, 2⟩]⟩ :=
  (cnMain_ParseCommandLine_advance tickLimitRegistry 3
    ⟨5, ["prog", "-x", "-t", "5", "-x"], 1⟩ ⟨fun _ => 0, []⟩ "-x"
    1 (exampleSystem 1 [constOption "-x" 1]) 0 (constOption "-x" 1)
    (by decide) rfl rfl (by decide)).2.2.1 "-t" 0 (exampleSystem 0 [argOption]) 0 argOption
    (by decide) rfl rfl (by decide)

/-- C9, as stated, fails: two subsystems declare `-x` and the handler of the
first returns 0; for the single token `-x` of `["prog", "-x"]` the handler of
the later subsystem is invoked as well. -/
theorem option_resolution_counterexample :
    firstSystem "-x" 0 zeroFirstRegistry =
      some (0, exampleSystem 0 [constOption "-x" 0], 0, constOption "-x" 0) ∧
    parseSummary (cnMain_ParseCommandLine zeroFirstRegistry (fun _ => 5) 2 ["prog", "-x"]) =
      some (some { ret := true, index := 2, calls := [⟨0, 0, 0, 1, 0⟩, ⟨1, 0, 1, 1, 1⟩],
                   unparsed := none }) :=
  ⟨rfl, by decide⟩

/-- C9, amended: option resolution is first-match-wins in registration order.
For the token at the cursor, the first handler invoked is that of the first
option, in option-list order, of the first subsystem, in registration order,
whose short or long flag equals the token, and it is invoked with that
subsystem's own configuration block; when it returns a non-zero value it is
the only handler invoked for the token, so that a later subsystem declaring
the same flag is asked only after the earlier handler returned 0.  When no
option matches, no handler is invoked. -/
theorem option_resolution_first_match {C : Type} (systems : List (CnSystem C))
    (parse : CnCommandLineParse) (st : ParseState C) (t : String)
    (hc : parse.index < parse.argc) (ht : parse.argv[parse.index]? = some t) :
    (firstSystem t 0 systems = none →
      cnMain_ParseCommandLine_scan parse 0 systems st = .ok (0, st)) ∧
    (∀ (j : Nat) (sys : CnSystem C) (k : Nat) (o : CnCommandLineOption C),
      firstSystem t 0 systems = some (j, sys, k, o) →
      (systems[j]? = some sys ∧ sys.options[k]? = some o ∧
        (o.shortOption = some t ∨ o.longOption = some t) ∧
        (∀ k0, k0 < k → ∀ o0, sys.options[k0]? = some o0 →
          ¬ (o0.shortOption = some t ∨ o0.longOption = some t)) ∧
        (∀ j0, j0 < j → ∀ s0, systems[j0]? = some s0 → ∀ o0 ∈ s0.options,
          ¬ (o0.shortOption = some t ∨ o0.longOption = some t))) ∧
      (∃ c st1 more, cnMain_ParseCommandLine_scan parse 0 systems st = .ok (c, st1) ∧
        st1.calls = st.calls ++
          { system := j, option := k, config := sys.config, index := parse.index,
            ret := (o.parser parse (st.configs sys.config)).1 } :: more) ∧
      ((o.parser parse (st.configs sys.config)).1 ≠ 0 →
        cnMain_ParseCommandLine_scan parse 0 systems st =
          .ok ((o.parser parse (st.configs sys.config)).1,
            { configs := Function.update st.configs sys.config
                (o.parser parse (st.configs sys.config)).2,
              calls := st.calls ++
                [{ system := j, option := k, config := sys.config, index := parse.index,
                   ret := (o.parser parse (st.configs sys.config)).1 }] }))) := by
  have hc1 : cnCommandLineParse_ShouldContinue parse = true := by
    simp [cnCommandLineParse_ShouldContinue, hc]
  have ht1 : cnCommandLineParse_LookAhead parse 1 = some t := by
    rw [lookAhead_one]; exact ht
  have hflag : ∀ o0 : CnCommandLineOption C, flagEquals o0 t = false →
      ¬ (o0.shortOption = some t ∨ o0.longOption = some t) := by
    intro o0 h; simpa [flagEquals] using h
  refine ⟨scan_none parse t hc1 ht1 systems 0 st, ?_⟩
  intro j sys k o hfirst
  obtain ⟨_, hsys, hopt, hearlier⟩ := firstSystem_some t systems 0 j sys k o hfirst
  obtain ⟨_, hk, hflagk, hbefore⟩ := firstOption_some t sys.options 0 k o hopt
  refine ⟨⟨by simpa using hsys, by simpa using hk, by simpa [flagEquals] using hflagk, ?_, ?_⟩,
    scan_first_call parse t hc1 ht1 systems 0 st j sys k o hfirst, ?_⟩
  · intro k0 hk0 o0 ho0
    exact hflag o0 (hbefore k0 (by omega) o0 ho0)
  · intro j0 hj0 s0 hs0 o0 ho0
    exact hflag o0 (hearlier j0 (by omega) s0 hs0 o0 ho0)
  · intro hret
    exact scan_some parse t hc1 ht1 systems 0 st j sys k o hfirst hret

/-- Witness for C9: two subsystems declare `-x` and both handlers succeed; for
the token `-x` only the first subsystem's handler runs, on the block at its
own configuration address 0. -/
theorem option_resolution_first_match_witness :
    (cnMain_ParseCommandLine_scan ⟨2, ["prog", "-x"], 1⟩ 0 sharedFlagRegistry
        ⟨fun _ => 0, []⟩).toOption.map (fun p => (p.1, p.2.calls)) =
      some (1, [⟨0, 0, 0, 1, 1⟩]) :=
  congrArg (fun r => r.toOption.map (fun p => (p.1, p.2.calls)))
    (((option_resolution_first_match sharedFlagRegistry ⟨2, ["prog", "-x"], 1⟩
      ⟨fun _ => 0, []⟩ "-x" (by decide) rfl).2
      0 (exampleSystem 0 [constOption "-x" 1]) 0 (constOption "-x" 1) rfl).2.2 (by decide))

/-- C10: with a next unconsumed token `token` at the cursor,
`cnCommandLineOption_Matches` returns true if and only if `token` is equal,
character for character, to the option's non-null short flag or to its
non-null long flag, and returns false otherwise.  In particular an option with
both flags null never matches, and neither does a token that, for each of the
option's flags, is a proper prefix of the flag or the flag followed by more
characters (`=value`, further clustered letters). -/
theorem cnCommandLineOption_Matches_exact {C : Type} (option : CnCommandLineOption C)
    (parse : CnCommandLineParse) (token : String)
    (hc : parse.index < parse.argc) (ht : parse.argv[parse.index]? = some token) :
    (cnCommandLineOption_Matches option parse = .ok true ↔
      (option.shortOption = some token ∨ option.longOption = some token)) ∧
    (¬ (option.shortOption = some token ∨ option.longOption = some token) →
      cnCommandLineOption_Matches option parse = .ok false) ∧
    (option.shortOption = none → option.longOption = none →
      cnCommandLineOption_Matches option parse = .ok false) ∧
    ((∀ flag, (option.shortOption = some flag ∨ option.longOption = some flag) →
        ∃ s, s ≠ "" ∧ (flag = token ++ s ∨ token = flag ++ s)) →
      cnCommandLineOption_Matches option parse = .ok false) := by
  have hc1 : cnCommandLineParse_ShouldContinue parse = true := by
    simp [cnCommandLineParse_ShouldContinue, hc]
  have ht1 : cnCommandLineParse_LookAhead parse 1 = some token := by
    rw [lookAhead_one]; exact ht
  have hm := matches_eq_flagEquals option parse token hc1 ht1
  have hfalse : ¬ (option.shortOption = some token ∨ option.longOption = some token) →
      cnCommandLineOption_Matches option parse = .ok false := by
    intro h
    rw [hm]; simp [flagEquals, h]
  refine ⟨?_, hfalse, ?_, ?_⟩
  · rw [hm]; simp [flagEquals]
  · intro hs hl
    apply hfalse
    simp [hs, hl]
  · intro h
    apply hfalse
    intro hflag
    obtain ⟨s, hs, hcase⟩ := h token hflag
    rcases hcase with h1 | h1
    · exact string_append_ne_self token s hs h1.symm
    · exact string_append_ne_self token s hs h1.symm

/-- Witness for C10: `-t=5` does not match `-t,--tick-limit`, `--tick-limit`
does. -/
theorem cnCommandLineOption_Matches_exact_witness :
    cnCommandLineOption_Matches argOption ⟨3, ["prog", "-t=5", "x"], 1⟩ = .ok false ∧
    cnCommandLineOption_Matches argOption ⟨2, ["prog", "--tick-limit"], 1⟩ = .ok true :=
  ⟨(cnCommandLineOption_Matches_exact argOption ⟨3, ["prog", "-t=5", "x"], 1⟩ "-t=5"
      (by decide) rfl).2.1 (by decide),
   (cnCommandLineOption_Matches_exact argOption ⟨2, ["prog", "--tick-limit"], 1⟩ "--tick-limit"
      (by decide) rfl).1.2 (Or.inr rfl)⟩

/-! ## The payload contract and the registry: the claims -/

/-- C17, as stated, fails: on a payload whose `init`, `draw` and `tick` are
present and whose `shutdown` is absent, `cnMain_ValidatePayload` does not
return; it ends in the fatal error for the missing shutdown function. -/
theorem cnMain_ValidatePayload_missing_shutdown_counterexample :
    payloadWithoutShutdown.init.isSome = true ∧ payloadWithoutShutdown.draw.isSome = true ∧
    payloadWithoutShutdown.tick.isSome = true ∧ payloadWithoutShutdown.shutdown = none ∧
    cnMain_ValidatePayload (some payloadWithoutShutdown) =
      .error "CnPlugin_ShutdownFn function missing in payload." ∧
    ¬ ∃ p, cnMain_ValidatePayload (some payloadWithoutShutdown) = .ok p := by
  refine ⟨rfl, rfl, rfl, rfl, rfl, ?_⟩
  rintro ⟨p, hp⟩
  have h : cnMain_ValidatePayload (some payloadWithoutShutdown) =
      .error "CnPlugin_ShutdownFn function missing in payload." := rfl
  rw [h] at hp
  cases hp

/-- C17, amended: `cnMain_ValidatePayload` on a payload whose `init`, `draw`
and `tick` are present but whose `shutdown` is absent terminates fatally,
naming the shutdown function: a missing shutdown is fatal. -/
theorem cnMain_ValidatePayload_missing_shutdown (payload : CnPlugin)
    (hinit : payload.init ≠ none) (hdraw : payload.draw ≠ none) (htick : payload.tick ≠ none)
    (hshutdown : payload.shutdown = none) :
    cnMain_ValidatePayload (some payload) =
      .error "CnPlugin_ShutdownFn function missing in payload." := by
  cases hi : payload.init with
  | none => exact absurd hi hinit
  | some a =>
    cases hd : payload.draw with
    | none => exact absurd hd hdraw
    | some b =>
      cases ht : payload.tick with
      | none => exact absurd ht htick
      | some c => simp [cnMain_ValidatePayload, hi, hd, ht, hshutdown]

/-- Witness for C17: `init`, `tick` and `draw` set, `shutdown` NULL. -/
theorem cnMain_ValidatePayload_missing_shutdown_witness :
    cnMain_ValidatePayload (some payloadWithoutShutdown) =
      .error "CnPlugin_ShutdownFn function missing in payload." :=
  cnMain_ValidatePayload_missing_shutdown payloadWithoutShutdown
    (by decide) (by decide) (by decide) rfl

/-- C18: `cnMain_ValidatePayload` returns normally if and only if the payload
is complete, that is `init`, `tick`, `draw` and `shutdown` are all non-null.
For every payload with at least one of the four absent it ends in a fatal
error, which names the first missing one in the order init, draw, tick,
shutdown.  It never modifies the payload: what it returns with is the payload
it was given. -/
theorem cnMain_ValidatePayload_iff_complete (payload : CnPlugin) :
    ((∃ p, cnMain_ValidatePayload (some payload) = .ok p) ↔
      (payload.init ≠ none ∧ payload.tick ≠ none ∧ payload.draw ≠ none ∧
        payload.shutdown ≠ none)) ∧
    ((∃ p, cnMain_ValidatePayload (some payload) = .ok p) ↔
      cnPlugin_IsComplete payload = true) ∧
    ((payload.init = none ∨ payload.tick = none ∨ payload.draw = none ∨
        payload.shutdown = none) →
      ∃ e, cnMain_ValidatePayload (some payload) = .error e) ∧
    (payload.init = none →
      cnMain_ValidatePayload (some payload) =
        .error "CnPlugin_Init function missing in payload.") ∧
    (payload.init ≠ none → payload.draw = none →
      cnMain_ValidatePayload (some payload) =
        .error "CnPlugin_DrawFn function missing in payload.") ∧
    (payload.init ≠ none → payload.draw ≠ none → payload.tick = none →
      cnMain_ValidatePayload (some payload) =
        .error "CnPlugin_TickFn function missing in payload.") ∧
    (payload.init ≠ none → payload.draw ≠ none → payload.tick ≠ none →
      payload.shutdown = none →
      cnMain_ValidatePayload (some payload) =
        .error "CnPlugin_ShutdownFn function missing in payload.") ∧
    (∀ p, cnMain_ValidatePayload (some payload) = .ok p → p = payload) := by
  obtain ⟨i, sd, t, d, lib⟩ := payload
  cases i <;> cases sd <;> cases t <;> cases d <;>
    simp [cnMain_ValidatePayload, cnPlugin_IsComplete]

/-- C19, as stated, fails: built from an empty registry, the core subsystem
list starts with the main subsystem and has the time subsystem in fifth
place; it is not in the order time, logging, crash-handling, memory, assets,
main. -/
theorem cnMain_BuildCoreSystemList_order_counterexample :
    (cnMain_BuildCoreSystemList exampleEnv exampleFns []).toOption.map
        (fun systems => systems.map fun system => system.name) =
      some [some "Main", some "Log", some "Crash", some "Mem", some "Time", some "Assets"] ∧
    (cnMain_BuildCoreSystemList exampleEnv exampleFns []).toOption.map
        (fun systems => systems.map fun system => system.name) ≠
      some [some "Time", some "Log", some "Crash", some "Mem", some "Assets", some "Main"] := by
  constructor
  · rfl
  · intro h
    have h1 : (cnMain_BuildCoreSystemList exampleEnv exampleFns []).toOption.map
        (fun systems => systems.map fun system => system.name) =
      some [some "Main", some "Log", some "Crash", some "Mem", some "Time", some "Assets"] := rfl
    rw [h1] at h
    exact absurd h (by decide)

/-- C19, amended: building the core subsystem list from an empty registry
registers the subsystems in the fixed order main, logging, crash-handling,
memory, time, assets. -/
theorem cnMain_BuildCoreSystemList_order (env : Env) (fns : CoreSystemFns) :
    cnMain_BuildCoreSystemList env fns [] =
      .ok [cnMain_System env, fns.cnLog_System, fns.cnCrash_System, fns.cnMem_System,
           fns.cnTime_System, fns.cnAssets_System] := by
  rfl

/-- C20: for every registry holding `n < 16` descriptors,
`cnMain_AddCoreSystem` stores the new descriptor at position `n`, makes the
count `n + 1` and leaves positions `0 .. n-1` unchanged; when the registry
already holds 16 descriptors the call is fatal and no registry results.  So
the count never exceeds 16: whatever descriptors are added one after the
other to a registry of at most 16, every registry obtained has at most 16. -/
theorem cnMain_AddCoreSystem_appends {C : Type} (s_coreSystems : List (CnSystem C))
    (system : CnSystem C) :
    (s_coreSystems.length < 16 →
      ∃ added, cnMain_AddCoreSystem s_coreSystems system = .ok added ∧
        added[s_coreSystems.length]? = some system ∧
        added.length = s_coreSystems.length + 1 ∧
        ∀ i, i < s_coreSystems.length → added[i]? = s_coreSystems[i]?) ∧
    (s_coreSystems.length = 16 →
      cnMain_AddCoreSystem s_coreSystems system = .error "Too many core systems added.") ∧
    (∀ (systems built : List (CnSystem C)), s_coreSystems.length ≤ 16 →
      cnMain_BuildCoreSystemList_from systems s_coreSystems = .ok built →
      built.length ≤ 16 ∧ built = s_coreSystems ++ systems) := by
  refine ⟨?_, ?_, ?_⟩
  · intro h
    refine ⟨s_coreSystems ++ [system], ?_, ?_, ?_, ?_⟩
    · simp [cnMain_AddCoreSystem, CnMaxNumCoreSystems, h]
    · simp
    · simp
    · intro i hi
      exact List.getElem?_append_left hi
  · intro h
    simp [cnMain_AddCoreSystem, CnMaxNumCoreSystems, h]
  · intro systems
    induction systems generalizing s_coreSystems with
    | nil =>
      intro built hlen h
      simp only [cnMain_BuildCoreSystemList_from, Except.ok.injEq] at h
      subst h
      exact ⟨hlen, by simp⟩
    | cons a rest ih =>
      intro built hlen h
      simp only [cnMain_BuildCoreSystemList_from, cnMain_AddCoreSystem,
        CnMaxNumCoreSystems] at h
      by_cases hlt : s_coreSystems.length < 16
      · simp only [hlt, ↓reduceIte] at h
        obtain ⟨h1, h2⟩ := ih (s_coreSystems ++ [a]) built (by simp; omega) h
        exact ⟨h1, by simpa using h2⟩
      · simp [hlt] at h

/-- Witness for C20: a descriptor added to the registry of two, and to a full
registry. -/
theorem cnMain_AddCoreSystem_appends_witness :
    (∃ added, cnMain_AddCoreSystem tickLimitRegistry (exampleSystem 7 []) = .ok added ∧
      added.length = 3) ∧
    cnMain_AddCoreSystem (List.replicate 16 (exampleSystem 7 [])) (exampleSystem 8 []) =
      .error "Too many core systems added." := by
  have h1 := (cnMain_AddCoreSystem_appends tickLimitRegistry (exampleSystem 7 [])).1 (by decide)
  have h2 := (cnMain_AddCoreSystem_appends (List.replicate 16 (exampleSystem 7 []))
    (exampleSystem 8 [])).2.1 (by simp)
  obtain ⟨added, ha, _, hl, _⟩ := h1
  exact ⟨⟨added, ha, hl⟩, h2⟩

/-! ## Handler errors and the options of the main subsystem: the claims -/

/-- C11: if the handler of the matched option (the one option resolution
picks for the token at the cursor) returns a negative value, the iteration of
`cnMain_ParseCommandLine` returns false at once: the cursor is where it was,
the token and its index are reported, the failing invocation is the last one
recorded (no later subsystem is asked about the token, no later token is
parsed).  The same holds for whichever handler ends the scan of the registry
with a negative value, and for a whole parse whose earlier tokens were
consumed by successful handlers. -/
theorem cnMain_ParseCommandLine_handler_error {C : Type} (systems : List (CnSystem C))
    (fuel : Nat) (parse : CnCommandLineParse) (st : ParseState C) (t : String)
    (j : Nat) (sys : CnSystem C) (k : Nat) (o : CnCommandLineOption C)
    (hc : parse.index < parse.argc) (ht : parse.argv[parse.index]? = some t)
    (hfirst : firstSystem t 0 systems = some (j, sys, k, o))
    (hret : (o.parser parse (st.configs sys.config)).1 < 0) :
    cnMain_ParseCommandLine_loop systems (fuel + 1) parse st =
      some (.ok { ret := false, parse := parse,
                  configs := Function.update st.configs sys.config
                    (o.parser parse (st.configs sys.config)).2,
                  calls := st.calls ++
                    [{ system := j, option := k, config := sys.config, index := parse.index,
                       ret := (o.parser parse (st.configs sys.config)).1 }],
                  unparsed := some (some t, parse.index) }) ∧
    (∀ (c : Int) (st1 : ParseState C),
      cnMain_ParseCommandLine_scan parse 0 systems st = .ok (c, st1) → c < 0 →
      cnMain_ParseCommandLine_loop systems (fuel + 1) parse st =
        some (.ok { ret := false, parse := parse, configs := st1.configs, calls := st1.calls,
                    unparsed := some (some t, parse.index) }) ∧
      ∃ earlier call, st1.calls = st.calls ++ earlier ++ [call] ∧ call.ret = c ∧
        call.index = parse.index ∧ ∀ e ∈ earlier, e.ret = 0) ∧
    (∀ (configs cfgD cfgK : Nat → C) (argv : List String) (at_ : Nat) (token : String)
      (j1 : Nat) (sys1 : CnSystem C) (i1 : Nat) (o1 : CnCommandLineOption C),
      cnMain_ParseCommandLine_defaults systems configs = .ok cfgD →
      ResolvedGroups systems argv.length argv 1 cfgD at_ cfgK →
      argv[at_]? = some token →
      firstSystem token 0 systems = some (j1, sys1, i1, o1) →
      (o1.parser ⟨argv.length, argv, at_⟩ (cfgK sys1.config)).1 < 0 →
      ∃ r before, cnMain_ParseCommandLine systems configs argv.length argv = some (.ok r) ∧
        r.ret = false ∧ r.parse.index = at_ ∧ r.unparsed = some (some token, at_) ∧
        r.calls = before ++
          [{ system := j1, option := i1, config := sys1.config, index := at_,
             ret := (o1.parser ⟨argv.length, argv, at_⟩ (cfgK sys1.config)).1 }] ∧
        ∀ call ∈ before, call.index < at_) := by
  have hc1 : cnCommandLineParse_ShouldContinue parse = true := by
    simp [cnCommandLineParse_ShouldContinue, hc]
  have ht1 : cnCommandLineParse_LookAhead parse 1 = some t := by
    rw [lookAhead_one]; exact ht
  have hfail : ∀ (c : Int) (st1 : ParseState C),
      cnMain_ParseCommandLine_scan parse 0 systems st = .ok (c, st1) → c < 0 →
      cnMain_ParseCommandLine_loop systems (fuel + 1) parse st =
        some (.ok { ret := false, parse := parse, configs := st1.configs, calls := st1.calls,
                    unparsed := some (some t, parse.index) }) := by
    intro c st1 hscan hneg
    simp only [cnMain_ParseCommandLine_loop, hc1, hscan, ↓reduceIte]
    rw [if_pos (le_of_lt hneg)]
    simp [parseFailed, ht1, cnCommandLineParse_LookAheadIndex]
  refine ⟨?_, ?_, ?_⟩
  · have hscan := scan_some parse t hc1 ht1 systems 0 st j sys k o hfirst (ne_of_lt hret)
    rw [hfail _ _ hscan hret]
  · intro c st1 hscan hneg
    exact ⟨hfail c st1 hscan hneg, scan_last parse systems 0 st c st1 hscan (ne_of_lt hneg)⟩
  · intro configs cfgD cfgK argv at_ token j1 sys1 i1 o1 hdef hgroups htoken hfirst1 hret1
    obtain ⟨r, before, h1, h2, h3, h4, _, h6, h7⟩ := parse_fails_at_handler systems configs
      cfgD cfgK argv at_ token j1 sys1 i1 o1 hdef hgroups htoken hfirst1 hret1
    exact ⟨r, before, h1, h2, h3, h4, h6, h7⟩

/-- Witness for C11: the first subsystem's handler for `-x` returns -1. -/
theorem cnMain_ParseCommandLine_handler_error_witness :
    parseSummary (cnMain_ParseCommandLine_loop failingFirstRegistry 1
        ⟨2, ["prog", "-x"], 1⟩ ⟨fun _ => 0, []⟩) =
      some (some { ret := false, index := 1, calls := [⟨0, 0, 0, 1, -1⟩],
                   unparsed := some (some "-x", 1) }) := by
  rw [(cnMain_ParseCommandLine_handler_error failingFirstRegistry 0
    ⟨2, ["prog", "-x"], 1⟩ ⟨fun _ => 0, []⟩ "-x" 0 (exampleSystem 0 [constOption "-x" (-1)]) 0
    (constOption "-x" (-1)) (by decide) rfl rfl (by decide)).1]
  rfl

/-- C12: when `-g`/`--game` or `-t`/`--tick-limit` is the last token of the
argument vector, its handler returns the parse-error sentinel, a negative
value, without reading any position of the vector and without changing the
main configuration; the parse then fails, returning false with that flag and
its index reported, instead of crashing. -/
theorem main_options_need_argument (env : Env) (parse : CnCommandLineParse)
    (config : CnMainConfig) (hlast : parse.index + 1 = parse.argc) :
    cnMain_OptionPayload env parse config =
      { ret := CnOptionParseError, config := config,
        printed := ["Payload must be provided a shared library (or DLL) to load\n"],
        reads := [] } ∧
    cnMain_OptionTickLimit env parse config =
      { ret := CnOptionParseError, config := config,
        printed := ["Must provide the number of ticks for which to run the program.\n"],
        reads := [] } ∧
    CnOptionParseError < 0 ∧
    (∀ (others : List (CnSystem CnMainConfig)) (configs cfgD cfgK : Nat → CnMainConfig)
      (argv : List String) (k : Nat) (flag : String),
      (flag = "-g" ∨ flag = "--game" ∨ flag = "-t" ∨ flag = "--tick-limit") →
      cnMain_ParseCommandLine_defaults (cnMain_System env :: others) configs = .ok cfgD →
      ResolvedGroups (cnMain_System env :: others) argv.length argv 1 cfgD k cfgK →
      argv[k]? = some flag → k + 1 = argv.length →
      ∃ r, cnMain_ParseCommandLine (cnMain_System env :: others) configs argv.length argv =
          some (.ok r) ∧
        r.ret = false ∧ r.parse.index = k ∧ r.unparsed = some (some flag, k) ∧
        r.configs cnMain_Config = cfgK cnMain_Config) := by
  obtain ⟨h1, h2⟩ := options_without_argument env parse config (by omega)
  refine ⟨h1, h2, by decide, ?_⟩
  intro others configs cfgD cfgK argv k flag hflag hdef hgroups htoken hk
  obtain ⟨hg, htl⟩ := firstSystem_main env others
  have hno := options_without_argument env ⟨argv.length, argv, k⟩
    (cfgK (cnMain_System env).config) (by show argv.length < k + 2; omega)
  have hsentinel : CnOptionParseError < 0 := by decide
  have main : ∀ o i, firstSystem flag 0 (cnMain_System env :: others) =
        some (0, cnMain_System env, i, o) →
      (o.parser ⟨argv.length, argv, k⟩ (cfgK (cnMain_System env).config)).1 < 0 →
      (o.parser ⟨argv.length, argv, k⟩ (cfgK (cnMain_System env).config)).2 =
        cfgK (cnMain_System env).config →
      ∃ r, cnMain_ParseCommandLine (cnMain_System env :: others) configs argv.length argv =
          some (.ok r) ∧
        r.ret = false ∧ r.parse.index = k ∧ r.unparsed = some (some flag, k) ∧
        r.configs cnMain_Config = cfgK cnMain_Config := by
    intro o i hfirst hret hcfg
    obtain ⟨r, before, r1, r2, r3, r4, r5, _, _⟩ := parse_fails_at_handler
      (cnMain_System env :: others) configs cfgD cfgK argv k flag 0 (cnMain_System env) i o
      hdef hgroups htoken hfirst hret
    refine ⟨r, r1, r2, r3, r4, ?_⟩
    rw [r5, hcfg]
    simp
  rcases hflag with hf | hf | hf | hf
  · obtain ⟨o, ho1, ho2⟩ := hg flag (Or.inl hf)
    refine main o 0 ho1 ?_ ?_ <;> rw [ho2] <;> simp only [hno.1]
    exact hsentinel
  · obtain ⟨o, ho1, ho2⟩ := hg flag (Or.inr hf)
    refine main o 0 ho1 ?_ ?_ <;> rw [ho2] <;> simp only [hno.1]
    exact hsentinel
  · obtain ⟨o, ho1, ho2⟩ := htl flag (Or.inl hf)
    refine main o 1 ho1 ?_ ?_ <;> rw [ho2] <;> simp only [hno.2]
    exact hsentinel
  · obtain ⟨o, ho1, ho2⟩ := htl flag (Or.inr hf)
    refine main o 1 ho1 ?_ ?_ <;> rw [ho2] <;> simp only [hno.2]
    exact hsentinel

/-- Witness for C12: `prog -t` and `prog --game`, the flag being the last
token. -/
theorem main_options_need_argument_witness :
    (cnMain_OptionTickLimit exampleEnv ⟨2, ["prog", "-t"], 1⟩ exampleConfig).ret = -1 ∧
    (cnMain_OptionTickLimit exampleEnv ⟨2, ["prog", "-t"], 1⟩ exampleConfig).config =
      exampleConfig ∧
    (cnMain_OptionPayload exampleEnv ⟨2, ["prog", "--game"], 1⟩ exampleConfig).reads = [] := by
  have h1 := main_options_need_argument exampleEnv ⟨2, ["prog", "-t"], 1⟩ exampleConfig rfl
  have h2 := main_options_need_argument exampleEnv ⟨2, ["prog", "--game"], 1⟩ exampleConfig rfl
  refine ⟨?_, ?_, ?_⟩
  · rw [h1.2.1]; rfl
  · rw [h1.2.1]
  · rw [h2.1]

/-- C13: for every tick-limit argument that denotes a negative number, and
for every argument with a character left over after its numeric prefix (the
part `strtoll` converts), `cnMain_OptionTickLimit` returns the parse-error
sentinel and leaves the configuration, the tick limit included, unchanged.
A negative number is reported as negative ("Cannot step a negative number of
ticks"), with or without trailing characters; trailing characters after a
number that is not negative are reported as unparseable ("Unable to parse
tick limit").  Spelled out on the string, for white space `ws`, a non-empty
run of digits and a tail that starts with something other than a digit: the
argument `ws - digits tail` is reported as negative when the digits are not
all zero, and the arguments `ws digits tail` and `ws + digits tail` are
reported as unparseable when the tail is not empty. -/
theorem cnMain_OptionTickLimit_rejects (env : Env) (parse : CnCommandLineParse)
    (config : CnMainConfig) (tickString : String)
    (hla : parse.index + 2 ≤ parse.argc)
    (harg : parse.argv[parse.index + 1]? = some tickString) :
    ((strtoll tickString.toList env.errno).value < 0 →
      cnMain_OptionTickLimit env parse config =
        { ret := CnOptionParseError, config := config,
          printed := ["Cannot step a negative number of ticks: " ++ tickString ++ "\n"],
          reads := [parse.index + 1] }) ∧
    ((strtoll tickString.toList env.errno).endptr ≠ [] →
      0 ≤ (strtoll tickString.toList env.errno).value →
      cnMain_OptionTickLimit env parse config =
        { ret := CnOptionParseError, config := config,
          printed := ["Unable to parse tick limit: " ++ tickString ++ "\n"],
          reads := [parse.index + 1] }) ∧
    (((strtoll tickString.toList env.errno).value < 0 ∨
        (strtoll tickString.toList env.errno).endptr ≠ []) →
      (cnMain_OptionTickLimit env parse config).ret = CnOptionParseError ∧
      (cnMain_OptionTickLimit env parse config).config = config ∧
      (cnMain_OptionTickLimit env parse config).config.tickLimit = config.tickLimit) ∧
    (∀ ws digits tail : List Char, (∀ c ∈ ws, isspace c = true) → digits ≠ [] →
      (∀ c ∈ digits, c.isDigit = true) → decimalValue digits ≠ 0 →
      (∀ c, tail.head? = some c → c.isDigit = false) →
      tickString.toList = ws ++ ['-'] ++ digits ++ tail →
      cnMain_OptionTickLimit env parse config =
        { ret := CnOptionParseError, config := config,
          printed := ["Cannot step a negative number of ticks: " ++ tickString ++ "\n"],
          reads := [parse.index + 1] }) ∧
    (∀ ws sign digits tail : List Char, (∀ c ∈ ws, isspace c = true) →
      (sign = [] ∨ sign = ['+']) → digits ≠ [] →
      (∀ c ∈ digits, c.isDigit = true) → tail ≠ [] →
      (∀ c, tail.head? = some c → c.isDigit = false) →
      tickString.toList = ws ++ sign ++ digits ++ tail →
      cnMain_OptionTickLimit env parse config =
        { ret := CnOptionParseError, config := config,
          printed := ["Unable to parse tick limit: " ++ tickString ++ "\n"],
          reads := [parse.index + 1] }) := by
  obtain ⟨hneg, hbad, _⟩ := optionTickLimit_cases env parse config tickString hla harg
  refine ⟨hneg, fun h1 h2 => hbad h2 (Or.inl h1), ?_, ?_, ?_⟩
  · intro h
    by_cases hv : (strtoll tickString.toList env.errno).value < 0
    · rw [hneg hv]; exact ⟨rfl, rfl, rfl⟩
    · have hend : (strtoll tickString.toList env.errno).endptr ≠ [] := by
        rcases h with h | h
        · exact absurd h hv
        · exact h
      rw [hbad (not_lt.1 hv) (Or.inl hend)]; exact ⟨rfl, rfl, rfl⟩
  · intro ws digits tail hws hne hdig hval htail hs
    apply hneg
    rw [hs, strtoll_shape ws ['-'] digits tail env.errno hws (Or.inr (Or.inr rfl)) hne hdig htail]
    exact (strtollOutcome_facts ['-'] digits tail env.errno).2.2.1 rfl hval
  · intro ws sign digits tail hws hsign hne hdig htne htail hs
    have hshape := strtoll_shape ws sign digits tail env.errno hws
      (by rcases hsign with h | h
          · exact Or.inl h
          · exact Or.inr (Or.inl h)) hne hdig htail
    have hnot : sign ≠ ['-'] := by
      rcases hsign with h | h <;> rw [h] <;> decide
    obtain ⟨f1, f2, _⟩ := strtollOutcome_facts sign digits tail env.errno
    apply hbad
    · rw [hs, hshape]; exact f2 hnot
    · left
      rw [hs, hshape, f1]; exact htne

/-- Witness for C13: `-5` is reported as negative and `12abc` as unparseable;
the tick limit stays 7. -/
theorem cnMain_OptionTickLimit_rejects_witness :
    cnMain_OptionTickLimit exampleEnv ⟨3, ["prog", "-t", "-5"], 1⟩ exampleConfig =
      { ret := -1, config := exampleConfig,
        printed := ["Cannot step a negative number of ticks: -5\n"], reads := [2] } ∧
    cnMain_OptionTickLimit exampleEnv ⟨3, ["prog", "-t", "12abc"], 1⟩ exampleConfig =
      { ret := -1, config := exampleConfig,
        printed := ["Unable to parse tick limit: 12abc\n"], reads := [2] } :=
  ⟨(cnMain_OptionTickLimit_rejects exampleEnv ⟨3, ["prog", "-t", "-5"], 1⟩ exampleConfig "-5"
      (by decide) rfl).1 (by decide),
   (cnMain_OptionTickLimit_rejects exampleEnv ⟨3, ["prog", "-t", "12abc"], 1⟩ exampleConfig
      "12abc" (by decide) rfl).2.1 (by decide) (by decide)⟩

/-- C14, as stated, fails: the argument ` 5`, with a leading space, is not a
plain run of decimal digits, yet `cnMain_OptionTickLimit` returns 2 and stores
the tick limit 5. -/
theorem cnMain_OptionTickLimit_leading_space_counterexample :
    ¬ PlainDecimal " 5".toList ∧
    cnMain_OptionTickLimit exampleEnv ⟨3, ["prog", "-t", " 5"], 1⟩ exampleConfig =
      { ret := 2, config := { exampleConfig with tickLimit := 5 }, printed := [],
        reads := [2] } := by
  constructor
  · rintro ⟨_, h⟩
    exact absurd (h ' ' (by decide)) (by decide)
  · decide

/-- C14, amended: for every non-empty argument string that is not, after
optional leading white space and an optional sign, a run of decimal digits up
to the end of the string denoting a number from 0 to 2^63 - 1,
`cnMain_OptionTickLimit` returns the parse-error sentinel and does not store a
tick limit: the configuration is unchanged.  In particular digits whose value
is 2^63 or more are reported as unparseable. -/
theorem cnMain_OptionTickLimit_rejects_malformed (env : Env) (parse : CnCommandLineParse)
    (config : CnMainConfig) (tickString : String)
    (hla : parse.index + 2 ≤ parse.argc)
    (harg : parse.argv[parse.index + 1]? = some tickString)
    (hne : tickString.toList ≠ [])
    (hbad : ¬ StrtollNonNegative tickString.toList) :
    (cnMain_OptionTickLimit env parse config).ret = CnOptionParseError ∧
    (cnMain_OptionTickLimit env parse config).config = config ∧
    (∀ digits : List Char, PlainDecimal digits → 2 ^ 63 ≤ decimalValue digits →
      tickString.toList = digits →
      cnMain_OptionTickLimit env parse config =
        { ret := CnOptionParseError, config := config,
          printed := ["Unable to parse tick limit: " ++ tickString ++ "\n"],
          reads := [parse.index + 1] }) := by
  obtain ⟨hneg, hrej, _⟩ := optionTickLimit_cases env parse config tickString hla harg
  have main : (cnMain_OptionTickLimit env parse config).ret = CnOptionParseError ∧
      (cnMain_OptionTickLimit env parse config).config = config := by
    by_cases hv : (strtoll tickString.toList env.errno).value < 0
    · rw [hneg hv]; exact ⟨rfl, rfl⟩
    · by_cases hr : (strtoll tickString.toList env.errno).endptr ≠ [] ∨
          (strtoll tickString.toList env.errno).errno = ERANGE
      · rw [hrej (not_lt.1 hv) hr]; exact ⟨rfl, rfl⟩
      · exfalso
        apply hbad
        have hend : (strtoll tickString.toList env.errno).endptr = [] := by
          by_contra h; exact hr (Or.inl h)
        have herr : (strtoll tickString.toList env.errno).errno ≠ ERANGE :=
          fun h => hr (Or.inr h)
        obtain ⟨ws, sign, digits, hs, hws, hsign, hdne, hdig, hout⟩ :=
          strtoll_decompose tickString.toList env.errno hend hne
        rw [hout] at hv herr
        obtain ⟨g1, g2⟩ := (strtollOutcome_facts sign digits [] env.errno).2.2.2.1
          (not_lt.1 hv) herr
        exact ⟨ws, sign, digits, hs, hws, hsign, hdne, hdig, g1, g2⟩
  refine ⟨main.1, main.2, ?_⟩
  intro digits hplain hbig hs
  have hshape := strtoll_shape [] [] digits [] env.errno (by simp) (Or.inl rfl) hplain.1
    hplain.2 (by simp)
  simp only [List.nil_append, List.append_nil] at hshape
  obtain ⟨_, f2, _, _, f5⟩ := strtollOutcome_facts [] digits [] env.errno
  apply hrej
  · rw [hs, hshape]; exact f2 (by decide)
  · right
    rw [hs, hshape]; exact f5 (by decide) hbig

/-- Witness for C14: `12abc` is rejected and the tick limit stays 7. -/
theorem cnMain_OptionTickLimit_rejects_malformed_witness :
    (cnMain_OptionTickLimit exampleEnv ⟨3, ["prog", "-t", "12abc"], 1⟩ exampleConfig).ret = -1 ∧
    (cnMain_OptionTickLimit exampleEnv ⟨3, ["prog", "-t", "12abc"], 1⟩ exampleConfig).config =
      exampleConfig := by
  have h := cnMain_OptionTickLimit_rejects_malformed exampleEnv
    ⟨3, ["prog", "-t", "12abc"], 1⟩ exampleConfig "12abc" (by decide) rfl (by decide)
    (fun hwf => absurd (strtoll_of_nonNegative "12abc".toList 0 hwf).1 (by decide))
  exact ⟨h.1, h.2.1⟩

/-- `cnMain_OptionTickLimit` on a plain decimal numeral of an integer below
`2^63`: the handler accepts it when `errno` is not `ERANGE` on entry and
rejects it when it is, as `strtoll` leaves `errno` alone on success. -/
theorem optionTickLimit_plain (env : Env) (parse : CnCommandLineParse)
    (config : CnMainConfig) (tickString : String) (n : Nat)
    (hla : parse.index + 2 ≤ parse.argc)
    (harg : parse.argv[parse.index + 1]? = some tickString)
    (hplain : PlainDecimal tickString.toList)
    (hvalue : decimalValue tickString.toList = n)
    (hn : n < 2 ^ 63) :
    (env.errno ≠ ERANGE →
      cnMain_OptionTickLimit env parse config =
        { ret := 2, config := { config with tickLimit := n }, printed := [],
          reads := [parse.index + 1] }) ∧
    (env.errno = ERANGE →
      cnMain_OptionTickLimit env parse config =
        { ret := CnOptionParseError, config := config,
          printed := ["Unable to parse tick limit: " ++ tickString ++ "\n"],
          reads := [parse.index + 1] }) := by
  obtain ⟨_, hbad, hok⟩ := optionTickLimit_cases env parse config tickString hla harg
  have hshape := strtoll_shape [] [] tickString.toList [] env.errno (by simp) (Or.inl rfl)
    hplain.1 hplain.2 (by simp)
  simp only [List.nil_append, List.append_nil] at hshape
  have hsmall : ¬ (LLONG_MAX < (decimalValue tickString.toList : Int)) := by
    unfold LLONG_MAX
    rw [hvalue]
    have h1 : ((n : Nat) : Int) < (((2 : Nat) ^ 63 : Nat) : Int) := by exact_mod_cast hn
    have h2 : (((2 : Nat) ^ 63 : Nat) : Int) = (2 : Int) ^ 63 := by norm_num
    omega
  have hres : strtoll tickString.toList env.errno =
      { value := (n : Int), endptr := [], errno := env.errno } := by
    rw [hshape, (strtollOutcome_plain [] tickString.toList [] env.errno (by decide)).2 hsmall,
      hvalue]
  constructor
  · intro herrno
    rw [hok (by rw [hres]; exact Int.ofNat_nonneg _) (by rw [hres]) (by rw [hres]; exact herrno)]
    rw [hres]
    rfl
  · intro herrno
    exact hbad (by rw [hres]; exact Int.ofNat_nonneg _) (Or.inr (by rw [hres]; exact herrno))

/-- C15: `cnMain_OptionTickLimit` does not accept every plain decimal numeral
of an integer `n` with `0 <= n < 2^63`: it tests `errno == ERANGE` after
`strtoll` without having cleared `errno`, so when `errno` is `ERANGE` on
entry, as an earlier call of the handler on `99999999999999999999` leaves it,
the argument `5` is answered with "Unable to parse tick limit: 5", the
parse-error sentinel and an unchanged main configuration.  With any other
`errno`, 0 at program start among them, every such numeral makes the handler
return 2, set the configured tick limit to `n` and leave the game-library
path and the payload of the main configuration unchanged; with `errno` at
`ERANGE` every such numeral is rejected.  The numeral `toString n` of every
`n` is a plain decimal numeral. -/
theorem cnMain_OptionTickLimit_stale_errno :
    (strtoll "99999999999999999999".toList exampleEnv.errno).errno = ERANGE ∧
    cnMain_OptionTickLimit { exampleEnv with errno := ERANGE } ⟨3, ["prog", "-t", "5"], 1⟩
        exampleConfig =
      { ret := CnOptionParseError, config := exampleConfig,
        printed := ["Unable to parse tick limit: 5\n"], reads := [2] } ∧
    cnMain_OptionTickLimit exampleEnv ⟨3, ["prog", "-t", "5"], 1⟩ exampleConfig =
      { ret := 2, config := { exampleConfig with tickLimit := 5 }, printed := [],
        reads := [2] } ∧
    (∀ (env : Env) (parse : CnCommandLineParse) (config : CnMainConfig) (tickString : String)
        (n : Nat),
      parse.index + 2 ≤ parse.argc →
      parse.argv[parse.index + 1]? = some tickString →
      PlainDecimal tickString.toList →
      decimalValue tickString.toList = n →
      n < 2 ^ 63 →
      (env.errno ≠ ERANGE →
        cnMain_OptionTickLimit env parse config =
          { ret := 2, config := { config with tickLimit := n }, printed := [],
            reads := [parse.index + 1] } ∧
        (cnMain_OptionTickLimit env parse config).config.tickLimit = n ∧
        (cnMain_OptionTickLimit env parse config).config.gameLibPath = config.gameLibPath ∧
        (cnMain_OptionTickLimit env parse config).config.payload = config.payload) ∧
      (env.errno = ERANGE →
        cnMain_OptionTickLimit env parse config =
          { ret := CnOptionParseError, config := config,
            printed := ["Unable to parse tick limit: " ++ tickString ++ "\n"],
            reads := [parse.index + 1] })) ∧
    (∀ m : Nat, PlainDecimal (toString m).toList ∧ decimalValue (toString m).toList = m) := by
  refine ⟨?_, ?_, ?_, ?_, toString_decimal⟩
  · have hshape := strtoll_shape [] [] "99999999999999999999".toList [] exampleEnv.errno
      (by simp) (Or.inl rfl) (by decide) (by decide) (by simp)
    simp only [List.nil_append, List.append_nil] at hshape
    rw [hshape, (strtollOutcome_plain [] "99999999999999999999".toList [] exampleEnv.errno
      (by decide)).1 (by decide)]
  · exact (optionTickLimit_plain { exampleEnv with errno := ERANGE } ⟨3, ["prog", "-t", "5"], 1⟩
      exampleConfig "5" 5 (by decide) rfl ⟨by decide, by decide⟩ (by decide) (by decide)).2 rfl
  · exact (optionTickLimit_plain exampleEnv ⟨3, ["prog", "-t", "5"], 1⟩
      exampleConfig "5" 5 (by decide) rfl ⟨by decide, by decide⟩ (by decide) (by decide)).1
      (by decide)
  · intro env parse config tickString n hla harg hplain hvalue hn
    obtain ⟨hacc, hrej⟩ := optionTickLimit_plain env parse config tickString n hla harg hplain
      hvalue hn
    refine ⟨fun herrno => ?_, hrej⟩
    have hfinal := hacc herrno
    refine ⟨hfinal, ?_, ?_, ?_⟩ <;> rw [hfinal]

/-- C16: when the token after `-g`/`--game` does not name an existing file,
`cnMain_OptionPayload` returns the parse-error sentinel and leaves the main
configuration, the stored game-library path included, unchanged;
`cnMain_ParseCommandLine`, over the registry start-up builds and with the
earlier tokens consumed by successful handlers, returns false; and
`cnMain_StartUp` ends in the fatal error "Unable to parse command line."
having only run `cnLog_PreInit`, default-config functions and option
handlers: no module was looked up, loaded, or asked for its symbols, and no
subsystem or payload was initialised. -/
theorem cnMain_StartUp_missing_game_library (env : Env) (fns : CoreSystemFns) (w : World)
    (st : MainState) (argv : List String) (k : Nat) (flag gamePath : String)
    (cfgD cfgK : Nat → CnMainConfig)
    (hflag : flag = "-g" ∨ flag = "--game")
    (hempty : st.s_coreSystems = [])
    (hdef : cnMain_ParseCommandLine_defaults (builtRegistry env fns) st.configs = .ok cfgD)
    (hgroups : ResolvedGroups (builtRegistry env fns) argv.length argv 1 cfgD k cfgK)
    (htoken : argv[k]? = some flag)
    (hpath : argv[k + 1]? = some gamePath)
    (hfile : cnPath_IsFile env (some gamePath) = false) :
    ((cnMain_OptionPayload env ⟨argv.length, argv, k⟩ (cfgK cnMain_Config)).ret =
        CnOptionParseError ∧
      (cnMain_OptionPayload env ⟨argv.length, argv, k⟩ (cfgK cnMain_Config)).config =
        cfgK cnMain_Config) ∧
    (∃ r, cnMain_ParseCommandLine (builtRegistry env fns) st.configs argv.length argv =
        some (.ok r) ∧
      r.ret = false ∧ r.unparsed = some (some flag, k) ∧
      (r.configs cnMain_Config).gameLibPath = (cfgK cnMain_Config).gameLibPath) ∧
    (∃ run, cnMain_StartUp env fns w st argv.length argv = some run ∧
      run.outcome = .error "Unable to parse command line." ∧
      (∀ e ∈ run.events, e = Event.logPreInit ∨ (∃ i, e = Event.setDefaultConfig i) ∨
        ∃ call, e = Event.optionHandler call) ∧
      (∀ path library, Event.lastModifiedTime path ∉ run.events ∧
        Event.libraryLoad path ∉ run.events ∧ Event.resolveSymbols library ∉ run.events)) := by
  have hla : k + 2 ≤ argv.length := by
    rcases List.getElem?_eq_some_iff.1 hpath with ⟨h, _⟩
    omega
  obtain ⟨p1, p2, _⟩ := optionPayload_not_file env ⟨argv.length, argv, k⟩ (cfgK cnMain_Config)
    gamePath hla hpath hfile
  obtain ⟨o, ho1, ho2⟩ := (firstSystem_main env [fns.cnLog_System, fns.cnCrash_System,
    fns.cnMem_System, fns.cnTime_System, fns.cnAssets_System]).1 flag hflag
  have hret : (o.parser ⟨argv.length, argv, k⟩ (cfgK (cnMain_System env).config)).1 < 0 := by
    rw [ho2]
    show (cnMain_OptionPayload env ⟨argv.length, argv, k⟩ (cfgK cnMain_Config)).ret < 0
    rw [p1]; decide
  obtain ⟨r, before, r1, r2, _, r4, r5, r6, _⟩ := parse_fails_at_handler
    (builtRegistry env fns) st.configs cfgD cfgK argv k flag 0 (cnMain_System env) 0 o
    hdef hgroups htoken ho1 hret
  have hcfg : (r.configs cnMain_Config).gameLibPath = (cfgK cnMain_Config).gameLibPath := by
    rw [r5, ho2]
    show (Function.update cfgK cnMain_Config
      (cnMain_OptionPayload env ⟨argv.length, argv, k⟩ (cfgK cnMain_Config)).config
      cnMain_Config).gameLibPath = _
    rw [Function.update_same, p2]
  have hevents : ∀ e ∈ Event.logPreInit ::
      ((List.range (builtRegistry env fns).length).map Event.setDefaultConfig ++
        r.calls.map Event.optionHandler),
      e = Event.logPreInit ∨ (∃ i, e = Event.setDefaultConfig i) ∨
        ∃ call, e = Event.optionHandler call := by
    intro e he
    rcases List.mem_cons.1 he with he | he
    · exact Or.inl he
    · rcases List.mem_append.1 he with he | he
      · obtain ⟨i, _, hi⟩ := List.mem_map.1 he
        exact Or.inr (Or.inl ⟨i, hi.symm⟩)
      · obtain ⟨call, _, hcall⟩ := List.mem_map.1 he
        exact Or.inr (Or.inr ⟨call, hcall.symm⟩)
  refine ⟨⟨p1, p2⟩, ⟨r, r1, r2, r4, hcfg⟩, ?_⟩
  refine ⟨Run.mk (Event.logPreInit ::
      ((List.range (builtRegistry env fns).length).map Event.setDefaultConfig ++
        r.calls.map Event.optionHandler))
    (.error "Unable to parse command line."), ?_, rfl, hevents, ?_⟩
  · simp only [cnMain_StartUp, hempty, buildCoreSystemList_empty, r1, r2]
    rfl
  · intro path library
    refine ⟨?_, ?_, ?_⟩ <;> intro hmem <;>
      rcases hevents _ hmem with h | ⟨i, h⟩ | ⟨call, h⟩ <;> cases h

/-- Witness for C16: `prog -g missing/path/to/lib` where only `game.so`
exists. -/
theorem cnMain_StartUp_missing_game_library_witness :
    ∃ run, cnMain_StartUp exampleEnv exampleFns exampleWorld initialState 3
        ["prog", "-g", "missing/path/to/lib"] = some run ∧
      run.outcome = .error "Unable to parse command line." ∧
      ∀ path, Event.libraryLoad path ∉ run.events := by
  obtain ⟨_, _, run, h1, h2, _, h4⟩ := cnMain_StartUp_missing_game_library exampleEnv
    exampleFns exampleWorld initialState ["prog", "-g", "missing/path/to/lib"] 1 "-g"
    "missing/path/to/lib" _ _ (Or.inl rfl) rfl rfl (ResolvedGroups.done _ _) rfl rfl
    (by decide)
  exact ⟨run, h1, h2, fun path => (h4 path 0).2.1⟩

/-! ## Shutdown and the loop: the claims -/

/-- C21: for every registry `[s_0, ..., s_(n-1)]`, the subsystem part of
`cnMain_Shutdown` handles the subsystems in exactly the order
`s_(n-1), ..., s_0`, each exactly once: a subsystem with a shutdown function
has it called exactly once, one without is reported and skipped and the
sequence goes on; for `[A, B, C]` the order is `[C, B, A]`, also when `B` has
no shutdown function. -/
theorem cnMain_Shutdown_reverse_order (st : MainState) :
    (∃ before, cnMain_Shutdown st =
        before ++ st.s_coreSystems.enum.reverse.map
          (fun p => cnMain_Shutdown_system p.1 p.2) ∧
      ∀ e ∈ before, e.subsystem = none) ∧
    (cnMain_Shutdown st).filterMap Event.subsystem =
      (List.range st.s_coreSystems.length).reverse ∧
    (∀ i system, st.s_coreSystems[i]? = some system →
      (∀ fn, system.plugin.shutdown = some fn →
        (cnMain_Shutdown st).count (Event.systemShutdown i fn) = 1) ∧
      (system.plugin.shutdown = none →
        (cnMain_Shutdown st).count (Event.noShutdownFunction i) = 1 ∧
        ∀ fn, Event.systemShutdown i fn ∉ cnMain_Shutdown st)) ∧
    cnMain_Shutdown { initialState with s_coreSystems := registryABC } =
      [Event.renderShutdown, Event.uiShutdown, Event.systemShutdown 2 30,
       Event.systemShutdown 1 20, Event.systemShutdown 0 10] ∧
    cnMain_Shutdown { initialState with s_coreSystems := registryAxC } =
      [Event.renderShutdown, Event.uiShutdown, Event.systemShutdown 2 30,
       Event.noShutdownFunction 1, Event.systemShutdown 0 10] := by
  have hev := shutdown_events st
  have hbefore := shutdown_before_subsystem st.s_payload
  have hcount : ∀ i system, st.s_coreSystems[i]? = some system →
      (cnMain_Shutdown st).count (cnMain_Shutdown_system i system) = 1 := by
    intro i system hi
    have h0 : ((match st.s_payload.shutdown with
        | some fn => [Event.payloadShutdown fn]
        | none => []) ++ [Event.renderShutdown, Event.uiShutdown]).count
        (cnMain_Shutdown_system i system) = 0 := by
      apply List.count_eq_zero.mpr
      intro hmem
      have := hbefore _ hmem
      rw [shutdown_system_subsystem] at this
      cases this
    have h1 := shutdown_enumFrom_count st.s_coreSystems 0 i system hi
    rw [Nat.zero_add] at h1
    rw [hev, List.count_append, h0, List.map_reverse, List.count_reverse, Nat.zero_add]
    exact h1
  refine ⟨⟨_, hev, hbefore⟩, ?_, ?_, rfl, rfl⟩
  · have hfun : (Event.subsystem ∘ fun p : Nat × CnSystem CnMainConfig =>
        cnMain_Shutdown_system p.1 p.2) = some ∘ Prod.fst := by
      funext p; exact shutdown_system_subsystem p.1 p.2
    rw [hev, List.filterMap_append,
      List.filterMap_eq_nil_iff.mpr (fun e he => hbefore e he), List.nil_append,
      List.filterMap_map, hfun, List.filterMap_eq_map, List.map_reverse, List.enum_map_fst]
  · intro i system hi
    have hc := hcount i system hi
    constructor
    · intro fn hfn
      have : cnMain_Shutdown_system i system = Event.systemShutdown i fn := by
        unfold cnMain_Shutdown_system; rw [hfn]
      rwa [this] at hc
    · intro hnone
      have hsys : cnMain_Shutdown_system i system = Event.noShutdownFunction i := by
        unfold cnMain_Shutdown_system; rw [hnone]
      refine ⟨by rwa [hsys] at hc, ?_⟩
      intro fn hmem
      rw [hev, List.mem_append] at hmem
      rcases hmem with hmem | hmem
      · have := hbefore _ hmem; cases this
      · rw [List.mem_map] at hmem
        obtain ⟨p, hp, hpe⟩ := hmem
        rw [List.mem_reverse] at hp
        have hp2 := List.mk_mem_enum_iff_getElem?.mp (show (p.1, p.2) ∈ _ from hp)
        have hidx := shutdown_system_subsystem p.1 p.2
        rw [hpe] at hidx
        have hidx2 : i = p.1 := by simpa [Event.subsystem] using hidx
        rw [← hidx2, hi] at hp2
        have hp3 : system = p.2 := by simpa using hp2
        rw [← hp3, ← hidx2, hsys] at hpe
        cases hpe

/-- C22: in `cnMain_Shutdown` the payload's shutdown, when the payload has
one, is the first call and is made exactly once, before the rendering and
windowing shutdown and before anything is done for a subsystem; when the
payload has none, the rendering and windowing shutdown and the handling of
every subsystem run all the same. -/
theorem cnMain_Shutdown_payload_first (st : MainState) :
    ∃ rest, (∀ e ∈ rest, ∃ i, e.subsystem = some i) ∧
      rest.length = st.s_coreSystems.length ∧
      (∀ fn, st.s_payload.shutdown = some fn →
        cnMain_Shutdown st =
          Event.payloadShutdown fn :: Event.renderShutdown :: Event.uiShutdown :: rest ∧
        (cnMain_Shutdown st).count (Event.payloadShutdown fn) = 1) ∧
      (st.s_payload.shutdown = none →
        cnMain_Shutdown st = Event.renderShutdown :: Event.uiShutdown :: rest) := by
  have hev := shutdown_events st
  have hrest : ∀ e ∈ st.s_coreSystems.enum.reverse.map
      (fun p => cnMain_Shutdown_system p.1 p.2), ∃ i, e.subsystem = some i := by
    intro e he
    rw [List.mem_map] at he
    obtain ⟨p, _, rfl⟩ := he
    exact ⟨p.1, shutdown_system_subsystem p.1 p.2⟩
  refine ⟨_, hrest, by simp, ?_, ?_⟩
  · intro fn hfn
    rw [hfn] at hev
    refine ⟨hev, ?_⟩
    rw [hev]
    have h0 : (st.s_coreSystems.enum.reverse.map
        (fun p => cnMain_Shutdown_system p.1 p.2)).count (Event.payloadShutdown fn) = 0 := by
      apply List.count_eq_zero.mpr
      intro hmem
      obtain ⟨i, hi⟩ := hrest _ hmem
      cases hi
    rw [List.map_reverse, List.count_reverse] at h0
    simp [List.count_cons, h0]
  · intro hnone
    rw [hnone] at hev
    exact hev

/-- C23: a run of `cnMain_Loop` with a payload whose tick and draw are set is
made of the first `k` iterations of the clock readings, each the event pump
once, then the payload's tick with the generated dt exactly when the
iteration's call of `cnMain_GenerateTick` returned true, then the payload's
draw once.  The number `k` is that of the readings unless the tick limit
stops the loop: no limit is reached before any of the `k` iterations, and one
is reached after them when readings are left.  The pump runs `k` times and
the draw is called `k` times, the consumed-tick counter advances by the number
of tick calls, and there are at most as many tick calls as draw calls. -/
theorem cnMain_Loop_iterations (st : MainState) (readings : List CnTime) (tick draw : Nat)
    (htick : st.s_payload.tick = some tick) (hdraw : st.s_payload.draw = some draw) :
    (loopIterations tick draw st.s_lastTick readings).length = readings.length ∧
    ∃ (k : Nat) (st2 : MainState),
      k ≤ readings.length ∧
      (cnMain_Loop st readings).events =
        ((loopIterations tick draw st.s_lastTick readings).take k).flatten ∧
      (cnMain_Loop st readings).outcome = .ok st2 ∧
      (∀ j, j < k → ¬ (st.tickLimit ≠ 0 ∧ st.ticks +
        ((loopIterations tick draw st.s_lastTick readings).take j).flatten.countP
          Event.isTick = st.tickLimit)) ∧
      (k < readings.length → st.tickLimit ≠ 0 ∧ st.ticks +
        ((loopIterations tick draw st.s_lastTick readings).take k).flatten.countP
          Event.isTick = st.tickLimit) ∧
      (st.tickLimit = 0 → k = readings.length) ∧
      (cnMain_Loop st readings).events.countP Event.isPump = k ∧
      (cnMain_Loop st readings).events.countP Event.isDraw = k ∧
      st2.ticks = st.ticks + (cnMain_Loop st readings).events.countP Event.isTick ∧
      st2.tickLimit = st.tickLimit ∧
      (cnMain_Loop st readings).events.countP Event.isTick ≤
        (cnMain_Loop st readings).events.countP Event.isDraw := by
  refine ⟨loopIterations_length tick draw readings st.s_lastTick, ?_⟩
  obtain ⟨k, hk, hev, htk, hlimit, hbefore, hafter, hp, hd, ht⟩ :=
    loop_iterate_trace tick draw readings st
  rw [loop_of_payload st readings tick draw htick hdraw]
  refine ⟨k, _, hk, hev, rfl, hbefore, hafter, ?_, ?_, ?_, ?_, hlimit, ?_⟩
  · intro hzero
    by_contra hne
    exact (hafter (by omega)).1 hzero
  · show List.countP Event.isPump (cnMain_Loop_iterate tick draw readings st).1 = _
    rw [hev, hp]
  · show List.countP Event.isDraw (cnMain_Loop_iterate tick draw readings st).1 = _
    rw [hev, hd]
  · show _ = st.ticks + List.countP Event.isTick (cnMain_Loop_iterate tick draw readings st).1
    rw [hev, htk]
  · show List.countP Event.isTick (cnMain_Loop_iterate tick draw readings st).1 ≤
      List.countP Event.isDraw (cnMain_Loop_iterate tick draw readings st).1
    rw [hev, hd]
    exact ht

/-- The witness of C23: a run over five clock readings with the payload whose
tick is at 3 and whose draw is at 4; ticks are generated at 16 ms, 40 ms,
80 ms and 100 ms, and none at 17 ms. -/
theorem cnMain_Loop_iterations_witness :
    runningState.s_payload.tick = some 3 ∧ runningState.s_payload.draw = some 4 ∧
    (cnMain_Loop runningState exampleReadings).events =
      [Event.processWindowEvents, Event.payloadTick 3 ⟨16000000⟩, Event.payloadDraw 4,
       Event.processWindowEvents, Event.payloadDraw 4,
       Event.processWindowEvents, Event.payloadTick 3 ⟨24000000⟩, Event.payloadDraw 4,
       Event.processWindowEvents, Event.payloadTick 3 ⟨40000000⟩, Event.payloadDraw 4,
       Event.processWindowEvents, Event.payloadTick 3 ⟨20000000⟩, Event.payloadDraw 4] ∧
    (loopIterations 3 4 runningState.s_lastTick exampleReadings).length =
      exampleReadings.length ∧
    ∃ (k : Nat) (st2 : MainState),
      k ≤ exampleReadings.length ∧
      (cnMain_Loop runningState exampleReadings).events =
        ((loopIterations 3 4 runningState.s_lastTick exampleReadings).take k).flatten ∧
      (cnMain_Loop runningState exampleReadings).outcome = .ok st2 ∧
      (∀ j, j < k → ¬ (runningState.tickLimit ≠ 0 ∧ runningState.ticks +
        ((loopIterations 3 4 runningState.s_lastTick exampleReadings).take j).flatten.countP
          Event.isTick = runningState.tickLimit)) ∧
      (k < exampleReadings.length → runningState.tickLimit ≠ 0 ∧ runningState.ticks +
        ((loopIterations 3 4 runningState.s_lastTick exampleReadings).take k).flatten.countP
          Event.isTick = runningState.tickLimit) ∧
      (runningState.tickLimit = 0 → k = exampleReadings.length) ∧
      (cnMain_Loop runningState exampleReadings).events.countP Event.isPump = k ∧
      (cnMain_Loop runningState exampleReadings).events.countP Event.isDraw = k ∧
      st2.ticks = runningState.ticks +
        (cnMain_Loop runningState exampleReadings).events.countP Event.isTick ∧
      st2.tickLimit = runningState.tickLimit ∧
      (cnMain_Loop runningState exampleReadings).events.countP Event.isTick ≤
        (cnMain_Loop runningState exampleReadings).events.countP Event.isDraw :=
  ⟨rfl, rfl, by decide, cnMain_Loop_iterations runningState exampleReadings 3 4 rfl rfl⟩

/-- C24: with a tick limit `N > 0` in the main configuration and no tick
consumed yet, `cnMain_Init` stores the limit and `cnMain_Loop` then forwards
to the payload the first `N` generated ticks, or all of them if fewer than `N`
are generated while the program is running, and never an `(N+1)`-th; when `N`
ticks are generated, the loop ends with the draw call of the iteration whose
tick made the consumed-tick count equal to `N`. -/
theorem cnMain_Loop_tick_limit (st : MainState) (readings : List CnTime) (N tick draw : Nat)
    (hN : 0 < N) (hconfig : (st.configs cnMain_Config).tickLimit = N) (hticks : st.ticks = 0)
    (htick : st.s_payload.tick = some tick) (hdraw : st.s_payload.draw = some draw) :
    (cnMain_Init st).2.tickLimit = N ∧
    ∃ st2, (cnMain_Loop (cnMain_Init st).2 readings).outcome = .ok st2 ∧
      (cnMain_Loop (cnMain_Init st).2 readings).events.countP Event.isTick =
        min N (generatedTicks st.s_lastTick readings) ∧
      (cnMain_Loop (cnMain_Init st).2 readings).events.countP Event.isTick ≤ N ∧
      st2.ticks = min N (generatedTicks st.s_lastTick readings) ∧
      (N ≤ generatedTicks st.s_lastTick readings →
        cnMain_IsTickLimitReached st2 = true ∧
        ∃ front dt, (cnMain_Loop (cnMain_Init st).2 readings).events =
          front ++ [Event.payloadTick tick dt, Event.payloadDraw draw]) := by
  have hinit : (cnMain_Init st).2 = { st with tickLimit := N } := by
    unfold cnMain_Init
    rw [if_pos (by rw [hconfig]; omega), hconfig]
    rfl
  rw [hinit]
  have hlim : ({ st with tickLimit := N } : MainState).tickLimit ≠ 0 := by
    show N ≠ 0; omega
  have hle : ({ st with tickLimit := N } : MainState).ticks ≤
      ({ st with tickLimit := N } : MainState).tickLimit := by
    show st.ticks ≤ N; omega
  obtain ⟨hcount, hlast⟩ :=
    loop_iterate_limit tick draw readings { st with tickLimit := N } hlim hle
  obtain ⟨blocks, hj, _, hshape, hblocks⟩ :=
    loop_iterate_blocks tick draw readings { st with tickLimit := N }
  obtain ⟨_, _, h3⟩ := countP_join_blocks tick draw blocks hshape
  have hN2 := loop_iterate_tickLimit tick draw readings { st with tickLimit := N }
  have hcount2 : (cnMain_Loop_iterate tick draw readings { st with tickLimit := N }).1.countP
      Event.isTick = min N (generatedTicks st.s_lastTick readings) := by
    rw [hcount]
    show min (N - st.ticks) _ = _
    rw [hticks, Nat.sub_zero]
  have hst2 : (cnMain_Loop_iterate tick draw readings { st with tickLimit := N }).2.ticks =
      min N (generatedTicks st.s_lastTick readings) := by
    rw [hblocks, ← h3, ← hj, hcount2]
    show st.ticks + _ = _
    rw [hticks, Nat.zero_add]
  rw [loop_of_payload { st with tickLimit := N } readings tick draw htick hdraw]
  refine ⟨rfl, _, rfl, hcount2, ?_, hst2, ?_⟩
  · show (cnMain_Loop_iterate tick draw readings { st with tickLimit := N }).1.countP
      Event.isTick ≤ N
    rw [hcount2]; exact Nat.min_le_left _ _
  · intro hgen
    constructor
    · rw [isTickLimitReached_iff, hN2, hst2]
      exact ⟨hlim, Nat.min_eq_left hgen⟩
    · exact hlast (by show st.ticks < N; omega) (by show N - st.ticks ≤ _; omega)

/-- The witness of C24: a tick limit of 2 and five clock readings that
generate four ticks; two tick calls are made. -/
theorem cnMain_Loop_tick_limit_witness :
    0 < 2 ∧ (limitedState.configs cnMain_Config).tickLimit = 2 ∧ limitedState.ticks = 0 ∧
    limitedState.s_payload.tick = some 3 ∧ limitedState.s_payload.draw = some 4 ∧
    generatedTicks limitedState.s_lastTick exampleReadings = 4 ∧
    (cnMain_Init limitedState).2.tickLimit = 2 ∧
    ∃ st2, (cnMain_Loop (cnMain_Init limitedState).2 exampleReadings).outcome = .ok st2 ∧
      (cnMain_Loop (cnMain_Init limitedState).2 exampleReadings).events.countP Event.isTick =
        min 2 (generatedTicks limitedState.s_lastTick exampleReadings) ∧
      (cnMain_Loop (cnMain_Init limitedState).2 exampleReadings).events.countP Event.isTick ≤ 2 ∧
      st2.ticks = min 2 (generatedTicks limitedState.s_lastTick exampleReadings) ∧
      (2 ≤ generatedTicks limitedState.s_lastTick exampleReadings →
        cnMain_IsTickLimitReached st2 = true ∧
        ∃ front dt, (cnMain_Loop (cnMain_Init limitedState).2 exampleReadings).events =
          front ++ [Event.payloadTick 3 dt, Event.payloadDraw 4]) :=
  ⟨by decide, rfl, rfl, rfl, rfl, by decide,
   cnMain_Loop_tick_limit limitedState exampleReadings 2 3 4 (by decide) rfl rfl rfl rfl⟩

/-! ## Start-up order and the payload: the claims -/

/-- C25: every run of `cnMain_StartUp` makes its calls for the registry in
this order: the default-config functions of the subsystems, from the first
registered on; then the option handlers; then the subsystem inits, in
registration order.  A handler or an init is only called once the
default-config function of every registered subsystem has run; an init that
returns false is the last call of the run, which ends in the fatal error
"Unable to initialize core system", so that no later subsystem is
initialised; and whatever follows the inits is none of these calls.  In the
run of `prog -t 5` in which the init of the fourth subsystem returns false,
six default-config calls are followed by the handler of `-t` and by the inits
of the first four subsystems. -/
theorem cnMain_StartUp_order (env : Env) (fns : CoreSystemFns) (w : World) (st : MainState)
    (argc : Nat) (argv : List String) :
    (∃ run, cnMain_StartUp env fns w st argc argv = some run ∧
      ∃ (pre : List Event) (nDefaults : Nat) (calls : List HandlerCall) (k : Nat)
        (failed : Bool) (rest : List Event),
        run.events = pre ++ (List.range nDefaults).map Event.setDefaultConfig ++
          calls.map Event.optionHandler ++
          (List.range k).map (fun j => Event.systemInit j true) ++
          (if failed then [Event.systemInit k false] else []) ++ rest ∧
        (pre = [] ∨ pre = [Event.logPreInit]) ∧
        (∀ systems, cnMain_BuildCoreSystemList env fns st.s_coreSystems = .ok systems →
          nDefaults ≤ systems.length ∧ k + (if failed then 1 else 0) ≤ systems.length ∧
          (calls ≠ [] ∨ 0 < k ∨ failed = true → nDefaults = systems.length)) ∧
        (failed = true →
          run.outcome = .error "Unable to initialize core system: %d" ∧ rest = []) ∧
        (∀ e ∈ rest, e.isRegistryCall = false)) ∧
    (cnMain_StartUp exampleEnv exampleFns { exampleWorld with init := fun fn => decide (fn ≠ 3) }
        initialState 3 ["prog", "-t", "5"]).map (fun run => run.events) =
      some [Event.logPreInit, Event.setDefaultConfig 0, Event.setDefaultConfig 1,
        Event.setDefaultConfig 2, Event.setDefaultConfig 3, Event.setDefaultConfig 4,
        Event.setDefaultConfig 5,
        Event.optionHandler { system := 0, option := 1, config := 0, index := 1, ret := 2 },
        Event.systemInit 0 true, Event.systemInit 1 true, Event.systemInit 2 true,
        Event.systemInit 3 false] := by
  refine ⟨?_, rfl⟩
  unfold cnMain_StartUp
  cases hbuild : cnMain_BuildCoreSystemList env fns st.s_coreSystems with
  | error e =>
    exact ⟨_, rfl, [], 0, [], 0, false, [], rfl, Or.inl rfl,
      fun systems h => (by cases h), fun h => (by cases h), fun e he => (by cases he)⟩
  | ok systems =>
    obtain ⟨r, hr⟩ := parse_total systems st.configs argc argv
    simp only [hr]
    cases r with
    | error e =>
      refine ⟨_, rfl, [Event.logPreInit],
        (if argc < 1 then 0 else (systems.takeWhile fun system =>
          system.setDefaultConfig.isSome).length), [], 0, false, [], ?_, Or.inr rfl, ?_,
        fun h => (by cases h), fun e he => (by cases he)⟩
      · simp only [defaultsBeforeAbort, List.map_nil, List.range_zero, List.append_nil,
          Bool.false_eq_true, ↓reduceIte]
        split <;> rfl
      · intro systems2 h
        cases h
        refine ⟨?_, Nat.zero_le _, fun h => ?_⟩
        · split
          · exact Nat.zero_le _
          · exact (List.takeWhile_prefix _).length_le
        · rcases h with h | h | h
          · exact absurd rfl h
          · omega
          · cases h
    | ok parsed =>
      by_cases hret : parsed.ret = true
      · simp only [hret, Bool.not_true, Bool.false_eq_true, ↓reduceIte]
        obtain ⟨k, failed, hev, hlen, hfail, hok⟩ := initSystems_shape w systems 0
          { st with s_coreSystems := systems, configs := parsed.configs }
        simp only [Nat.zero_add] at hev
        cases hout : (cnMain_StartUp_initSystems w 0 systems
            { st with s_coreSystems := systems, configs := parsed.configs }).outcome with
        | error e =>
          refine ⟨_, rfl, [Event.logPreInit], systems.length, parsed.calls, k, failed, [],
            ?_, Or.inr rfl, ?_, fun h => ⟨?_, rfl⟩, fun e he => (by cases he)⟩
          · simp only [hev, List.append_nil, List.cons_append, List.nil_append,
              List.append_assoc]
          · intro systems2 h
            cases h
            exact ⟨Nat.le_refl _, hlen, fun _ => rfl⟩
          · have := hfail h
            rw [hout] at this
            exact this
        | ok st1 =>
          obtain ⟨hk, hf⟩ := hok st1 hout
          refine ⟨_, rfl, [Event.logPreInit], systems.length, parsed.calls, k, failed,
            (cnMain_StartUp_payload env w st1).events, ?_, Or.inr rfl, ?_,
            fun h => (by rw [hf] at h; cases h), startUp_payload_kind env w st1⟩
          · simp only [hev, List.cons_append, List.nil_append, List.append_assoc]
          · intro systems2 h
            cases h
            exact ⟨Nat.le_refl _, hlen, fun _ => rfl⟩
      · simp only [hret, Bool.not_false, ↓reduceIte]
        refine ⟨_, rfl, [Event.logPreInit], systems.length, parsed.calls, 0, false, [],
          ?_, Or.inr rfl, ?_, fun h => (by cases h), fun e he => (by cases he)⟩
        · simp only [List.range_zero, List.map_nil, List.append_nil, Bool.false_eq_true,
            ↓reduceIte, List.cons_append, List.nil_append]
        · intro systems2 h
          cases h
          exact ⟨Nat.le_refl _, Nat.zero_le _, fun _ => rfl⟩

/-- C26: if some registered subsystem descriptor has a null default-config
function, `cnMain_ParseCommandLine` ends in a fatal error whatever the argument
vector holds, and returns no parse result: no token is matched and no handler
is called.  With an argument count of at least one the error is the failed
`CN_ASSERT_PTR`; and were that macro to expand to nothing, the call through
the null pointer that follows it would end the program instead. -/
theorem cnMain_ParseCommandLine_null_default_fatal {C : Type} (systems : List (CnSystem C))
    (configs : Nat → C) (argc : Nat) (argv : List String)
    (hnull : ∃ system ∈ systems, system.setDefaultConfig = none) :
    (∃ e, cnMain_ParseCommandLine systems configs argc argv = some (.error e)) ∧
    (1 ≤ argc → cnMain_ParseCommandLine systems configs argc argv =
      some (.error "s_coreSystems[i].setDefaultConfig is null.")) ∧
    (∀ argv2, cnMain_ParseCommandLine systems configs argc argv2 =
      cnMain_ParseCommandLine systems configs argc argv) ∧
    cnMain_ParseCommandLine_defaults_unchecked systems configs =
      .error "call through a NULL function pointer" := by
  have hd := defaults_null systems hnull configs
  have hparse : ∀ a, cnMain_ParseCommandLine systems configs argc a =
      if argc < 1 then some (.error "Argument count must at least include the executable.")
      else some (.error "s_coreSystems[i].setDefaultConfig is null.") := by
    intro a
    unfold cnMain_ParseCommandLine
    rw [hd.1]
  refine ⟨?_, ?_, ?_, hd.2⟩
  · rw [hparse]; split <;> exact ⟨_, rfl⟩
  · intro h; rw [hparse, if_neg (by omega)]
  · intro argv2; rw [hparse, hparse]

/-- The witness of C26: the registry `[A, B, C]`, whose descriptors have no
default-config function, and the command line `prog -t 5`. -/
theorem cnMain_ParseCommandLine_null_default_fatal_witness :
    (∃ system ∈ registryABC, system.setDefaultConfig = none) ∧
    cnMain_ParseCommandLine registryABC (fun _ => exampleConfig) 3 ["prog", "-t", "5"] =
      some (.error "s_coreSystems[i].setDefaultConfig is null.") :=
  ⟨⟨_, List.mem_cons_self _ _, rfl⟩,
   (cnMain_ParseCommandLine_null_default_fatal registryABC (fun _ => exampleConfig) 3
      ["prog", "-t", "5"] ⟨_, List.mem_cons_self _ _, rfl⟩).2.1 (by decide)⟩

/-- C27: for every prior content of the main configuration block,
`cnMain_SetDefaultConfig` leaves tick limit 0, an empty game-library path, and
a payload whose init, tick, draw, shutdown and module handle are all null;
applying it twice gives the same block as applying it once. -/
theorem cnMain_SetDefaultConfig_zero (config : CnMainConfig) :
    (cnMain_SetDefaultConfig config).tickLimit = 0 ∧
    (cnMain_SetDefaultConfig config).gameLibPath = "" ∧
    (cnMain_SetDefaultConfig config).payload.init = none ∧
    (cnMain_SetDefaultConfig config).payload.tick = none ∧
    (cnMain_SetDefaultConfig config).payload.draw = none ∧
    (cnMain_SetDefaultConfig config).payload.shutdown = none ∧
    (cnMain_SetDefaultConfig config).payload.sharedLibrary = none ∧
    cnMain_SetDefaultConfig (cnMain_SetDefaultConfig config) = cnMain_SetDefaultConfig config :=
  ⟨rfl, rfl, rfl, rfl, rfl, rfl, rfl, rfl⟩

/-- C29: `cnMain_LoadPayloadFromFile` does not perform the steps after the
query of the modified time when `localtime` has no result for that time: for
`game.so` modified at second `2 ^ 62` and a running payload with a shutdown
function, the run ends in `strftime` right after the query, the old shutdown
is not called, and nothing is released or loaded.  For every world, payload
and name: the query comes first and, if it fails, the function ends fatally
having done nothing else; if `localtime` has no result it ends in the same
way; otherwise it calls the old payload's shutdown exactly once if it has one,
releases the old module, loads the new module and ends fatally if that fails,
resolves the symbols and validates the new payload, which is the running
payload when the function returns.  The old shutdown comes before the load,
and no payload init is called. -/
theorem cnMain_LoadPayloadFromFile_localtime_null :
    runningState.s_payload.shutdown = some 2 ∧
    farFutureWorld.cnAssets_LastModifiedTime "game.so" = some (2 ^ 62) ∧
    farFutureWorld.localtime (2 ^ 62) = false ∧
    (cnMain_LoadPayloadFromFile farFutureWorld runningState "game.so").events =
      [Event.lastModifiedTime "game.so"] ∧
    (cnMain_LoadPayloadFromFile farFutureWorld runningState "game.so").outcome =
      .error "strftime called with the NULL result of localtime" ∧
    (cnMain_LoadPayloadFromFile exampleWorld runningState "game.so").events =
      [Event.lastModifiedTime "game.so", Event.payloadShutdown 2, Event.libraryRelease none,
       Event.libraryLoad "game.so", Event.resolveSymbols 9] ∧
    ∀ (w : World) (st : MainState) (name : String),
      (∃ after, (cnMain_LoadPayloadFromFile w st name).events =
          [Event.lastModifiedTime name] ++ after ∧
        (w.cnAssets_LastModifiedTime name = none → after = [] ∧
          (cnMain_LoadPayloadFromFile w st name).outcome =
            .error "Unable to determine last modified time of '%s'") ∧
        (∀ t, w.cnAssets_LastModifiedTime name = some t → w.localtime t = false →
          after = [] ∧
          (cnMain_LoadPayloadFromFile w st name).outcome =
            .error "strftime called with the NULL result of localtime") ∧
        (∀ t, w.cnAssets_LastModifiedTime name = some t → w.localtime t = true →
          ∃ loaded, after = (match st.s_payload.shutdown with
              | some fn => [Event.payloadShutdown fn]
              | none => []) ++
            [Event.libraryRelease st.s_payload.sharedLibrary, Event.libraryLoad name] ++
              loaded ∧
          (w.cnSharedLibrary_Load name = none → loaded = [] ∧
            (cnMain_LoadPayloadFromFile w st name).outcome =
              .error "Unable to load game module: %s") ∧
          (∀ library, w.cnSharedLibrary_Load name = some library →
            loaded = [Event.resolveSymbols library] ∧
            (∀ e, cnMain_ValidatePayload (some (cnPlugin_LoadFromSharedLibrary w library)) =
                .error e → (cnMain_LoadPayloadFromFile w st name).outcome = .error e) ∧
            (∀ p, cnMain_ValidatePayload (some (cnPlugin_LoadFromSharedLibrary w library)) =
                .ok p → (cnMain_LoadPayloadFromFile w st name).outcome =
                  .ok { st with s_payload := cnPlugin_LoadFromSharedLibrary w library })))) ∧
      (∀ fn, Event.payloadInit fn ∉ (cnMain_LoadPayloadFromFile w st name).events) ∧
      (∀ fn t, st.s_payload.shutdown = some fn → w.cnAssets_LastModifiedTime name = some t →
        w.localtime t = true →
        (cnMain_LoadPayloadFromFile w st name).events.count (Event.payloadShutdown fn) = 1) ∧
      (∀ fn, Event.payloadShutdown fn ∈ (cnMain_LoadPayloadFromFile w st name).events →
        st.s_payload.shutdown = some fn) := by
  refine ⟨rfl, rfl, by decide, rfl, rfl, rfl, ?_⟩
  intro w st name
  have hfull := loadPayloadFromFile_events w st name
  refine ⟨hfull, ?_⟩
  obtain ⟨after, hev, hnone, hnull, hsome⟩ := hfull
  have hshort : after = [] →
      (∀ fn, Event.payloadInit fn ∉ [Event.lastModifiedTime name] ++ after) ∧
      (∀ fn, Event.payloadShutdown fn ∈ [Event.lastModifiedTime name] ++ after →
        st.s_payload.shutdown = some fn) := by
    intro h
    subst h
    exact ⟨fun fn h => (by simp at h), fun fn h => (by simp at h)⟩
  rw [hev]
  cases hmod : w.cnAssets_LastModifiedTime name with
  | none =>
    obtain ⟨h1, h2⟩ := hshort (hnone hmod).1
    exact ⟨h1, fun fn t _ h => (by cases h), h2⟩
  | some t =>
    cases hlt : w.localtime t with
    | false =>
      obtain ⟨h1, h2⟩ := hshort (hnull t hmod hlt).1
      exact ⟨h1, fun fn t2 _ h h3 => (by cases h; rw [hlt] at h3; cases h3), h2⟩
    | true =>
      obtain ⟨loaded, hafter, hl1, hl2⟩ := hsome t hmod hlt
      have hloaded : loaded = [] ∨ ∃ library, loaded = [Event.resolveSymbols library] := by
        cases hload : w.cnSharedLibrary_Load name with
        | none => exact Or.inl (hl1 hload).1
        | some library => exact Or.inr ⟨library, (hl2 library hload).1⟩
      rw [hafter]
      cases hsh : st.s_payload.shutdown with
      | none =>
        rcases hloaded with hl | ⟨library, hl⟩ <;> subst hl <;>
          exact ⟨fun fn h => (by simp at h), fun fn t2 h => (by cases h),
            fun fn h => (by simp at h)⟩
      | some fn0 =>
        rcases hloaded with hl | ⟨library, hl⟩ <;> subst hl <;>
          exact ⟨fun fn h => (by simp at h),
            fun fn t2 h _ _ => (by cases h; simp [List.count_cons]),
            fun fn h => (by simp at h; rw [h])⟩

/-! ## Monotonic subtraction: the claim -/

/-- C30: for every 64-bit value `a` and every `b`,
`cnUInt64_MonotonicSubtract(a, b)` is the difference `a - b` when `a >= b` and
0 when `a < b`; it is never above `a`, so it is a 64-bit value again; and
`cnTime_MonotonicSubtract` is the same operation on the wrapped values. -/
theorem cnUInt64_MonotonicSubtract_no_underflow (a b : Nat) (ha : a < UINT64_SIZE) :
    (b ≤ a → (cnUInt64_MonotonicSubtract a b : Int) = (a : Int) - (b : Int)) ∧
    (a < b → cnUInt64_MonotonicSubtract a b = 0) ∧
    cnUInt64_MonotonicSubtract a b ≤ a ∧
    cnUInt64_MonotonicSubtract a b < UINT64_SIZE ∧
    cnTime_MonotonicSubtract ⟨a⟩ ⟨b⟩ = ⟨cnUInt64_MonotonicSubtract a b⟩ := by
  have hle : cnUInt64_MonotonicSubtract a b ≤ a := by
    unfold cnUInt64_MonotonicSubtract; split <;> omega
  refine ⟨?_, ?_, hle, by omega, rfl⟩
  · intro h
    unfold cnUInt64_MonotonicSubtract
    rw [if_neg (by omega)]
    omega
  · intro h
    unfold cnUInt64_MonotonicSubtract
    rw [if_pos h]

/-- The witness of C30: 5 - 7 is clamped to 0 and 7 - 5 is 2. -/
theorem cnUInt64_MonotonicSubtract_no_underflow_witness :
    5 < UINT64_SIZE ∧ cnUInt64_MonotonicSubtract 5 7 = 0 ∧
    cnUInt64_MonotonicSubtract 5 7 ≤ 5 :=
  ⟨by decide,
   (cnUInt64_MonotonicSubtract_no_underflow 5 7 (by decide)).2.1 (by decide),
   (cnUInt64_MonotonicSubtract_no_underflow 5 7 (by decide)).2.2.1⟩

/-! ## The cursor bound: the claim -/

/-- C31: for every argument vector and argument count, `cnMain_ParseCommandLine`
over a registry made of the Main subsystem and of subsystems whose handlers
report only tokens that are there returns, and when it returns a parse result
the cursor index is at most `argc`, as it was whenever a handler was called:
every handler was called at an index below `argc` and the index plus the
number of tokens it reported is at most `argc`.  The handlers of `-g`, `--game`
and `-t`, `--tick-limit` return the parse-error value or 2, and 2 only when
`index + 2 <= argc`. -/
theorem cnMain_ParseCommandLine_index_bound (env : Env) (others : List (CnSystem CnMainConfig))
    (configs : Nat → CnMainConfig) (argc : Nat) (argv : List String)
    (hothers : ∀ s ∈ others, ReportsAvailableTokens s) :
    (∀ (parse : CnCommandLineParse) (config : CnMainConfig),
      ((cnMain_OptionPayload env parse config).ret = CnOptionParseError ∨
        ((cnMain_OptionPayload env parse config).ret = 2 ∧ parse.index + 2 ≤ parse.argc)) ∧
      ((cnMain_OptionTickLimit env parse config).ret = CnOptionParseError ∨
        ((cnMain_OptionTickLimit env parse config).ret = 2 ∧
          parse.index + 2 ≤ parse.argc))) ∧
    ∃ res, cnMain_ParseCommandLine (cnMain_System env :: others) configs argc argv = some res ∧
      ∀ r, res = .ok r →
        r.parse.index ≤ argc ∧ r.parse.argc = argc ∧
        ∀ call ∈ r.calls, call.index < argc ∧ call.index + call.ret.toNat ≤ argc := by
  refine ⟨fun parse config => ⟨(main_handlers_ret env parse config).1,
    (main_handlers_ret env parse config).2.1⟩, ?_⟩
  obtain ⟨res, hres⟩ := parse_total (cnMain_System env :: others) configs argc argv
  refine ⟨res, hres, ?_⟩
  intro r hr
  subst hr
  have hall : ∀ s ∈ cnMain_System env :: others, ReportsAvailableTokens s := by
    intro s hs
    rcases List.mem_cons.mp hs with h | h
    · rw [h]; exact main_reportsAvailableTokens env
    · exact hothers s h
  unfold cnMain_ParseCommandLine at hres
  by_cases h1 : argc < 1
  · simp [h1] at hres
  · simp only [h1, ↓reduceIte] at hres
    cases hd : cnMain_ParseCommandLine_defaults (cnMain_System env :: others) configs with
    | error e => rw [hd] at hres; simp at hres
    | ok cfgD =>
      rw [hd] at hres
      simp only at hres
      have key := loop_induct (cnMain_System env :: others)
        (fun parse st => parse.argc = argc ∧ parse.index ≤ argc ∧
          ∀ call ∈ st.calls, call.index < argc ∧ call.index + call.ret.toNat ≤ argc)
        (by
          intro parse j sys k o st hs ho hcont ⟨ha, hi, hcalls⟩
          have hlt : parse.index < parse.argc := by
            simpa [cnCommandLineParse_ShouldContinue] using hcont
          refine ⟨ha, hi, ?_⟩
          intro call hcall
          simp only [callParser, List.mem_append, List.mem_singleton] at hcall
          rcases hcall with hcall | hcall
          · exact hcalls call hcall
          · subst hcall
            refine ⟨by show parse.index < argc; omega, ?_⟩
            show parse.index + (o.parser parse (st.configs sys.config)).1.toNat ≤ argc
            rcases hall sys hs o ho parse (st.configs sys.config) with h | h
            · rw [Int.toNat_of_nonpos h]; omega
            · omega)
        (by
          intro parse st c hcont ⟨ha, hi, hcalls⟩ hpos ⟨sys, hs, o, ho, cfg, hc⟩
          refine ⟨ha, ?_, hcalls⟩
          show parse.index + c.toNat ≤ argc
          rcases hall sys hs o ho parse cfg with h | h
          · rw [hc] at h; omega
          · rw [hc] at h; omega)
        argc (cnCommandLineParse_Make argc argv) ⟨cfgD, []⟩ r hres
        ⟨rfl, by show 1 ≤ argc; omega, fun call hcall => (by cases hcall)⟩
      exact ⟨key.2.1, key.1, key.2.2⟩

/-- The witness of C31: the registry of the Main subsystem and five
subsystems without options, on the command line `prog -t 5 -g`. -/
theorem cnMain_ParseCommandLine_index_bound_witness :
    (∀ s ∈ [exampleFns.cnLog_System, exampleFns.cnCrash_System, exampleFns.cnMem_System,
        exampleFns.cnTime_System, exampleFns.cnAssets_System], ReportsAvailableTokens s) ∧
    ∃ res, cnMain_ParseCommandLine (builtRegistry exampleEnv exampleFns) initialState.configs 4
        ["prog", "-t", "5", "-g"] = some res ∧
      ∀ r, res = .ok r →
        r.parse.index ≤ 4 ∧ r.parse.argc = 4 ∧
        ∀ call ∈ r.calls, call.index < 4 ∧ call.index + call.ret.toNat ≤ 4 :=
  have h : ∀ s ∈ [exampleFns.cnLog_System, exampleFns.cnCrash_System, exampleFns.cnMem_System,
      exampleFns.cnTime_System, exampleFns.cnAssets_System], ReportsAvailableTokens s := by
    intro s hs o ho
    simp only [exampleFns, namedSystem, List.mem_cons, List.mem_singleton, List.not_mem_nil,
      or_false] at hs
    rcases hs with rfl | rfl | rfl | rfl | rfl <;> cases ho
  ⟨h, (cnMain_ParseCommandLine_index_bound exampleEnv _ initialState.configs 4
    ["prog", "-t", "5", "-g"] h).2⟩

/-! ## 2D transforms: the claims -/

/-- C32: the identity transform changes nothing: for every 2D value `p`, over
exact arithmetic, `cnMath2_TransformPoint(p, cnTransform2_MakeIdentity())` and
`cnMath2_TransformVector(p, cnTransform2_MakeIdentity())` are `p`; for
`(3, 5)` the squared distances the test compares with 0.1 are 0. -/
theorem cnTransform2_MakeIdentity_transform (p : CnFloat2) :
    cnMath2_TransformPoint p cnTransform2_MakeIdentity = p ∧
    cnMath2_TransformVector p cnTransform2_MakeIdentity = p ∧
    cnFloat2_DistanceSquared
      (cnMath2_TransformPoint (cnFloat2_Make 3 5) cnTransform2_MakeIdentity)
      (cnFloat2_Make 3 5) = 0 ∧
    cnFloat2_DistanceSquared
      (cnMath2_TransformVector (cnFloat2_Make 3 5) cnTransform2_MakeIdentity)
      (cnFloat2_Make 3 5) = 0 := by
  have h1 : ∀ q : CnFloat2, cnMath2_TransformPoint q cnTransform2_MakeIdentity = q := by
    intro q
    cases q
    simp [cnMath2_TransformPoint, cnTransform2_MakeIdentity, cnFloat2_Make, Matrix.vecHead,
      Matrix.vecTail]
  have h2 : ∀ q : CnFloat2, cnMath2_TransformVector q cnTransform2_MakeIdentity = q := by
    intro q
    cases q
    simp [cnMath2_TransformVector, cnTransform2_MakeIdentity, cnFloat2_Make, Matrix.vecHead,
      Matrix.vecTail]
  refine ⟨h1 p, h2 p, ?_, ?_⟩
  · rw [h1]; simp [cnFloat2_DistanceSquared, cnFloat2_LengthSquared, cnFloat2_Make]
  · rw [h2]; simp [cnFloat2_DistanceSquared, cnFloat2_LengthSquared, cnFloat2_Make]

/-- C33: a translation moves points by its offset: for every point `p` and all
`x`, `y`, over exact arithmetic,
`cnMath2_TransformPoint(p, cnTransform2_MakeTranslateXY(x, y))` is
`(p.x + x, p.y + y)`; `(3, 5)` translated by `(7, 11)` is `(10, 16)`. -/
theorem cnMath2_TransformPoint_translate (p : CnFloat2) (x y : ℚ) :
    cnMath2_TransformPoint p (cnTransform2_MakeTranslateXY x y) =
      cnFloat2_Make (p.x + x) (p.y + y) ∧
    cnMath2_TransformPoint (cnFloat2_Make 3 5) (cnTransform2_MakeTranslateXY 7 11) =
      cnFloat2_Make 10 16 := by
  have h : ∀ (q : CnFloat2) (a b : ℚ),
      cnMath2_TransformPoint q (cnTransform2_MakeTranslateXY a b) =
        cnFloat2_Make (q.x + a) (q.y + b) := by
    intro q a b
    simp [cnMath2_TransformPoint, cnTransform2_MakeTranslateXY, cnFloat2_Make, Matrix.vecHead,
      Matrix.vecTail]
  refine ⟨h p x y, ?_⟩
  rw [h]
  simp only [cnFloat2_Make]
  norm_num

/-- C34: a translation leaves vectors unchanged: for every vector `v` and all
`x`, `y`, over exact arithmetic,
`cnMath2_TransformVector(v, cnTransform2_MakeTranslateXY(x, y))` is `v`; so is
`(3, 5)` under a translation by `(7, 11)`. -/
theorem cnMath2_TransformVector_translate (v : CnFloat2) (x y : ℚ) :
    cnMath2_TransformVector v (cnTransform2_MakeTranslateXY x y) = v ∧
    cnMath2_TransformVector (cnFloat2_Make 3 5) (cnTransform2_MakeTranslateXY 7 11) =
      cnFloat2_Make 3 5 := by
  have h : ∀ (q : CnFloat2) (a b : ℚ),
      cnMath2_TransformVector q (cnTransform2_MakeTranslateXY a b) = q := by
    intro q a b
    cases q
    simp [cnMath2_TransformVector, cnTransform2_MakeTranslateXY, cnFloat2_Make,
      Matrix.vecHead, Matrix.vecTail]
  exact ⟨h v x y, h _ 7 11⟩

/-- C35, the claim as stated fails: with `first` the translation by `(1, 0)`
and `second` a quarter turn, `result.m[2][0]` is 1, while the row of `first`
times the column of `second` is 0. -/
theorem cnTransform2_Combine_row_column_counterexample :
    (cnTransform2_Combine (cnTransform2_MakeTranslateXY 1 0) quarterTurn).m 2 0 = 1 ∧
    (cnTransform2_MakeTranslateXY 1 0).m 2 0 * quarterTurn.m 0 0 +
      (cnTransform2_MakeTranslateXY 1 0).m 2 1 * quarterTurn.m 1 0 +
      (cnTransform2_MakeTranslateXY 1 0).m 2 2 * quarterTurn.m 2 0 = 0 ∧
    ¬ (∀ (first second : CnTransform2) (i j : Fin 3),
      (cnTransform2_Combine first second).m i j =
        first.m i 0 * second.m 0 j + first.m i 1 * second.m 1 j +
          first.m i 2 * second.m 2 j) := by
  have h1 : (cnTransform2_Combine (cnTransform2_MakeTranslateXY 1 0) quarterTurn).m 2 0 = 1 := by
    rw [combine_entry]
    simp [cnTransform2_MakeTranslateXY, quarterTurn, Matrix.vecHead, Matrix.vecTail]
  have h2 : (cnTransform2_MakeTranslateXY 1 0).m 2 0 * quarterTurn.m 0 0 +
      (cnTransform2_MakeTranslateXY 1 0).m 2 1 * quarterTurn.m 1 0 +
      (cnTransform2_MakeTranslateXY 1 0).m 2 2 * quarterTurn.m 2 0 = 0 := by
    simp [cnTransform2_MakeTranslateXY, quarterTurn, Matrix.vecHead, Matrix.vecTail]
  refine ⟨h1, h2, ?_⟩
  intro h
  have := h (cnTransform2_MakeTranslateXY 1 0) quarterTurn 2 0
  rw [h1, h2] at this
  norm_num at this

/-- C35, amended: for all `i`, `j` in 0..2, over exact arithmetic,
`cnTransform2_Combine(first, second).m[i][j]` is
`first.m[0][j]*second.m[i][0] + first.m[1][j]*second.m[i][1] +
first.m[2][j]*second.m[i][2]`: the entry is computed from row `i` of `second.m`
and column `j` of `first.m`.  The row of `first.m` times the column of
`second.m` is the entry of `cnTransform2_Combine(second, first)`. -/
theorem cnTransform2_Combine_entries (first second : CnTransform2) (i j : Fin 3) :
    (cnTransform2_Combine first second).m i j =
      first.m 0 j * second.m i 0 + first.m 1 j * second.m i 1 + first.m 2 j * second.m i 2 ∧
    (cnTransform2_Combine second first).m i j =
      first.m i 0 * second.m 0 j + first.m i 1 * second.m 1 j + first.m i 2 * second.m 2 j := by
  refine ⟨combine_entry first second i j, ?_⟩
  rw [combine_entry]
  ring

/-! ## The stored payload and handlers that return 0: the claims -/

/-- C36: the payload that `cnMainConfig_Freestanding(1, 3, 4, 2)` stored is
complete, and after `cnMain_ParseCommandLine` has parsed `prog`, or
`prog -t 5`, with the built registry it is gone: the parse returns true and
the payload of the main configuration has five null fields.  This is so for
every command line and every freestanding payload, as long as no other
subsystem uses the main configuration block: the first loop of
`cnMain_ParseCommandLine` zeroes the block and no handler stores a payload. -/
theorem cnMainConfig_Freestanding_not_kept :
    cnPlugin_IsComplete (freestandingState.configs cnMain_Config).payload = true ∧
    parseSummary (cnMain_ParseCommandLine (builtRegistry exampleEnv exampleFns)
        freestandingState.configs 1 ["prog"]) =
      some (some { ret := true, index := 1, calls := [], unparsed := none }) ∧
    parseSummary (cnMain_ParseCommandLine (builtRegistry exampleEnv exampleFns)
        freestandingState.configs 3 ["prog", "-t", "5"]) =
      some (some { ret := true, index := 3, calls := [⟨0, 1, 0, 1, 2⟩], unparsed := none }) ∧
    (∀ (env : Env) (others : List (CnSystem CnMainConfig)) (configs : Nat → CnMainConfig)
      (init tick draw shutdown : Option Nat) (argc : Nat) (argv : List String)
      (r : ParseResult CnMainConfig),
      (∀ s ∈ others, s.config ≠ cnMain_Config) →
      cnMain_ParseCommandLine (cnMain_System env :: others)
        (cnMainConfig_Freestanding configs init tick draw shutdown) argc argv = some (.ok r) →
      (r.configs cnMain_Config).payload =
        { init := none, shutdown := none, tick := none, draw := none,
          sharedLibrary := none } ∧
      cnPlugin_IsComplete (r.configs cnMain_Config).payload = false) := by
  refine ⟨rfl, by decide, by decide, ?_⟩
  intro env others configs init tick draw shutdown argc argv r hothers hres
  have h := parse_main_payload env others _ argc argv r hothers hres
  exact ⟨h, by rw [h]; rfl⟩

/-- C37: when the first option of a subsystem that matches the token at the
cursor has a handler that returns 0, `cnMain_RunSystemParsers` returns 0, the
value it returns for a subsystem without a matching option; the scan goes on
with the later subsystems at the same cursor; and when a scan of the whole
registry ends with 0, the parse returns false at that token, the cursor not
advanced.  The invocation of the handler is the only trace left. -/
theorem cnMain_RunSystemParsers_handler_zero {C : Type} (parse : CnCommandLineParse)
    (t : String) (j : Nat) (system : CnSystem C) (rest : List (CnSystem C))
    (st : ParseState C) (k : Nat) (o : CnCommandLineOption C)
    (hc : parse.index < parse.argc) (ht : parse.argv[parse.index]? = some t)
    (hfirst : firstOption t 0 system.options = some (k, o))
    (hzero : (o.parser parse (st.configs system.config)).1 = 0) :
    cnMain_RunSystemParsers parse j system st =
      .ok (0, (callParser parse j system k o st).2) ∧
    (∀ system0 : CnSystem C, firstOption t 0 system0.options = none →
      cnMain_RunSystemParsers parse j system0 st = .ok (0, st)) ∧
    cnMain_ParseCommandLine_scan parse j (system :: rest) st =
      cnMain_ParseCommandLine_scan parse (j + 1) rest (callParser parse j system k o st).2 ∧
    (∀ (systems : List (CnSystem C)) (fuel : Nat) (st0 st2 : ParseState C),
      cnMain_ParseCommandLine_scan parse 0 systems st0 = .ok (0, st2) →
      cnMain_ParseCommandLine_loop systems (fuel + 1) parse st0 =
        some (.ok (parseFailed parse st2)) ∧
      (parseFailed parse st2).ret = false ∧
      (parseFailed parse st2).parse.index = parse.index ∧
      (parseFailed parse st2).unparsed = some (some t, parse.index)) := by
  have hc1 : cnCommandLineParse_ShouldContinue parse = true := by
    simp [cnCommandLineParse_ShouldContinue, hc]
  have ht1 : cnCommandLineParse_LookAhead parse 1 = some t := by
    rw [lookAhead_one]; exact ht
  have hrun : cnMain_RunSystemParsers parse j system st =
      .ok (0, (callParser parse j system k o st).2) := by
    unfold cnMain_RunSystemParsers
    rw [runSystemParsers_from_eq parse t hc1 ht1 j system system.options 0 st, hfirst]
    have h1 : (callParser parse j system k o st).1 = 0 := hzero
    simp only
    rw [← h1]
  refine ⟨hrun, ?_, ?_, ?_⟩
  · intro system0 hnone
    unfold cnMain_RunSystemParsers
    rw [runSystemParsers_from_eq parse t hc1 ht1 j system0 system0.options 0 st, hnone]
  · simp only [cnMain_ParseCommandLine_scan, hrun, ne_eq, not_true_eq_false, ↓reduceIte]
  · intro systems fuel st0 st2 hscan
    refine ⟨?_, rfl, rfl, ?_⟩
    · simp only [cnMain_ParseCommandLine_loop, hc1, ↓reduceIte, hscan, le_refl]
    · simp only [parseFailed, ht1, cnCommandLineParse_LookAheadIndex]
      simp

/-- The witness of C37: the handler of `-x` returns 0 and no later subsystem
declares `-x`; the parse of `prog -x` fails at index 1. -/
theorem cnMain_RunSystemParsers_handler_zero_witness :
    (1 < 2 ∧ ["prog", "-x"][1]? = some "-x") ∧
    cnMain_ParseCommandLine_scan ⟨2, ["prog", "-x"], 1⟩ 0 zeroOnlyRegistry
        ⟨fun _ => 0, []⟩ =
      cnMain_ParseCommandLine_scan ⟨2, ["prog", "-x"], 1⟩ 1 [exampleSystem 1 [constOption "-y" 1]]
        (callParser ⟨2, ["prog", "-x"], 1⟩ 0 (exampleSystem 0 [constOption "-x" 0]) 0
          (constOption "-x" 0) ⟨fun _ => 0, []⟩).2 ∧
    parseSummary (cnMain_ParseCommandLine zeroOnlyRegistry (fun _ => 0) 2 ["prog", "-x"]) =
      some (some { ret := false, index := 1, calls := [⟨0, 0, 0, 1, 0⟩],
                   unparsed := some (some "-x", 1) }) :=
  ⟨⟨by decide, rfl⟩,
   (cnMain_RunSystemParsers_handler_zero ⟨2, ["prog", "-x"], 1⟩ "-x" 0
      (exampleSystem 0 [constOption "-x" 0]) [exampleSystem 1 [constOption "-y" 1]]
      ⟨fun _ => 0, []⟩ 0 (constOption "-x" 0) (by decide) rfl rfl rfl).2.2.1,
   by decide⟩

/-! ## The texture atlas and images: the claims -/

/-- C38: for an atlas allocated for `numImages` images, the grid is a square
of side `g`, the least integer with `g * g >= numImages`, and for every
`subImageId < numImages`, `TextureAtlas_SubImageGrid` returns a cell with
`row < g`, `col < g` and `row * g + col = subImageId`; so distinct ids below
`numImages` get distinct cells. -/
theorem TextureAtlas_SubImageGrid_cell (alloc : dimension2u32 → ImageRGBA8)
    (subImageSize : dimension2u32) (numImages subImageId : Nat) (ta : TextureAtlas)
    (halloc : TextureAtlas_Allocate alloc subImageSize numImages = .ok ta)
    (hid : subImageId < numImages) :
    1 ≤ numImages ∧ ta.gridSize.height = ta.gridSize.width ∧
    numImages ≤ ta.gridSize.width * ta.gridSize.width ∧
    (∀ k, numImages ≤ k * k → ta.gridSize.width ≤ k) ∧
    ∃ cell, TextureAtlas_SubImageGrid ta subImageId = .ok cell ∧
      cell.row < ta.gridSize.width ∧ cell.col < ta.gridSize.width ∧
      cell.row * ta.gridSize.width + cell.col = subImageId ∧
      ∀ id2, id2 < numImages → TextureAtlas_SubImageGrid ta id2 = .ok cell →
        id2 = subImageId := by
  obtain ⟨_, _, hn, _, _, _, hgrid, _, _⟩ := allocate_fields alloc subImageSize numImages ta halloc
  obtain ⟨hsq, hleast, hpos⟩ := ceilSqrt_spec numImages
  have hg : ta.gridSize.width = ceilSqrt numImages := by rw [hgrid]
  have hgh : ta.gridSize.height = ceilSqrt numImages := by rw [hgrid]
  have hgpos : 0 < ta.gridSize.width := by rw [hg]; exact hpos hn
  refine ⟨hn, by rw [hg, hgh], by rw [hg]; exact hsq, by rw [hg]; exact hleast, ?_⟩
  have hgrid_eq : ∀ id, TextureAtlas_SubImageGrid ta id =
      .ok { row := id / ta.gridSize.width, col := id % ta.gridSize.width } := by
    intro id
    unfold TextureAtlas_SubImageGrid
    rw [if_neg (by omega)]
  refine ⟨_, hgrid_eq subImageId, ?_, Nat.mod_lt _ hgpos, ?_, ?_⟩
  · show subImageId / ta.gridSize.width < ta.gridSize.width
    rw [Nat.div_lt_iff_lt_mul hgpos, hg]
    omega
  · show subImageId / ta.gridSize.width * ta.gridSize.width + subImageId % ta.gridSize.width =
      subImageId
    rw [Nat.mul_comm]
    exact Nat.div_add_mod _ _
  · intro id2 _ h2
    rw [hgrid_eq id2] at h2
    simp only [Except.ok.injEq, RowColu32.mk.injEq] at h2
    have e1 := Nat.div_add_mod id2 ta.gridSize.width
    have e2 := Nat.div_add_mod subImageId ta.gridSize.width
    rw [h2.1, h2.2] at e1
    omega

/-- The witness of C38: an atlas for 5 images of 2 by 2 pixels has a grid of
side 3, and image 4 is in row 1, column 1. -/
theorem TextureAtlas_SubImageGrid_cell_witness :
    (∃ ta, TextureAtlas_Allocate allocateZeroed ⟨2, 2⟩ 5 = .ok ta ∧ ta.gridSize.width = 3 ∧
      TextureAtlas_SubImageGrid ta 4 = .ok ⟨1, 1⟩) ∧
    ∀ ta, TextureAtlas_Allocate allocateZeroed ⟨2, 2⟩ 5 = .ok ta →
      ∃ cell, TextureAtlas_SubImageGrid ta 4 = .ok cell ∧
        cell.row < ta.gridSize.width ∧ cell.col < ta.gridSize.width ∧
        cell.row * ta.gridSize.width + cell.col = 4 ∧
        ∀ id2, id2 < 5 → TextureAtlas_SubImageGrid ta id2 = .ok cell → id2 = 4 :=
  ⟨⟨_, rfl, by decide, rfl⟩,
   fun ta h => (TextureAtlas_SubImageGrid_cell allocateZeroed ⟨2, 2⟩ 5 4 ta h
     (by decide)).2.2.2.2⟩

/-- C39, the claim as stated fails: the atlas for one image of 1 by 1 pixels
holds 4 bytes and has room, yet inserting a 1 by 1 sub-image whose pixel is
neither 0 nor 0xFFFFFFFF does not return: the assertion on the pixel's value
ends the run. -/
theorem TextureAtlas_Insert_returns_counterexample :
    ∃ ta, TextureAtlas_Allocate allocateZeroed ⟨1, 1⟩ 1 = .ok ta ∧
      ta.image.pixels.size = 4 * (ta.gridSize.width * 1) * (ta.gridSize.height * 1) ∧
      4 * (ta.gridSize.width * 1) * (ta.gridSize.height * 1) < UINT32_SIZE ∧
      ta.usedImages < ta.totalImages ∧
      (subImageOf 1 1 [1, 0, 0, 0]).pixels.size = 4 * 1 * 1 ∧
      TextureAtlas_Insert ta (subImageOf 1 1 [1, 0, 0, 0]) =
        .error "Unexpected subtexture value: %X" :=
  ⟨_, rfl, rfl, by decide, by decide, rfl, rfl⟩

/-- C39, amended: for an atlas allocated with sub-image size `(w, h)` for `n`
images, whose image holds `4 * (g*w) * (g*h)` bytes with no 32-bit overflow,
in any state with `usedImages < totalImages`, and a `w` by `h` sub-image of
`4 * w * h` bytes: every destination pixel offset is below `(g*w) * (g*h)`
and every source offset below `w * h`, so that the only assertion of
`TextureAtlas_Insert` that can fail is the one on the pixel values; and when
every pixel of the sub-image is 0 or 0xFFFFFFFF the call returns the previous
`usedImages` and leaves `usedImages` one higher, the other fields and the
size of the image as they were. -/
theorem TextureAtlas_Insert_in_bounds (alloc : dimension2u32 → ImageRGBA8) (w h n used : Nat)
    (contents : Nat → Nat) (ta0 : TextureAtlas) (subImage : ImageRGBA8)
    (halloc : TextureAtlas_Allocate alloc ⟨w, h⟩ n = .ok ta0)
    (hbacking : ta0.image.pixels.size =
      4 * (ta0.gridSize.width * w) * (ta0.gridSize.height * h))
    (hu32 : 4 * (ta0.gridSize.width * w) * (ta0.gridSize.height * h) < UINT32_SIZE)
    (hused : used < ta0.totalImages)
    (hsw : subImage.width = w) (hsh : subImage.height = h)
    (hss : subImage.pixels.size = 4 * w * h) :
    ∃ cell, TextureAtlas_SubImageGrid (atlasWith ta0 used contents) used = .ok cell ∧
      (∀ x y, x < w → y < h →
        TextureAtlas_Insert_destOffset (atlasWith ta0 used contents)
          (TextureAtlas_Insert_destStart (atlasWith ta0 used contents) subImage cell) x y <
            ta0.gridSize.width * w * (ta0.gridSize.height * h) ∧
        TextureAtlas_Insert_srcOffset subImage x y < w * h) ∧
      (∀ e, TextureAtlas_Insert (atlasWith ta0 used contents) subImage = .error e →
        e = "Unexpected subtexture value: %X") ∧
      ((∀ x y, x < w → y < h →
          readU32 subImage.pixels.contents (4 * (x + y * w)) = 0 ∨
          readU32 subImage.pixels.contents (4 * (x + y * w)) = 0xFFFFFFFF) →
        ∃ ta1, TextureAtlas_Insert (atlasWith ta0 used contents) subImage = .ok (used, ta1) ∧
          ta1.usedImages = used + 1 ∧ ta1.totalImages = ta0.totalImages ∧
          ta1.gridSize = ta0.gridSize ∧ ta1.backingSizePixels = ta0.backingSizePixels ∧
          ta1.subImageSizePixels = ta0.subImageSizePixels ∧
          ta1.image.pixels.size = ta0.image.pixels.size) := by
  obtain ⟨hw, hh, hn, _, htotal, _, hgrid, hback, _⟩ := allocate_fields alloc ⟨w, h⟩ n ta0 halloc
  obtain ⟨hsq, _, hgpos⟩ := ceilSqrt_spec n
  have hgw : ta0.gridSize.width = ceilSqrt n := by rw [hgrid]
  have hgh : ta0.gridSize.height = ceilSqrt n := by rw [hgrid]
  rw [hgw, hgh] at hbacking hu32 ⊢
  rw [htotal] at hused
  subst hsw
  subst hsh
  generalize hg : ceilSqrt n = g at *
  have hg1 : 0 < g := hgpos hn
  simp only at hw hh hback
  -- sizes
  have hS0 : 4 * (g * subImage.width) * (g * subImage.height) =
      4 * (g * subImage.width * (g * subImage.height)) := Nat.mul_assoc _ _ _
  have hT0 : 4 * subImage.width * subImage.height = 4 * (subImage.width * subImage.height) :=
    Nat.mul_assoc _ _ _
  have hgw1 : subImage.width ≤ g * subImage.width := Nat.le_mul_of_pos_left _ hg1
  have hgh1 : subImage.height ≤ g * subImage.height := Nat.le_mul_of_pos_left _ hg1
  have hTS : subImage.width * subImage.height ≤ g * subImage.width * (g * subImage.height) :=
    Nat.mul_le_mul hgw1 hgh1
  have hGle : g * subImage.width ≤ g * subImage.width * (g * subImage.height) :=
    Nat.le_mul_of_pos_right _ (by omega)
  have hgg : g * g ≤ g * subImage.width * (g * subImage.height) :=
    Nat.mul_le_mul (Nat.le_mul_of_pos_right _ hw) (Nat.le_mul_of_pos_right _ hh)
  have hgle : g ≤ g * g := Nat.le_mul_of_pos_left _ hg1
  have hbw : (atlasWith ta0 used contents).backingSizePixels.width = g * subImage.width := by
    show ta0.backingSizePixels.width = _
    rw [hback]
    exact Nat.mod_eq_of_lt (by omega)
  have hgridw : (atlasWith ta0 used contents).gridSize.width = g := hgw
  have hgridh : (atlasWith ta0 used contents).gridSize.height = g := hgh
  have hsize : (atlasWith ta0 used contents).image.pixels.size =
      4 * (g * subImage.width * (g * subImage.height)) := by
    show ta0.image.pixels.size = _
    rw [hbacking, hS0]
  -- the cell
  have hrow : used / g < g := by
    rw [Nat.div_lt_iff_lt_mul hg1]; omega
  have hcol : used % g < g := Nat.mod_lt _ hg1
  have hcell : TextureAtlas_SubImageGrid (atlasWith ta0 used contents) used =
      .ok { row := used / g, col := used % g } := by
    unfold TextureAtlas_SubImageGrid
    rw [hgridw, if_neg (by omega)]
  generalize used / g = row at hrow hcell ⊢
  generalize used % g = col at hcol hcell ⊢
  have hflip : (g + UINT32_SIZE - row - 1) % UINT32_SIZE = g - row - 1 := by
    rw [show g + UINT32_SIZE - row - 1 = g - row - 1 + UINT32_SIZE by omega,
      Nat.add_mod_right]
    exact Nat.mod_eq_of_lt (by omega)
  have hbound0 := insert_dest_bound g subImage.width subImage.height (g - row - 1)
    (col)
  have hstart : TextureAtlas_Insert_destStart (atlasWith ta0 used contents) subImage
      { row := row, col := col } =
      (g - row - 1) * (g * subImage.width) * subImage.height +
        col * subImage.width := by
    unfold TextureAtlas_Insert_destStart
    rw [hgridh, hbw]
    simp only
    rw [hflip]
    have := hbound0 0 0 (by omega) hcol hw hh
    exact Nat.mod_eq_of_lt (by omega)
  have hbound : ∀ x y, x < subImage.width → y < subImage.height →
      (g - row - 1) * (g * subImage.width) * subImage.height +
        col * subImage.width + x +
        y * (atlasWith ta0 used contents).backingSizePixels.width <
          g * subImage.width * (g * subImage.height) ∧
      x + y * subImage.width < subImage.width * subImage.height := by
    intro x y hx hy
    rw [hbw]
    exact ⟨hbound0 x y (by omega) hcol hx hy, insert_src_bound _ _ x y hx hy⟩
  obtain ⟨herr, hok⟩ := insert_rows_spec (atlasWith ta0 used contents) subImage
    ((g - row - 1) * (g * subImage.width) * subImage.height + col * subImage.width)
    (g * subImage.width * (g * subImage.height)) (subImage.width * subImage.height)
    hsize (by omega) (by rw [hss, hT0]) (by omega) hbound subImage.height 0
    (atlasWith ta0 used contents).image.pixels.contents (by omega)
  have hnotfull : used < (atlasWith ta0 used contents).totalImages := by
    show used < ta0.totalImages
    rw [htotal]; exact hused
  have huse : (atlasWith ta0 used contents).usedImages = used := rfl
  refine ⟨_, hcell, ?_, ?_, ?_⟩
  · intro x y hx hy
    obtain ⟨hb1, hb2⟩ := hbound x y hx hy
    obtain ⟨hd, hs, _⟩ := insert_pixel_eq (atlasWith ta0 used contents) subImage _ x y contents
      _ _ hb1 hsize (by omega) hb2 (by rw [hss, hT0]) (by omega)
    rw [hstart, hd, hs]
    exact ⟨hb1, hb2⟩
  · intro e he
    unfold TextureAtlas_Insert at he
    simp only [hnotfull, decide_True, Bool.not_true, Bool.false_eq_true, ↓reduceIte, huse,
      hcell, hstart] at he
    cases hrows : TextureAtlas_Insert_rows (atlasWith ta0 used contents) subImage
        ((g - row - 1) * (g * subImage.width) * subImage.height + col * subImage.width)
        subImage.height 0 (atlasWith ta0 used contents).image.pixels.contents with
    | error e2 =>
      rw [hrows] at he
      simp only [Except.error.injEq] at he
      rw [← he]
      exact herr e2 hrows
    | ok d =>
      rw [hrows] at he
      cases he
  · intro hpixels
    obtain ⟨d, hd⟩ := hok hpixels
    refine ⟨{ atlasWith ta0 used contents with
        usedImages := (used + 1) % UINT32_SIZE,
        image := { (atlasWith ta0 used contents).image with
          pixels := { (atlasWith ta0 used contents).image.pixels with contents := d } } },
      ?_, ?_, rfl, rfl, rfl, rfl, rfl⟩
    · unfold TextureAtlas_Insert
      simp only [hnotfull, decide_True, Bool.not_true, Bool.false_eq_true, ↓reduceIte, huse,
        hcell, hstart, hd]
    · show (used + 1) % UINT32_SIZE = used + 1
      exact Nat.mod_eq_of_lt (by omega)

/-- The witness of C39: the second insert into the atlas for 3 images of 2 by
1 pixels, of a sub-image with one white and one black pixel. -/
theorem TextureAtlas_Insert_in_bounds_witness :
    (TextureAtlas_Allocate allocateZeroed ⟨2, 1⟩ 3 = .ok exampleAtlas ∧
      1 < exampleAtlas.totalImages) ∧
    ∃ ta1, TextureAtlas_Insert (atlasWith exampleAtlas 1 (fun _ => 0))
        (subImageOf 2 1 [255, 255, 255, 255, 0, 0, 0, 0]) = .ok (1, ta1) ∧
      ta1.usedImages = 2 ∧
      (List.range 8).map (fun offset => ta1.image.pixels.contents (24 + offset)) =
        [255, 255, 255, 255, 0, 0, 0, 0] := by
  obtain ⟨_, _, _, _, hret⟩ := TextureAtlas_Insert_in_bounds allocateZeroed 2 1 3 1
    (fun _ => 0) exampleAtlas (subImageOf 2 1 [255, 255, 255, 255, 0, 0, 0, 0]) rfl rfl
    (by decide) (by decide) rfl rfl rfl
  obtain ⟨ta1, h1, h2, _⟩ := hret (by
    intro x y hx hy
    interval_cases x <;> interval_cases y <;> decide)
  refine ⟨⟨rfl, by decide⟩, ta1, h1, h2, ?_⟩
  have hval : (match TextureAtlas_Insert (atlasWith exampleAtlas 1 (fun _ => 0))
      (subImageOf 2 1 [255, 255, 255, 255, 0, 0, 0, 0]) with
    | .ok r => (List.range 8).map (fun offset => r.2.image.pixels.contents (24 + offset))
    | .error _ => []) = [255, 255, 255, 255, 0, 0, 0, 0] := by decide
  rw [h1] at hval
  exact hval

/-- C40: for every RGBA8 image with width and height above 0 and a pixel block
of exactly `4 * width * height` bytes (a `uint32_t`), `Image_Flip` returns, and
row `i` of the result is row `height - 1 - i` of the input, byte for byte;
width, height and the size of the block are unchanged; and flipping the result
again gives back every byte of the original block, whatever the newly
allocated blocks held. -/
theorem Image_Flip_reverses_rows (fresh : Nat → Nat) (image : ImagePixels)
    (hw : 0 < image.width) (hh : 0 < image.height)
    (hsize : image.pixels.size = 4 * image.width * image.height)
    (hu32 : image.pixels.size < UINT32_SIZE) :
    ∃ flipped, Image_Flip fresh image = .ok flipped ∧
      flipped.width = image.width ∧ flipped.height = image.height ∧
      flipped.pixels.size = image.pixels.size ∧
      (∀ i, i < image.height → ∀ b, b < 4 * image.width →
        flipped.pixels.contents (4 * image.width * i + b) =
          image.pixels.contents (4 * image.width * (image.height - 1 - i) + b)) ∧
      ∀ fresh2, ∃ twice, Image_Flip fresh2 flipped = .ok twice ∧
        twice.width = image.width ∧ twice.height = image.height ∧
        twice.pixels.size = image.pixels.size ∧
        ∀ a, a < image.pixels.size → twice.pixels.contents a = image.pixels.contents a := by
  obtain ⟨flipped, hflip, hfw, hfh, hfs, hrows⟩ := flip_once fresh image hw hh hsize hu32
  refine ⟨flipped, hflip, hfw, hfh, hfs, hrows, ?_⟩
  intro fresh2
  obtain ⟨twice, htwice, htw, hth, hts, hrows2⟩ := flip_once fresh2 flipped
    (by rw [hfw]; exact hw) (by rw [hfh]; exact hh) (by rw [hfs, hfw, hfh]; exact hsize)
    (by rw [hfs]; exact hu32)
  refine ⟨twice, htwice, htw.trans hfw, hth.trans hfh, hts.trans hfs, ?_⟩
  intro a ha
  rw [hfw, hfh] at hrows2
  have key : ∀ q m, q < image.height → m < 4 * image.width →
      twice.pixels.contents (4 * image.width * q + m) =
        image.pixels.contents (4 * image.width * q + m) := by
    intro q m hq hm
    rw [hrows2 q hq m hm, hrows (image.height - 1 - q) (by omega) m hm,
      show image.height - 1 - (image.height - 1 - q) = q by omega]
  have hrowpos : 0 < 4 * image.width := by omega
  have hdiv : a / (4 * image.width) < image.height := by
    rw [Nat.div_lt_iff_lt_mul hrowpos, Nat.mul_comm, ← hsize]
    exact ha
  have h := key (a / (4 * image.width)) (a % (4 * image.width)) hdiv (Nat.mod_lt _ hrowpos)
  rw [Nat.div_add_mod] at h
  exact h

/-- The witness of C40: an image one pixel wide and three pixels high. -/
theorem Image_Flip_reverses_rows_witness :
    (0 < (imageOf 1 3 [1, 2, 3, 4, 5, 6, 7, 8, 9, 10, 11, 12]).width ∧
      (imageOf 1 3 [1, 2, 3, 4, 5, 6, 7, 8, 9, 10, 11, 12]).pixels.size = 4 * 1 * 3) ∧
    ∃ flipped, Image_Flip (fun _ => 7)
        (imageOf 1 3 [1, 2, 3, 4, 5, 6, 7, 8, 9, 10, 11, 12]) = .ok flipped ∧
      (List.range 12).map flipped.pixels.contents = [9, 10, 11, 12, 5, 6, 7, 8, 1, 2, 3, 4] ∧
      ∀ i, i < 3 → ∀ b, b < 4 * 1 →
        flipped.pixels.contents (4 * 1 * i + b) =
          (imageOf 1 3 [1, 2, 3, 4, 5, 6, 7, 8, 9, 10, 11, 12]).pixels.contents
            (4 * 1 * (3 - 1 - i) + b) := by
  obtain ⟨flipped, h1, _, _, _, h5, _⟩ := Image_Flip_reverses_rows (fun _ => 7)
    (imageOf 1 3 [1, 2, 3, 4, 5, 6, 7, 8, 9, 10, 11, 12]) (by decide) (by decide) rfl (by decide)
  refine ⟨⟨by decide, rfl⟩, flipped, h1, ?_, h5⟩
  have hflip : Image_Flip (fun _ => 7) (imageOf 1 3 [1, 2, 3, 4, 5, 6, 7, 8, 9, 10, 11, 12]) =
      .ok flipped := h1
  have hval : (match Image_Flip (fun _ => 7)
      (imageOf 1 3 [1, 2, 3, 4, 5, 6, 7, 8, 9, 10, 11, 12]) with
    | .ok im => (List.range 12).map im.pixels.contents
    | .error _ => []) = [9, 10, 11, 12, 5, 6, 7, 8, 1, 2, 3, 4] := by decide
  rw [hflip] at hval
  exact hval

end Calendon
